import Mathlib

/-!
# agroport: the daily report aggregation

A shallow embedding of `models.GetDailyReport` (src/models/models.go) and of the
tables it reads, as created by `models.RunMigrations`; of the store functions of
`models` that read, update, delete, start and complete rows; and of the handlers of
src/handlers/handlers.go that call them.

Modelling conventions

* A table is the list of its rows.  A column that the schema leaves nullable is an
  `Option`; a `NOT NULL` column (and a primary key) is a plain value.
* A `TIMESTAMP` is an integer number of microseconds since 1970-01-01 00:00:00 on the
  wall-clock axis of the session; `NOW()` is a point of the same axis (the session
  time zone has a fixed offset, so the conversion between `timestamp` and
  `timestamptz` is a translation and leaves differences unchanged).  A `DATE` is a
  number of days since 1970-01-01.
* `hours_worked` is an exact rational: the rounding of the store's numeric type and of
  Go's `float64` is not modelled.
* Go's `int` is `Int`: every count is bounded by the number of rows of a table.
* The five statements of `GetDailyReport` read one state of the tables; each of the two
  statements that call `NOW()` has its own value of it.
* The order in which a `GROUP BY` delivers its groups is not fixed by the store; the
  model delivers them in the order `List.dedup` leaves the keys.
* A handler is a function from the store and its inputs (path variable, decoded body,
  query parameter) to the status code and body it writes, the calls of `models` it makes
  and the store it leaves; decoding JSON is an input of the model.
-/

namespace Agroport

/-! ## Data model -/

/-- Microseconds since 1970-01-01 00:00:00. -/
abbrev Timestamp := Int

/-- Days since 1970-01-01. -/
abbrev Date := Int

/-- Row of table `workers`. -/
structure Worker where
  ID : Int
  Name : String
  Email : Option String
  Phone : Option String
  Role : String
  CreatedAt : Option Timestamp
  UpdatedAt : Option Timestamp
deriving DecidableEq, Repr

/-- Row of table `fields`; `Area` is in hundredths of a decare (`DECIMAL(10,2)`). -/
structure Field where
  ID : Int
  Name : String
  Description : Option String
  Coordinates : String
  Area : Option Int
  CropType : String
  Period : String
  Region : String
  CreatedAt : Option Timestamp
  UpdatedAt : Option Timestamp
deriving DecidableEq, Repr

/-- Row of table `operations`; `OpType` is column `type`. -/
structure Operation where
  ID : Int
  ScheduleID : Option Int
  WorkerID : Option Int
  FieldID : Option Int
  OpType : String
  Description : Option String
  Status : Option String
  StartTime : Option Timestamp
  EndTime : Option Timestamp
  CompletedAt : Option Timestamp
  Notes : Option String
  CreatedAt : Option Timestamp
  UpdatedAt : Option Timestamp
deriving DecidableEq, Repr

/-- The tables read by the report. -/
structure DB where
  workers : List Worker
  fields : List Field
  operations : List Operation
deriving Repr

structure WorkerDailyStats where
  WorkerID : Int
  WorkerName : String
  Operations : Int
  HoursWorked : ℚ
  FieldsWorked : Int
deriving DecidableEq, Repr

structure FieldDailyStats where
  FieldID : Int
  FieldName : String
  Operations : Int
  HoursWorked : ℚ
  WorkersCount : Int
deriving DecidableEq, Repr

/-- Go's `map[string]int`, as an association list with at most one pair per key. -/
abbrev GoMap := List (String × Int)

structure DailyReport where
  Date : Timestamp
  TotalWorkers : Int
  TotalOperations : Int
  CompletedOps : Int
  InProgressOps : Int
  OperationsByType : GoMap
  WorkerStats : List WorkerDailyStats
  FieldStats : List FieldDailyStats
deriving DecidableEq, Repr

/-- The assignment `m[k] = v`. -/
def GoMap.set : GoMap → String → Int → GoMap
  | [], k, v => [(k, v)]
  | (k0, v0) :: rest, k, v =>
    if k0 = k then (k, v) :: rest else (k0, v0) :: GoMap.set rest k v

/-- The lookup `m[k]`, `none` when the key is absent. -/
def GoMap.get (m : GoMap) (k : String) : Option Int :=
  (m.find? fun p => decide (p.1 = k)).map Prod.snd

/-! ## The store's functions and aggregates -/

def usecPerDay : Int := 86400000000

/-- The store's `DATE(ts)`: the calendar day of a timestamp, NULL for NULL. -/
def sqlDATE (t : Option Timestamp) : Option Date :=
  t.map fun x => x / usecPerDay

/-- The value bound to `$1`: the `time.Time` argument read as a `date`. -/
def dateParam (date : Timestamp) : Date :=
  date / usecPerDay

/-- The filter `WHERE DATE(start_time) = $1`: a row passes when the comparison is true (not NULL). -/
def onDate (date : Timestamp) (o : Operation) : Bool :=
  decide (sqlDATE o.StartTime = some (dateParam date))

/-- The aggregate `COUNT(DISTINCT col)`: the number of distinct non-NULL values. -/
def countDistinct (xs : List (Option Int)) : Int :=
  ((xs.filterMap id).dedup.length : Int)

/-- The aggregate `COUNT(CASE WHEN status = s THEN 1 END)`: a NULL status is not counted. -/
def countStatus (s : String) (ops : List Operation) : Int :=
  ((ops.countP fun o => decide (o.Status = some s) : Nat) : Int)

/-- The clause `GROUP BY key`: one group per distinct key, holding the rows with that key. -/
def sqlGroupBy {ρ κ : Type} [DecidableEq κ] (key : ρ → κ) (rows : List ρ) : List (κ × List ρ) :=
  (rows.map key).dedup.map fun k => (k, rows.filter fun r => decide (key r = k))

/-- The expression `EXTRACT(EPOCH FROM (COALESCE(end_time, NOW()) - start_time)) / 3600`,
NULL when `start_time` is NULL. -/
def hoursOf (now : Timestamp) (o : Operation) : Option ℚ :=
  o.StartTime.map fun s => ((((o.EndTime.getD now - s : Int) : ℚ)) / 1000000) / 3600

/-- The aggregate `COALESCE(SUM(x), 0)`: the sum of the non-NULL values. -/
def sumOrZero (xs : List (Option ℚ)) : ℚ :=
  (xs.filterMap id).sum

/-! ## Failures of the store -/

inductive DbError where
  | query
  | scan
deriving DecidableEq, Repr

/-- How a multi-row statement can fail for reasons outside the tables: not at all, when
it is issued, or while its rows are fetched, `rows.Next()` then ending the loop after
`i` rows with the error left in `rows.Err()`. -/
inductive RowsFault where
  | none
  | onQuery
  | onNext (i : Nat)
deriving DecidableEq, Repr

/-- Which of the five statements of `GetDailyReport` fail. -/
structure Faults where
  totalWorkers : Bool
  opStats : Bool
  byType : RowsFault
  workerStats : RowsFault
  fieldStats : RowsFault
deriving DecidableEq, Repr

def Faults.none : Faults :=
  ⟨false, false, RowsFault.none, RowsFault.none, RowsFault.none⟩

/-- The values of `NOW()` in the two statements that use it. -/
structure Clock where
  workerStats : Timestamp
  fieldStats : Timestamp
deriving DecidableEq, Repr

/-- The call `db.QueryRow(...).Scan(...)` of a one-row aggregate. -/
def queryRow {α : Type} (fault : Bool) (row : α) : Except DbError α :=
  if fault then Except.error DbError.query else Except.ok row

/-- The loop `for rows.Next() { if err := rows.Scan(..); err != nil { return nil, err }; body }`. -/
def scanLoop {ρ α σ : Type} (scan : ρ → Option α) (body : σ → α → σ) :
    List ρ → σ → Except DbError σ
  | [], acc => Except.ok acc
  | r :: rest, acc =>
    match scan r with
    | Option.none => Except.error DbError.scan
    | some a => scanLoop scan body rest (body acc a)

/-- The call `db.Query(...)` followed by the scanning loop; `rows.Err()` is not consulted. -/
def queryRows {ρ α σ : Type} (fault : RowsFault) (rows : List ρ) (scan : ρ → Option α)
    (body : σ → α → σ) (acc : σ) : Except DbError σ :=
  match fault with
  | RowsFault.none => scanLoop scan body rows acc
  | RowsFault.onQuery => Except.error DbError.query
  | RowsFault.onNext i => scanLoop scan body (rows.take i) acc

/-! ## The five statements -/

/-- Statement `SELECT COUNT(DISTINCT worker_id) FROM operations WHERE DATE(start_time) = $1`. -/
def totalWorkersQuery (db : DB) (date : Timestamp) : Int :=
  countDistinct ((db.operations.filter (onDate date)).map fun o => o.WorkerID)

/-- Statement `SELECT COUNT(*), COUNT(CASE WHEN status = 'completed' ..), COUNT(CASE WHEN status =
'in_progress' ..) FROM operations WHERE DATE(start_time) = $1`. -/
def opStatsQuery (db : DB) (date : Timestamp) : Int × Int × Int :=
  let sel := db.operations.filter (onDate date)
  ((sel.length : Int), countStatus "completed" sel, countStatus "in_progress" sel)

/-- Statement `SELECT type, COUNT(*) FROM operations WHERE DATE(start_time) = $1 GROUP BY type`. -/
def byTypeQuery (db : DB) (date : Timestamp) : List (String × Int) :=
  (sqlGroupBy (fun o : Operation => o.OpType) (db.operations.filter (onDate date))).map
    fun g => (g.1, (g.2.length : Int))

/-- The join `operations o JOIN workers w ON o.worker_id = w.id`. -/
def joinWorkers (db : DB) : List (Operation × Worker) :=
  db.operations.flatMap fun o =>
    db.workers.filterMap fun w => if o.WorkerID = some w.ID then some (o, w) else Option.none

/-- The join `operations o JOIN fields f ON o.field_id = f.id`. -/
def joinFields (db : DB) : List (Operation × Field) :=
  db.operations.flatMap fun o =>
    db.fields.filterMap fun f => if o.FieldID = some f.ID then some (o, f) else Option.none

/-- The worker statistics statement: the join, restricted to the date, grouped by
`o.worker_id, w.name`, with `COUNT(*)`, the summed hours and `COUNT(DISTINCT o.field_id)`. -/
def workerStatsQuery (db : DB) (now : Timestamp) (date : Timestamp) :
    List (Option Int × String × Int × ℚ × Int) :=
  (sqlGroupBy (fun p : Operation × Worker => (p.1.WorkerID, p.2.Name))
      ((joinWorkers db).filter fun p => onDate date p.1)).map
    fun g => (g.1.1, g.1.2, (g.2.length : Int),
      sumOrZero (g.2.map fun p => hoursOf now p.1),
      countDistinct (g.2.map fun p => p.1.FieldID))

/-- The field statistics statement, grouped by `o.field_id, f.name`, with
`COUNT(DISTINCT o.worker_id)`. -/
def fieldStatsQuery (db : DB) (now : Timestamp) (date : Timestamp) :
    List (Option Int × String × Int × ℚ × Int) :=
  (sqlGroupBy (fun p : Operation × Field => (p.1.FieldID, p.2.Name))
      ((joinFields db).filter fun p => onDate date p.1)).map
    fun g => (g.1.1, g.1.2, (g.2.length : Int),
      sumOrZero (g.2.map fun p => hoursOf now p.1),
      countDistinct (g.2.map fun p => p.1.WorkerID))

/-- The call `workerRows.Scan(&ws.WorkerID, ..)`: a NULL cannot be stored in an `int`. -/
def scanWorkerStats (r : Option Int × String × Int × ℚ × Int) : Option WorkerDailyStats :=
  r.1.map fun id => ⟨id, r.2.1, r.2.2.1, r.2.2.2.1, r.2.2.2.2⟩

/-- The call `fieldRows.Scan(&fs.FieldID, ..)`: a NULL cannot be stored in an `int`. -/
def scanFieldStats (r : Option Int × String × Int × ℚ × Int) : Option FieldDailyStats :=
  r.1.map fun id => ⟨id, r.2.1, r.2.2.1, r.2.2.2.1, r.2.2.2.2⟩

/-! ## GetDailyReport -/

def GetDailyReport (db : DB) (clk : Clock) (flt : Faults) (date : Timestamp) :
    Except DbError DailyReport := do
  let report : DailyReport :=
    { Date := date, TotalWorkers := 0, TotalOperations := 0, CompletedOps := 0,
      InProgressOps := 0, OperationsByType := [], WorkerStats := [], FieldStats := [] }
  let tw ← queryRow flt.totalWorkers (totalWorkersQuery db date)
  let report := { report with TotalWorkers := tw }
  let st ← queryRow flt.opStats (opStatsQuery db date)
  let report := { report with TotalOperations := st.1, CompletedOps := st.2.1,
                              InProgressOps := st.2.2 }
  let report ← queryRows flt.byType (byTypeQuery db date) some
    (fun (rep : DailyReport) (row : String × Int) =>
      { rep with OperationsByType := rep.OperationsByType.set row.1 row.2 }) report
  let report ← queryRows flt.workerStats (workerStatsQuery db clk.workerStats date)
    scanWorkerStats
    (fun (rep : DailyReport) ws => { rep with WorkerStats := rep.WorkerStats ++ [ws] }) report
  let report ← queryRows flt.fieldStats (fieldStatsQuery db clk.fieldStats date)
    scanFieldStats
    (fun (rep : DailyReport) fs => { rep with FieldStats := rep.FieldStats ++ [fs] }) report
  return report

/-! ## Vocabulary of the statements below -/

/-- The entries the worker statistics loop appends. -/
def workerStatsOf (db : DB) (now : Timestamp) (date : Timestamp) : List WorkerDailyStats :=
  (workerStatsQuery db now date).filterMap scanWorkerStats

/-- The entries the field statistics loop appends. -/
def fieldStatsOf (db : DB) (now : Timestamp) (date : Timestamp) : List FieldDailyStats :=
  (fieldStatsQuery db now date).filterMap scanFieldStats

/-- The operations of the table that pass `WHERE DATE(start_time) = $1`. -/
def matching (db : DB) (date : Timestamp) : List Operation :=
  db.operations.filter (onDate date)

/-- The start time of `o` falls on calendar day `D`. -/
def StartsOn (D : Date) (o : Operation) : Prop :=
  ∃ t, o.StartTime = some t ∧ t / 86400000000 = D

instance instDecidableStartsOn (D : Date) (o : Operation) : Decidable (StartsOn D o) :=
  decidable_of_iff (o.StartTime.map (fun t => t / 86400000000) = some D)
    (by cases h : o.StartTime <;> simp [StartsOn, h])

/-- The common shape of the worker and the field statistics statements: `ops` joined with
table `tbl` on `ref o = tid row`, restricted to the date, grouped by `ref o, tname row`,
with `COUNT(*)`, the summed hours and `COUNT(DISTINCT other o)`. -/
def groupStats {τ : Type} (tbl : List τ) (tid : τ → Int) (tname : τ → String)
    (ref other : Operation → Option Int) (ops : List Operation) (now date : Timestamp) :
    List (Option Int × String × Int × ℚ × Int) :=
  (sqlGroupBy (fun p : Operation × τ => (ref p.1, tname p.2))
      ((ops.flatMap fun o =>
        tbl.filterMap fun w => if ref o = some (tid w) then some (o, w) else Option.none).filter
          fun p => onDate date p.1)).map
    fun g => (g.1.1, g.1.2, (g.2.length : Int),
      sumOrZero (g.2.map fun p => hoursOf now p.1),
      countDistinct (g.2.map fun p => other p.1))

/-- Hours from the start of `o` to its end, or to `now` when it has no end; 0 when it has
no start. -/
def elapsedHours (now : Timestamp) (o : Operation) : ℚ :=
  match o.StartTime, o.EndTime with
  | some s, some e => ((e : ℚ) - (s : ℚ)) / 1000000 / 3600
  | some s, Option.none => ((now : ℚ) - (s : ℚ)) / 1000000 / 3600
  | Option.none, _ => 0

/-- The operations that refer to worker `w` and start on day `D`. -/
def workerOpsOn (db : DB) (D : Date) (w : Int) : List Operation :=
  db.operations.filter fun o => decide (StartsOn D o ∧ o.WorkerID = some w)

/-- The operations that refer to field `f` and start on day `D`. -/
def fieldOpsOn (db : DB) (D : Date) (f : Int) : List Operation :=
  db.operations.filter fun o => decide (StartsOn D o ∧ o.FieldID = some f)

/-- Hours from the start of `o` to its end; 0 when either is missing. -/
def closedHours (o : Operation) : ℚ :=
  match o.StartTime, o.EndTime with
  | some s, some e => ((e : ℚ) - (s : ℚ)) / 1000000 / 3600
  | _, _ => 0

/-- Days from 1970-01-01 to the civil date `y-m-d` (proleptic Gregorian calendar). -/
def daysFromCivil (y m d : Int) : Date :=
  let y1 := if m ≤ 2 then y - 1 else y
  let era := y1 / 400
  let yoe := y1 - era * 400
  let mp := (m + 9) % 12
  let doy := (153 * mp + 2) / 5 + d - 1
  let doe := yoe * 365 + yoe / 4 - yoe / 100 + doy
  era * 146097 + doe - 719468

/-- The timestamp written `y-m-d hh:mm:00`. -/
def timestampOf (y m d hh mm : Int) : Timestamp :=
  daysFromCivil y m d * 86400000000 + (hh * 3600 + mm * 60) * 1000000

/-! ## Sample tables -/

def sampleWorker : Worker :=
  ⟨1, "Ana", some "ana@farm.example", Option.none, "tractor_driver", Option.none, Option.none⟩

def sampleField : Field :=
  ⟨2, "North", Option.none, "{}", some 1250, "wheat", "spring", "Dobrich", Option.none,
    Option.none⟩

/-- The operation of the specification's example: worker 1 seeds field 2 on 2024-05-01 from
08:00 to 10:00. -/
def sampleSeeding : Operation :=
  { ID := 1, ScheduleID := Option.none, WorkerID := some 1, FieldID := some 2,
    OpType := "seeding", Description := Option.none, Status := some "completed",
    StartTime := some (timestampOf 2024 5 1 8 0), EndTime := some (timestampOf 2024 5 1 10 0),
    CompletedAt := Option.none, Notes := Option.none, CreatedAt := Option.none,
    UpdatedAt := Option.none }

/-- An open operation of the same worker on the same field, started at 11:00. -/
def samplePlowing : Operation :=
  { sampleSeeding with
    ID := 2, OpType := "plowing", Status := some "in_progress",
    StartTime := some (timestampOf 2024 5 1 11 0), EndTime := Option.none }

/-- A planned operation of the next day. -/
def samplePlanned : Operation :=
  { sampleSeeding with
    ID := 3, OpType := "harvesting", Status := some "planned",
    StartTime := some (timestampOf 2024 5 2 9 0), EndTime := Option.none }

def sampleDB : DB :=
  ⟨[sampleWorker], [sampleField], [sampleSeeding, samplePlowing, samplePlanned]⟩

/-- Midnight of 2024-05-01, what `time.Parse("2006-01-02", "2024-05-01")` denotes. -/
def sampleDate : Timestamp := timestampOf 2024 5 1 0 0

def sampleClock : Clock := ⟨timestampOf 2024 5 1 12 0, timestampOf 2024 5 1 12 0⟩

/-- The sample tables without the open operation. -/
def closedDB : DB :=
  ⟨[sampleWorker], [sampleField], [sampleSeeding, samplePlanned]⟩

/-- One hour after `sampleClock`. -/
def laterClock : Clock := ⟨timestampOf 2024 5 1 13 0, timestampOf 2024 5 1 13 0⟩

/-- The table of the specification's example: the seeding alone. -/
def seedingDB : DB :=
  ⟨[sampleWorker], [sampleField], [sampleSeeding]⟩

/-! ## Exchanging the roles of workers and fields -/

/-- A field row read as a worker row: the same id and name. -/
def fieldAsWorker (f : Field) : Worker :=
  ⟨f.ID, f.Name, Option.none, Option.none, "", f.CreatedAt, f.UpdatedAt⟩

/-- A worker row read as a field row: the same id and name. -/
def workerAsField (w : Worker) : Field :=
  ⟨w.ID, w.Name, Option.none, "", Option.none, "", "", "", w.CreatedAt, w.UpdatedAt⟩

/-- An operation with `worker_id` and `field_id` exchanged. -/
def swapRefs (o : Operation) : Operation :=
  { o with
    WorkerID := o.FieldID, FieldID := o.WorkerID }

/-- The tables with the roles of workers and fields exchanged. -/
def swapRoles (db : DB) : DB :=
  ⟨db.fields.map fieldAsWorker, db.workers.map workerAsField, db.operations.map swapRefs⟩

/-- The clock with the instants of the two statistics statements exchanged. -/
def Clock.swap (clk : Clock) : Clock :=
  ⟨clk.fieldStats, clk.workerStats⟩

/-- A worker entry read as a field entry, `fields_worked` becoming `workers_count`. -/
def WorkerDailyStats.asFieldStats (ws : WorkerDailyStats) : FieldDailyStats :=
  ⟨ws.WorkerID, ws.WorkerName, ws.Operations, ws.HoursWorked, ws.FieldsWorked⟩

/-! ## The store: all four tables, and the Go structs of `models` -/

/-- Row of table `schedules`. -/
structure Schedule where
  ID : Int
  WorkerID : Option Int
  Date : Date
  CreatedAt : Option Timestamp
  UpdatedAt : Option Timestamp
deriving DecidableEq, Repr

/-- The four tables. -/
structure Store extends DB where
  schedules : List Schedule
deriving Repr

/-- Go struct `models.Worker`. -/
structure GoWorker where
  ID : Int
  Name : String
  Email : String
  Phone : String
  Role : String
  CreatedAt : Timestamp
  UpdatedAt : Timestamp
deriving DecidableEq, Repr

/-- Go struct `models.Field`; `Area` is carried in hundredths of a decare, the conversion
between `float64` and `DECIMAL(10,2)` is not modelled. -/
structure GoField where
  ID : Int
  Name : String
  Description : String
  Coordinates : String
  Area : Int
  CropType : String
  Period : String
  Region : String
  CreatedAt : Timestamp
  UpdatedAt : Timestamp
deriving DecidableEq, Repr

/-- Go struct `models.Schedule`. -/
structure GoSchedule where
  ID : Int
  WorkerID : Int
  Date : Timestamp
  CreatedAt : Timestamp
  UpdatedAt : Timestamp
  Worker : Option GoWorker
deriving DecidableEq, Repr

/-- Go struct `models.Operation`; `OpType` is field `Type`. -/
structure GoOperation where
  ID : Int
  ScheduleID : Option Int
  WorkerID : Int
  FieldID : Int
  OpType : String
  Description : String
  Status : String
  StartTime : Option Timestamp
  EndTime : Option Timestamp
  CompletedAt : Option Timestamp
  Notes : String
  CreatedAt : Timestamp
  UpdatedAt : Timestamp
  Schedule : Option GoSchedule
  Worker : Option GoWorker
  Field : Option GoField
deriving DecidableEq, Repr

/-- The zero value of `time.Time`: 0001-01-01 00:00:00. -/
def zeroTime : Timestamp := timestampOf 1 1 1 0 0

/-- The errors a store function returns: `sql.ErrNoRows`, or any other error. -/
inductive SqlError where
  | ErrNoRows
  | other
deriving DecidableEq, Repr

/-! ### Scanning a row into a Go struct

A NULL cannot be stored in a `string`, an `int`, a `float64` or a `time.Time`; it can be
stored in a pointer and in a `sql.NullString`. -/

def scanWorker (r : Worker) : Option GoWorker := do
  let email ← r.Email
  let phone ← r.Phone
  let created ← r.CreatedAt
  let updated ← r.UpdatedAt
  pure ⟨r.ID, r.Name, email, phone, r.Role, created, updated⟩

def scanField (r : Field) : Option GoField := do
  let description ← r.Description
  let area ← r.Area
  let created ← r.CreatedAt
  let updated ← r.UpdatedAt
  pure ⟨r.ID, r.Name, description, r.Coordinates, area, r.CropType, r.Period, r.Region,
    created, updated⟩

/-- The struct `&Worker{ID: id, Name: name}` built from a joined name. -/
def namedWorker (id : Int) (name : String) : GoWorker :=
  ⟨id, name, "", "", "", zeroTime, zeroTime⟩

/-- The struct `&Field{ID: id, Name: name}` built from a joined name. -/
def namedField (id : Int) (name : String) : GoField :=
  ⟨id, name, "", "", 0, "", "", "", zeroTime, zeroTime⟩

/-- The name of the first row of `workers` with the given id: the `w.name` of a
`LEFT JOIN workers w ON .. = w.id`, NULL when there is none. -/
def workerNameOf (st : Store) (id : Option Int) : Option String :=
  (st.workers.find? fun w => decide (id = some w.ID)).map Worker.Name

/-- The name of the first row of `fields` with the given id. -/
def fieldNameOf (st : Store) (id : Option Int) : Option String :=
  (st.fields.find? fun f => decide (id = some f.ID)).map Field.Name

def scanSchedule (st : Store) (r : Schedule) : Option GoSchedule := do
  let workerID ← r.WorkerID
  let created ← r.CreatedAt
  let updated ← r.UpdatedAt
  pure ⟨r.ID, workerID, r.Date * 86400000000, created, updated,
    (workerNameOf st r.WorkerID).map (namedWorker workerID)⟩

def scanOperation (st : Store) (r : Operation) : Option GoOperation := do
  let workerID ← r.WorkerID
  let fieldID ← r.FieldID
  let description ← r.Description
  let status ← r.Status
  let notes ← r.Notes
  let created ← r.CreatedAt
  let updated ← r.UpdatedAt
  pure { ID := r.ID, ScheduleID := r.ScheduleID, WorkerID := workerID, FieldID := fieldID,
         OpType := r.OpType, Description := description, Status := status,
         StartTime := r.StartTime, EndTime := r.EndTime, CompletedAt := r.CompletedAt,
         Notes := notes, CreatedAt := created, UpdatedAt := updated,
         Schedule := Option.none,
         Worker := (workerNameOf st r.WorkerID).map (namedWorker workerID),
         Field := (fieldNameOf st r.FieldID).map (namedField fieldID) }

/-! ### The store functions of `models`

Argument `rejected` stands for every failure of the statement that is not the absence of
a row: a lost connection, a violated constraint, a value that does not fit its column.
Argument `now` is `CURRENT_TIMESTAMP`. -/

/-- A `db.QueryRow(.. WHERE id = $1).Scan(..)` read: `sql.ErrNoRows` when no row has the
id. -/
def queryRowByID {ρ α : Type} (rejected : Bool) (rows : List ρ) (rid : ρ → Int)
    (scan : ρ → Option α) (id : Int) : Except SqlError α :=
  if rejected then Except.error SqlError.other
  else
    match rows.find? fun r => decide (rid r = id) with
    | Option.none => Except.error SqlError.ErrNoRows
    | some r =>
      match scan r with
      | Option.none => Except.error SqlError.other
      | some a => Except.ok a

def GetWorkerByID (st : Store) (rejected : Bool) (id : Int) : Except SqlError GoWorker :=
  queryRowByID rejected st.workers Worker.ID scanWorker id

def GetFieldByID (st : Store) (rejected : Bool) (id : Int) : Except SqlError GoField :=
  queryRowByID rejected st.fields Field.ID scanField id

def GetScheduleByID (st : Store) (rejected : Bool) (id : Int) : Except SqlError GoSchedule :=
  queryRowByID rejected st.schedules Schedule.ID (scanSchedule st) id

def GetOperationByID (st : Store) (rejected : Bool) (id : Int) :
    Except SqlError GoOperation :=
  queryRowByID rejected st.operations Operation.ID (scanOperation st) id

/-- The rows of a table after `UPDATE .. SET .. WHERE id = $n`. -/
def updateWhereID {ρ : Type} (rows : List ρ) (rid : ρ → Int) (id : Int) (set : ρ → ρ) :
    List ρ :=
  rows.map fun r => if rid r = id then set r else r

/-- Statement `UPDATE workers SET name, email, phone, role, updated_at = CURRENT_TIMESTAMP
WHERE id = $5 RETURNING updated_at`, scanned into `worker.UpdatedAt`. -/
def UpdateWorker (st : Store) (rejected : Bool) (now : Timestamp) (worker : GoWorker) :
    Except SqlError (Store × GoWorker) :=
  if rejected then Except.error SqlError.other
  else if st.workers.any (fun r => decide (r.ID = worker.ID)) then
    Except.ok
      ({ st with
          workers := updateWhereID st.workers Worker.ID worker.ID fun r =>
            { r with
              Name := worker.Name, Email := some worker.Email, Phone := some worker.Phone,
              Role := worker.Role, UpdatedAt := some now } },
       { worker with
          UpdatedAt := now })
  else Except.error SqlError.ErrNoRows

/-- Statement `UPDATE fields SET name, description, coordinates, area, crop_type, period,
region, updated_at = CURRENT_TIMESTAMP WHERE id = $8 RETURNING updated_at`. -/
def UpdateField (st : Store) (rejected : Bool) (now : Timestamp) (field : GoField) :
    Except SqlError (Store × GoField) :=
  if rejected then Except.error SqlError.other
  else if st.fields.any (fun r => decide (r.ID = field.ID)) then
    Except.ok
      ({ st with
          fields := updateWhereID st.fields Field.ID field.ID fun r =>
            { r with
              Name := field.Name, Description := some field.Description,
              Coordinates := field.Coordinates, Area := some field.Area,
              CropType := field.CropType, Period := field.Period, Region := field.Region,
              UpdatedAt := some now } },
       { field with
          UpdatedAt := now })
  else Except.error SqlError.ErrNoRows

/-- Statement `UPDATE schedules SET worker_id, date, updated_at = CURRENT_TIMESTAMP
WHERE id = $3 RETURNING updated_at`. -/
def UpdateSchedule (st : Store) (rejected : Bool) (now : Timestamp) (schedule : GoSchedule) :
    Except SqlError (Store × GoSchedule) :=
  if rejected then Except.error SqlError.other
  else if st.schedules.any (fun r => decide (r.ID = schedule.ID)) then
    Except.ok
      ({ st with
          schedules := updateWhereID st.schedules Schedule.ID schedule.ID fun r =>
            { r with
              WorkerID := some schedule.WorkerID, Date := dateParam schedule.Date,
              UpdatedAt := some now } },
       { schedule with
          UpdatedAt := now })
  else Except.error SqlError.ErrNoRows

/-- Statement `UPDATE operations SET schedule_id, worker_id, field_id, type, description,
status, start_time, end_time, notes, updated_at = CURRENT_TIMESTAMP WHERE id = $10
RETURNING updated_at`. -/
def UpdateOperation (st : Store) (rejected : Bool) (now : Timestamp)
    (operation : GoOperation) : Except SqlError (Store × GoOperation) :=
  if rejected then Except.error SqlError.other
  else if st.operations.any (fun r => decide (r.ID = operation.ID)) then
    Except.ok
      ({ st with
          operations := updateWhereID st.operations Operation.ID operation.ID fun r =>
            { r with
              ScheduleID := operation.ScheduleID, WorkerID := some operation.WorkerID,
              FieldID := some operation.FieldID, OpType := operation.OpType,
              Description := some operation.Description, Status := some operation.Status,
              StartTime := operation.StartTime, EndTime := operation.EndTime,
              Notes := some operation.Notes, UpdatedAt := some now } },
       { operation with
          UpdatedAt := now })
  else Except.error SqlError.ErrNoRows

/-- Statement `UPDATE operations SET status = 'completed', completed_at = CURRENT_TIMESTAMP,
updated_at = CURRENT_TIMESTAMP WHERE id = $1`, run with `db.Exec`. -/
def CompleteOperation (st : Store) (rejected : Bool) (now : Timestamp) (id : Int) :
    Except SqlError Store :=
  if rejected then Except.error SqlError.other
  else
    Except.ok
      { st with
        operations := updateWhereID st.operations Operation.ID id fun r =>
          { r with
            Status := some "completed", CompletedAt := some now, UpdatedAt := some now } }

/-- Statement `UPDATE operations SET status = 'in_progress', start_time = CURRENT_TIMESTAMP,
updated_at = CURRENT_TIMESTAMP WHERE id = $1`, run with `db.Exec`. -/
def StartOperation (st : Store) (rejected : Bool) (now : Timestamp) (id : Int) :
    Except SqlError Store :=
  if rejected then Except.error SqlError.other
  else
    Except.ok
      { st with
        operations := updateWhereID st.operations Operation.ID id fun r =>
          { r with
            Status := some "in_progress", StartTime := some now, UpdatedAt := some now } }

/-- Statement `DELETE FROM workers WHERE id = $1`, run with `db.Exec`; the schedules and
operations of the worker go with it, and the operations of those schedules
(`ON DELETE CASCADE`). -/
def DeleteWorker (st : Store) (rejected : Bool) (id : Int) : Except SqlError Store :=
  if rejected then Except.error SqlError.other
  else
    Except.ok
      { workers := st.workers.filter fun r => decide (r.ID ≠ id)
        fields := st.fields
        schedules := st.schedules.filter fun s => decide (s.WorkerID ≠ some id)
        operations := st.operations.filter fun o =>
          decide (o.WorkerID ≠ some id) &&
            !(st.schedules.any fun s =>
              decide (s.WorkerID = some id) && decide (o.ScheduleID = some s.ID)) }

/-- Statement `DELETE FROM fields WHERE id = $1`, with the operations on the field. -/
def DeleteField (st : Store) (rejected : Bool) (id : Int) : Except SqlError Store :=
  if rejected then Except.error SqlError.other
  else
    Except.ok
      { st with
        fields := st.fields.filter fun r => decide (r.ID ≠ id)
        operations := st.operations.filter fun o => decide (o.FieldID ≠ some id) }

/-- Statement `DELETE FROM schedules WHERE id = $1`, with the operations of the schedule. -/
def DeleteSchedule (st : Store) (rejected : Bool) (id : Int) : Except SqlError Store :=
  if rejected then Except.error SqlError.other
  else
    Except.ok
      { st with
        schedules := st.schedules.filter fun r => decide (r.ID ≠ id)
        operations := st.operations.filter fun o => decide (o.ScheduleID ≠ some id) }

/-- Statement `DELETE FROM operations WHERE id = $1`. -/
def DeleteOperation (st : Store) (rejected : Bool) (id : Int) : Except SqlError Store :=
  if rejected then Except.error SqlError.other
  else
    Except.ok
      { st with
        operations := st.operations.filter fun r => decide (r.ID ≠ id) }

/-- Statement `INSERT INTO operations (schedule_id, worker_id, field_id, type, description,
status, start_time, end_time, notes) VALUES (..) RETURNING id, created_at, updated_at`;
`nextID` is the next value of the id sequence. -/
def CreateOperation (st : Store) (rejected : Bool) (now : Timestamp) (nextID : Int)
    (operation : GoOperation) : Except SqlError (Store × GoOperation) :=
  if rejected then Except.error SqlError.other
  else
    Except.ok
      ({ st with
          operations := st.operations ++
            [{ ID := nextID, ScheduleID := operation.ScheduleID,
               WorkerID := some operation.WorkerID, FieldID := some operation.FieldID,
               OpType := operation.OpType, Description := some operation.Description,
               Status := some operation.Status, StartTime := operation.StartTime,
               EndTime := operation.EndTime, CompletedAt := Option.none,
               Notes := some operation.Notes, CreatedAt := some now,
               UpdatedAt := some now }] },
       { operation with
          ID := nextID, CreatedAt := now, UpdatedAt := now })

/-! ## The handlers -/

/-- The value of a run of decimal digits; `none` when a character is not a digit. -/
def digitsValue (cs : List Char) : Option Nat :=
  cs.foldlM (fun acc c => if c.isDigit then some (acc * 10 + (c.toNat - 48)) else Option.none) 0

/-- Go's `strconv.Atoi`: an optional sign and at least one decimal digit, the value within
the 64-bit `int`. -/
def Atoi (s : String) : Option Int :=
  let signed : Bool × List Char :=
    match s.data with
    | '-' :: rest => (true, rest)
    | '+' :: rest => (false, rest)
    | cs => (false, cs)
  if signed.2 = [] then Option.none
  else
    match digitsValue signed.2 with
    | Option.none => Option.none
    | some n =>
      let v : Int := if signed.1 then -(n : Int) else (n : Int)
      if -9223372036854775808 ≤ v ∧ v ≤ 9223372036854775807 then some v else Option.none

def isLeap (y : Int) : Bool :=
  decide (y % 4 = 0 ∧ (y % 100 ≠ 0 ∨ y % 400 = 0))

/-- The number of days of month `m` of year `y`. -/
def daysIn (m y : Int) : Int :=
  if m = 2 then (if isLeap y then 29 else 28)
  else if m = 4 ∨ m = 6 ∨ m = 9 ∨ m = 11 then 30
  else 31

/-- Go's `time.Parse("2006-01-02", s)`: four digits, `-`, two digits, `-`, two digits and
nothing else, the month within 1..12 and the day within the month; the result is midnight
of that day. -/
def parseDate (s : String) : Option Timestamp :=
  match s.data with
  | [y1, y2, y3, y4, '-', m1, m2, '-', d1, d2] =>
    match digitsValue [y1, y2, y3, y4], digitsValue [m1, m2], digitsValue [d1, d2] with
    | some y, some m, some d =>
      if (m : Int) < 1 ∨ 12 < (m : Int) then Option.none
      else if (d : Int) < 1 ∨ daysIn m y < (d : Int) then Option.none
      else some (timestampOf y m d 0 0)
    | _, _, _ => Option.none
  | _ => Option.none

/-- A call of a function of package `models`, with its argument. -/
inductive Call where
  | GetWorkerByID (id : Int)
  | UpdateWorker (worker : GoWorker)
  | DeleteWorker (id : Int)
  | GetFieldByID (id : Int)
  | UpdateField (field : GoField)
  | DeleteField (id : Int)
  | GetScheduleByID (id : Int)
  | UpdateSchedule (schedule : GoSchedule)
  | DeleteSchedule (id : Int)
  | CreateOperation (operation : GoOperation)
  | GetOperationByID (id : Int)
  | UpdateOperation (operation : GoOperation)
  | CompleteOperation (id : Int)
  | DeleteOperation (id : Int)
  | GetDailyReport (date : Timestamp)
deriving DecidableEq, Repr

/-- The body of a response: `ErrorResponse`, `SuccessResponse`, or the spreadsheet file of
the export (its layout is not modelled). -/
inductive Body (α : Type) where
  | error (message : String)
  | success (message : String) (data : Option α)
  | file (data : α)
deriving Repr

/-- What a handler does: the status code and body it writes, the calls of `models` it
makes, and the store it leaves. -/
structure Reply (α : Type) where
  code : Nat
  body : Body α
  calls : List Call
  store : Store

/-- The method `respondWithError` of a handler that has made the calls `calls`. -/
def respondWithError {α : Type} (st : Store) (calls : List Call) (code : Nat)
    (message : String) : Reply α :=
  ⟨code, Body.error message, calls, st⟩

/-- The method `respondWithJSON` with a `SuccessResponse`. -/
def respondWithJSON {α : Type} (st : Store) (calls : List Call) (code : Nat)
    (message : String) (data : Option α) : Reply α :=
  ⟨code, Body.success message data, calls, st⟩

def Handler.GetWorker (st : Store) (rejected : Bool) (idVar : String) : Reply GoWorker :=
  match Atoi idVar with
  | Option.none => respondWithError st [] 400 "Invalid worker ID"
  | some id =>
    match GetWorkerByID st rejected id with
    | Except.error err =>
      if err = SqlError.ErrNoRows then
        respondWithError st [Call.GetWorkerByID id] 404 "Worker not found"
      else respondWithError st [Call.GetWorkerByID id] 500 "Failed to fetch worker"
    | Except.ok worker =>
      respondWithJSON st [Call.GetWorkerByID id] 200 "Worker retrieved successfully"
        (some worker)

def Handler.UpdateWorker (st : Store) (rejected : Bool) (now : Timestamp) (idVar : String)
    (decoded : Option GoWorker) : Reply GoWorker :=
  match Atoi idVar with
  | Option.none => respondWithError st [] 400 "Invalid worker ID"
  | some id =>
    match decoded with
    | Option.none => respondWithError st [] 400 "Invalid JSON payload"
    | some payload =>
      let worker : GoWorker := { payload with
                                 ID := id }
      match Agroport.UpdateWorker st rejected now worker with
      | Except.error err =>
        if err = SqlError.ErrNoRows then
          respondWithError st [Call.UpdateWorker worker] 404 "Worker not found"
        else respondWithError st [Call.UpdateWorker worker] 500 "Failed to update worker"
      | Except.ok res =>
        respondWithJSON res.1 [Call.UpdateWorker worker] 200 "Worker updated successfully"
          (some res.2)

def Handler.DeleteWorker (st : Store) (rejected : Bool) (idVar : String) : Reply GoWorker :=
  match Atoi idVar with
  | Option.none => respondWithError st [] 400 "Invalid worker ID"
  | some id =>
    match Agroport.DeleteWorker st rejected id with
    | Except.error _ => respondWithError st [Call.DeleteWorker id] 500 "Failed to delete worker"
    | Except.ok st2 =>
      respondWithJSON st2 [Call.DeleteWorker id] 200 "Worker deleted successfully" Option.none

def Handler.GetField (st : Store) (rejected : Bool) (idVar : String) : Reply GoField :=
  match Atoi idVar with
  | Option.none => respondWithError st [] 400 "Invalid field ID"
  | some id =>
    match GetFieldByID st rejected id with
    | Except.error err =>
      if err = SqlError.ErrNoRows then
        respondWithError st [Call.GetFieldByID id] 404 "Field not found"
      else respondWithError st [Call.GetFieldByID id] 500 "Failed to fetch field"
    | Except.ok field =>
      respondWithJSON st [Call.GetFieldByID id] 200 "Field retrieved successfully"
        (some field)

def Handler.UpdateField (st : Store) (rejected : Bool) (now : Timestamp) (idVar : String)
    (decoded : Option GoField) : Reply GoField :=
  match Atoi idVar with
  | Option.none => respondWithError st [] 400 "Invalid field ID"
  | some id =>
    match decoded with
    | Option.none => respondWithError st [] 400 "Invalid JSON payload"
    | some payload =>
      let field : GoField := { payload with
                               ID := id }
      match Agroport.UpdateField st rejected now field with
      | Except.error err =>
        if err = SqlError.ErrNoRows then
          respondWithError st [Call.UpdateField field] 404 "Field not found"
        else respondWithError st [Call.UpdateField field] 500 "Failed to update field"
      | Except.ok res =>
        respondWithJSON res.1 [Call.UpdateField field] 200 "Field updated successfully"
          (some res.2)

def Handler.DeleteField (st : Store) (rejected : Bool) (idVar : String) : Reply GoField :=
  match Atoi idVar with
  | Option.none => respondWithError st [] 400 "Invalid field ID"
  | some id =>
    match Agroport.DeleteField st rejected id with
    | Except.error _ => respondWithError st [Call.DeleteField id] 500 "Failed to delete field"
    | Except.ok st2 =>
      respondWithJSON st2 [Call.DeleteField id] 200 "Field deleted successfully" Option.none

def Handler.GetSchedule (st : Store) (rejected : Bool) (idVar : String) : Reply GoSchedule :=
  match Atoi idVar with
  | Option.none => respondWithError st [] 400 "Invalid schedule ID"
  | some id =>
    match GetScheduleByID st rejected id with
    | Except.error err =>
      if err = SqlError.ErrNoRows then
        respondWithError st [Call.GetScheduleByID id] 404 "Schedule not found"
      else respondWithError st [Call.GetScheduleByID id] 500 "Failed to fetch schedule"
    | Except.ok schedule =>
      respondWithJSON st [Call.GetScheduleByID id] 200 "Schedule retrieved successfully"
        (some schedule)

def Handler.UpdateSchedule (st : Store) (rejected : Bool) (now : Timestamp) (idVar : String)
    (decoded : Option GoSchedule) : Reply GoSchedule :=
  match Atoi idVar with
  | Option.none => respondWithError st [] 400 "Invalid schedule ID"
  | some id =>
    match decoded with
    | Option.none => respondWithError st [] 400 "Invalid JSON payload"
    | some payload =>
      let schedule : GoSchedule := { payload with
                                     ID := id }
      match Agroport.UpdateSchedule st rejected now schedule with
      | Except.error err =>
        if err = SqlError.ErrNoRows then
          respondWithError st [Call.UpdateSchedule schedule] 404 "Schedule not found"
        else respondWithError st [Call.UpdateSchedule schedule] 500 "Failed to update schedule"
      | Except.ok res =>
        respondWithJSON res.1 [Call.UpdateSchedule schedule] 200 "Schedule updated successfully"
          (some res.2)

def Handler.DeleteSchedule (st : Store) (rejected : Bool) (idVar : String) :
    Reply GoSchedule :=
  match Atoi idVar with
  | Option.none => respondWithError st [] 400 "Invalid schedule ID"
  | some id =>
    match Agroport.DeleteSchedule st rejected id with
    | Except.error _ =>
      respondWithError st [Call.DeleteSchedule id] 500 "Failed to delete schedule"
    | Except.ok st2 =>
      respondWithJSON st2 [Call.DeleteSchedule id] 200 "Schedule deleted successfully"
        Option.none

def Handler.CreateOperation (st : Store) (rejected : Bool) (now : Timestamp) (nextID : Int)
    (decoded : Option GoOperation) : Reply GoOperation :=
  match decoded with
  | Option.none => respondWithError st [] 400 "Invalid JSON payload"
  | some payload =>
    if payload.WorkerID = 0 ∨ payload.FieldID = 0 ∨ payload.OpType = "" then
      respondWithError st [] 400 "Worker ID, Field ID, and Type are required"
    else
      let operation : GoOperation :=
        if payload.Status = "" then { payload with
                                      Status := "planned" }
        else payload
      match Agroport.CreateOperation st rejected now nextID operation with
      | Except.error _ =>
        respondWithError st [Call.CreateOperation operation] 500 "Failed to create operation"
      | Except.ok res =>
        respondWithJSON res.1 [Call.CreateOperation operation] 201
          "Operation created successfully" (some res.2)

def Handler.GetOperation (st : Store) (rejected : Bool) (idVar : String) :
    Reply GoOperation :=
  match Atoi idVar with
  | Option.none => respondWithError st [] 400 "Invalid operation ID"
  | some id =>
    match GetOperationByID st rejected id with
    | Except.error err =>
      if err = SqlError.ErrNoRows then
        respondWithError st [Call.GetOperationByID id] 404 "Operation not found"
      else respondWithError st [Call.GetOperationByID id] 500 "Failed to fetch operation"
    | Except.ok operation =>
      respondWithJSON st [Call.GetOperationByID id] 200 "Operation retrieved successfully"
        (some operation)

def Handler.UpdateOperation (st : Store) (rejected : Bool) (now : Timestamp) (idVar : String)
    (decoded : Option GoOperation) : Reply GoOperation :=
  match Atoi idVar with
  | Option.none => respondWithError st [] 400 "Invalid operation ID"
  | some id =>
    match decoded with
    | Option.none => respondWithError st [] 400 "Invalid JSON payload"
    | some payload =>
      let operation : GoOperation := { payload with
                                       ID := id }
      match Agroport.UpdateOperation st rejected now operation with
      | Except.error err =>
        if err = SqlError.ErrNoRows then
          respondWithError st [Call.UpdateOperation operation] 404 "Operation not found"
        else
          respondWithError st [Call.UpdateOperation operation] 500 "Failed to update operation"
      | Except.ok res =>
        respondWithJSON res.1 [Call.UpdateOperation operation] 200
          "Operation updated successfully" (some res.2)

def Handler.CompleteOperation (st : Store) (rejected : Bool) (now : Timestamp)
    (idVar : String) : Reply GoOperation :=
  match Atoi idVar with
  | Option.none => respondWithError st [] 400 "Invalid operation ID"
  | some id =>
    match Agroport.CompleteOperation st rejected now id with
    | Except.error _ =>
      respondWithError st [Call.CompleteOperation id] 500 "Failed to complete operation"
    | Except.ok st2 =>
      respondWithJSON st2 [Call.CompleteOperation id] 200 "Operation completed successfully"
        Option.none

def Handler.DeleteOperation (st : Store) (rejected : Bool) (idVar : String) :
    Reply GoOperation :=
  match Atoi idVar with
  | Option.none => respondWithError st [] 400 "Invalid operation ID"
  | some id =>
    match Agroport.DeleteOperation st rejected id with
    | Except.error _ =>
      respondWithError st [Call.DeleteOperation id] 500 "Failed to delete operation"
    | Except.ok st2 =>
      respondWithJSON st2 [Call.DeleteOperation id] 200 "Operation deleted successfully"
        Option.none

/-- The handler of `GET /reports/daily`; `dateParamStr` is `r.URL.Query().Get("date")` and
`timeNow` is `time.Now()`. -/
def Handler.GetDailyReport (st : Store) (clk : Clock) (flt : Faults) (timeNow : Timestamp)
    (dateParamStr : String) : Reply DailyReport :=
  let parsed : Option Timestamp :=
    if dateParamStr ≠ "" then parseDate dateParamStr else some timeNow
  match parsed with
  | Option.none => respondWithError st [] 400 "Invalid date format. Use YYYY-MM-DD"
  | some date =>
    match Agroport.GetDailyReport st.toDB clk flt date with
    | Except.error _ =>
      respondWithError st [Call.GetDailyReport date] 500 "Failed to generate daily report"
    | Except.ok report =>
      respondWithJSON st [Call.GetDailyReport date] 200 "Daily report generated successfully"
        (some report)

/-- The handler of `GET /reports/daily/export`; `sheetFails` and `writeFails` say whether
`file.AddSheet` and `file.Write` return an error. -/
def Handler.ExportDailyReport (st : Store) (clk : Clock) (flt : Faults) (timeNow : Timestamp)
    (sheetFails writeFails : Bool) (dateParamStr : String) : Reply DailyReport :=
  let parsed : Option Timestamp :=
    if dateParamStr ≠ "" then parseDate dateParamStr else some timeNow
  match parsed with
  | Option.none => respondWithError st [] 400 "Invalid date format. Use YYYY-MM-DD"
  | some date =>
    match Agroport.GetDailyReport st.toDB clk flt date with
    | Except.error _ =>
      respondWithError st [Call.GetDailyReport date] 500 "Failed to generate daily report"
    | Except.ok report =>
      if sheetFails then
        respondWithError st [Call.GetDailyReport date] 500 "Failed to create Excel sheet"
      else if writeFails then
        respondWithError st [Call.GetDailyReport date] 500 "Failed to write Excel file"
      else ⟨200, Body.file report, [Call.GetDailyReport date], st⟩

/-! ## Sample store -/

def sampleStore : Store :=
  { workers := [sampleWorker], fields := [sampleField],
    operations := [sampleSeeding, samplePlowing, samplePlanned], schedules := [] }

/-- The rows of a statement that reach the scanning loop: all of them, or the first `i`
when fetching is interrupted. -/
def RowsFault.cut {α : Type} : RowsFault → List α → List α
  | RowsFault.onNext i, rows => rows.take i
  | _, rows => rows

/-- The failure in which fetching the rows of the `GROUP BY type` statement is interrupted
before the first row, every other statement working. -/
def typeRowsLost : Faults :=
  ⟨false, false, RowsFault.onNext 0, RowsFault.none, RowsFault.none⟩

/-! ## The status rule of the read-by-id and update handlers -/

/-- The status a handler owes to the result of its store call: 404 for `sql.ErrNoRows`,
500 for any other error, 200 for success. -/
def statusOfResult {β : Type} : Except SqlError β → Nat
  | Except.error SqlError.ErrNoRows => 404
  | Except.error SqlError.other => 500
  | Except.ok _ => 200

/-- The rule for a read-by-id handler: a path id that is not an integer gives 400 and no
call; otherwise the store is called once with the id and the status follows its result. -/
def ReadRule {α : Type} (idVar : String) (call : Int → Call)
    (result : Int → Except SqlError α) (reply : Reply α) : Prop :=
  match Atoi idVar with
  | Option.none => reply.code = 400 ∧ reply.calls = []
  | some id => reply.calls = [call id] ∧ reply.code = statusOfResult (result id)

/-- The rule for an update handler: a path id that is not an integer, or a body that does
not decode, gives 400 and no call; otherwise the store is called once with the payload
carrying the path id and the status follows its result. -/
def UpdateRule {α : Type} (idVar : String) (decoded : Option α) (withID : α → Int → α)
    (call : α → Call) (result : α → Except SqlError (Store × α)) (reply : Reply α) : Prop :=
  match Atoi idVar, decoded with
  | Option.none, _ => reply.code = 400 ∧ reply.calls = []
  | some _, Option.none => reply.code = 400 ∧ reply.calls = []
  | some id, some payload =>
    reply.calls = [call (withID payload id)] ∧
      reply.code = statusOfResult (result (withID payload id))

/-- The planned operation of the sample tables before it got a start time. -/
def sampleUnstarted : Operation :=
  { samplePlanned with
    ID := 4, StartTime := Option.none }

/-! ## Lemmas -/

/-! ### The scanning loop -/

theorem scanLoop_of_isSome {ρ α σ : Type} (scan : ρ → Option α) (body : σ → α → σ) :
    ∀ (rows : List ρ) (acc : σ), (∀ r ∈ rows, (scan r).isSome = true) →
      scanLoop scan body rows acc = Except.ok ((rows.filterMap scan).foldl body acc) := by
  intro rows
  induction rows with
  | nil => intro acc _; rfl
  | cons r rest ih =>
    intro acc h
    have hr := h r (List.mem_cons_self r rest)
    obtain ⟨a, ha⟩ := Option.isSome_iff_exists.mp hr
    have hrest : ∀ x ∈ rest, (scan x).isSome = true :=
      fun x hx => h x (List.mem_cons_of_mem r hx)
    simp [scanLoop, ha, ih (body acc a) hrest, List.filterMap_cons]

theorem foldl_append_singleton {α : Type} (xs acc : List α) :
    xs.foldl (fun a x => a ++ [x]) acc = acc ++ xs := by
  induction xs generalizing acc with
  | nil => simp
  | cons x xs ih => simp [ih]

/-! ### The map built from grouped rows -/

theorem GoMap.set_of_not_mem (m : GoMap) (k : String) (v : Int)
    (h : k ∉ m.map Prod.fst) : GoMap.set m k v = m ++ [(k, v)] := by
  induction m with
  | nil => rfl
  | cons p rest ih =>
    obtain ⟨k0, v0⟩ := p
    simp only [List.map_cons, List.mem_cons, not_or] at h
    have hne : ¬ k0 = k := fun e => h.1 e.symm
    simp [GoMap.set, hne, ih h.2]

theorem GoMap.foldl_set (rows : List (String × Int)) :
    ∀ m : GoMap, ((m ++ rows).map Prod.fst).Nodup →
      rows.foldl (fun acc row => GoMap.set acc row.1 row.2) m = m ++ rows := by
  induction rows with
  | nil => intro m _; simp
  | cons r rest ih =>
    intro m h
    have hnot : r.1 ∉ m.map Prod.fst := by
      intro hmem
      rw [List.map_append, List.map_cons] at h
      have := (List.nodup_append.mp h).2.2
      exact this hmem (List.mem_cons_self _ _)
    have h2 : (((m ++ [r]) ++ rest).map Prod.fst).Nodup := by
      simpa [List.append_assoc] using h
    rw [List.foldl_cons, GoMap.set_of_not_mem m r.1 r.2 hnot]
    have := ih (m ++ [(r.1, r.2)]) (by simpa using h2)
    simpa [List.append_assoc] using this

/-! ### Grouping -/

theorem sqlGroupBy_keys {ρ κ : Type} [DecidableEq κ] (key : ρ → κ) (rows : List ρ) :
    (sqlGroupBy key rows).map Prod.fst = (rows.map key).dedup := by
  simp [sqlGroupBy, List.map_map, Function.comp_def]

theorem mem_sqlGroupBy {ρ κ : Type} [DecidableEq κ] (key : ρ → κ) (rows : List ρ)
    (g : κ × List ρ) :
    g ∈ sqlGroupBy key rows ↔
      (∃ r ∈ rows, key r = g.1) ∧ g.2 = rows.filter fun r => decide (key r = g.1) := by
  obtain ⟨k, l⟩ := g
  simp only [sqlGroupBy, List.mem_map, List.mem_dedup, Prod.mk.injEq]
  constructor
  · rintro ⟨k0, ⟨r, hr, hk⟩, rfl, rfl⟩
    exact ⟨⟨r, hr, hk⟩, rfl⟩
  · rintro ⟨⟨r, hr, hk⟩, hl⟩
    exact ⟨k, ⟨r, hr, hk⟩, rfl, hl.symm⟩

theorem byTypeQuery_keys (db : DB) (date : Timestamp) :
    (byTypeQuery db date).map Prod.fst = ((matching db date).map fun o => o.OpType).dedup := by
  simp [byTypeQuery, matching, sqlGroupBy, List.map_map, Function.comp_def]

/-! ### The joins -/

theorem mem_joinWorkers (db : DB) (p : Operation × Worker) :
    p ∈ joinWorkers db ↔
      p.1 ∈ db.operations ∧ p.2 ∈ db.workers ∧ p.1.WorkerID = some p.2.ID := by
  obtain ⟨o, w⟩ := p
  simp only [joinWorkers, List.mem_flatMap, List.mem_filterMap]
  constructor
  · rintro ⟨o1, ho1, w1, hw1, h⟩
    split at h
    · rename_i hc
      simp only [Option.some.injEq, Prod.mk.injEq] at h
      obtain ⟨rfl, rfl⟩ := h
      exact ⟨ho1, hw1, hc⟩
    · exact absurd h (by simp)
  · rintro ⟨ho, hw, hc⟩
    exact ⟨o, ho, w, hw, by simp [hc]⟩

theorem mem_joinFields (db : DB) (p : Operation × Field) :
    p ∈ joinFields db ↔
      p.1 ∈ db.operations ∧ p.2 ∈ db.fields ∧ p.1.FieldID = some p.2.ID := by
  obtain ⟨o, f⟩ := p
  simp only [joinFields, List.mem_flatMap, List.mem_filterMap]
  constructor
  · rintro ⟨o1, ho1, f1, hf1, h⟩
    split at h
    · rename_i hc
      simp only [Option.some.injEq, Prod.mk.injEq] at h
      obtain ⟨rfl, rfl⟩ := h
      exact ⟨ho1, hf1, hc⟩
    · exact absurd h (by simp)
  · rintro ⟨ho, hf, hc⟩
    exact ⟨o, ho, f, hf, by simp [hc]⟩

theorem workerStatsQuery_scans (db : DB) (now date : Timestamp) :
    ∀ r ∈ workerStatsQuery db now date, (scanWorkerStats r).isSome = true := by
  intro r hr
  simp only [workerStatsQuery, List.mem_map] at hr
  obtain ⟨g, hg, rfl⟩ := hr
  obtain ⟨⟨p, hp, hk⟩, _⟩ := (mem_sqlGroupBy _ _ g).mp hg
  have hj := (mem_joinWorkers db p).mp (List.mem_filter.mp hp).1
  have : g.1.1 = some p.2.ID := by rw [← hk]; exact hj.2.2
  simp [scanWorkerStats, this]

theorem fieldStatsQuery_scans (db : DB) (now date : Timestamp) :
    ∀ r ∈ fieldStatsQuery db now date, (scanFieldStats r).isSome = true := by
  intro r hr
  simp only [fieldStatsQuery, List.mem_map] at hr
  obtain ⟨g, hg, rfl⟩ := hr
  obtain ⟨⟨p, hp, hk⟩, _⟩ := (mem_sqlGroupBy _ _ g).mp hg
  have hj := (mem_joinFields db p).mp (List.mem_filter.mp hp).1
  have : g.1.1 = some p.2.ID := by rw [← hk]; exact hj.2.2
  simp [scanFieldStats, this]

/-! ### The date filter -/

theorem onDate_iff (date : Timestamp) (o : Operation) :
    onDate date o = true ↔ StartsOn (date / 86400000000) o := by
  cases h : o.StartTime <;> simp [onDate, sqlDATE, dateParam, usecPerDay, StartsOn, h]

theorem onDate_eq (date : Timestamp) :
    onDate date = fun o => decide (StartsOn (date / 86400000000) o) := by
  funext o
  by_cases h : StartsOn (date / 86400000000) o
  · simp [h, (onDate_iff date o).mpr h]
  · have : ¬ onDate date o = true := fun e => h ((onDate_iff date o).mp e)
    simp [h, this]

theorem matching_eq (db : DB) (date : Timestamp) :
    matching db date =
      db.operations.filter fun o => decide (StartsOn (date / 86400000000) o) := by
  rw [matching, onDate_eq]

theorem matching_eq_nil (db : DB) (date : Timestamp)
    (h : ∀ o ∈ db.operations, ¬ StartsOn (date / 86400000000) o) : matching db date = [] := by
  rw [matching_eq, List.filter_eq_nil_iff]
  intro o ho
  simpa using h o ho

/-! ### Counting by type -/

theorem length_filter_key {ρ κ : Type} [DecidableEq κ] (key : ρ → κ) (rows : List ρ) (k : κ) :
    (rows.filter fun r => decide (key r = k)).length = (rows.map key).count k := by
  induction rows with
  | nil => rfl
  | cons r rest ih =>
    by_cases h : key r = k
    · simp [List.filter_cons, h, ih]
    · simp [List.filter_cons, h, ih, List.count_cons]

theorem byTypeQuery_eq (db : DB) (date : Timestamp) :
    byTypeQuery db date =
      ((matching db date).map fun o => o.OpType).dedup.map fun t =>
        (t, ((((matching db date).map fun o => o.OpType).count t : Nat) : Int)) := by
  unfold byTypeQuery sqlGroupBy matching
  rw [List.map_map]
  apply List.map_congr_left
  intro t _
  simp only [Function.comp_apply]
  rw [length_filter_key (fun o : Operation => o.OpType)]

theorem byTypeQuery_sum (db : DB) (date : Timestamp) :
    ((byTypeQuery db date).map Prod.snd).sum = ((matching db date).length : Int) := by
  rw [byTypeQuery_eq, List.map_map]
  have h := List.sum_map_count_dedup_eq_length ((matching db date).map fun o => o.OpType)
  rw [List.length_map] at h
  rw [← h, Nat.cast_list_sum, List.map_map]
  rfl

theorem GoMap.get_of_mem (m : GoMap) (hnd : (m.map Prod.fst).Nodup) (k : String) (v : Int)
    (h : (k, v) ∈ m) : GoMap.get m k = some v := by
  induction m with
  | nil => cases h
  | cons p rest ih =>
    obtain ⟨k0, v0⟩ := p
    rw [List.map_cons, List.nodup_cons] at hnd
    rcases List.mem_cons.mp h with heq | hmem
    · cases heq
      simp [GoMap.get, List.find?_cons]
    · have hne : ¬ k0 = k := by
        intro e
        apply hnd.1
        rw [e]
        exact List.mem_map.mpr ⟨(k, v), hmem, rfl⟩
      have := ih hnd.2 hmem
      simpa [GoMap.get, List.find?_cons, hne] using this

theorem GoMap.get_of_not_mem (m : GoMap) (k : String) (h : k ∉ m.map Prod.fst) :
    GoMap.get m k = Option.none := by
  induction m with
  | nil => rfl
  | cons p rest ih =>
    obtain ⟨k0, v0⟩ := p
    simp only [List.map_cons, List.mem_cons, not_or] at h
    have hne : ¬ k0 = k := fun e => h.1 e.symm
    have := ih h.2
    simpa [GoMap.get, List.find?_cons, hne] using this

theorem count_map_eq_countP (ops : List Operation) (t : String) :
    (ops.map fun o => o.OpType).count t = ops.countP fun o => decide (o.OpType = t) := by
  induction ops with
  | nil => rfl
  | cons o rest ih =>
    by_cases h : o.OpType = t
    · simp [h, ih]
    · simp [List.count_cons, List.countP_cons, h, ih]

theorem length_eq_countP_three {α : Type} (p q : α → Bool) (l : List α)
    (hpq : ∀ a, ¬ (p a = true ∧ q a = true)) :
    l.length = l.countP p + l.countP q + l.countP (fun a => !p a && !q a) := by
  induction l with
  | nil => rfl
  | cons a rest ih =>
    have := hpq a
    rw [List.length_cons, List.countP_cons, List.countP_cons, List.countP_cons]
    cases hp : p a <;> cases hq : q a <;> simp [hp, hq] at this ⊢ <;> omega

/-! ### Tables that differ in operations of other days -/

theorem matching_perm_of_extra (db db2 : DB) (date : Timestamp) (extra : List Operation)
    (hextra : ∀ o ∈ extra, ¬ StartsOn (date / 86400000000) o)
    (hperm : db2.operations.Perm (db.operations ++ extra)) :
    (matching db2 date).Perm (matching db date) := by
  have h1 : (matching db2 date).Perm ((db.operations ++ extra).filter (onDate date)) :=
    hperm.filter (onDate date)
  have h2 : extra.filter (onDate date) = [] := by
    rw [List.filter_eq_nil_iff]
    intro o ho hd
    exact hextra o ho ((onDate_iff date o).mp hd)
  rw [List.filter_append, h2, List.append_nil] at h1
  exact h1

theorem totalWorkersQuery_eq_card (db : DB) (date : Timestamp) :
    totalWorkersQuery db date =
      ((((matching db date).filterMap fun o => o.WorkerID).toFinset.card : Nat) : Int) := by
  unfold totalWorkersQuery countDistinct matching
  rw [List.filterMap_map, List.card_toFinset]
  rfl

theorem countStatus_matching (db : DB) (date : Timestamp) (st : String) :
    countStatus st (matching db date) =
      ((db.operations.countP fun o => decide (StartsOn (date / 86400000000) o ∧
        o.Status = some st) : Nat) : Int) := by
  unfold countStatus
  rw [matching_eq, List.countP_filter]
  congr 1
  apply List.countP_congr
  intro o _
  simp only [Bool.and_eq_true, decide_eq_true_eq]
  tauto

theorem length_matching (db : DB) (date : Timestamp) :
    (matching db date).length =
      db.operations.countP fun o => decide (StartsOn (date / 86400000000) o) := by
  rw [matching_eq, List.countP_eq_length_filter]

/-! ### The statistics statements -/

theorem workerStatsQuery_eq_groupStats (db : DB) (now date : Timestamp) :
    workerStatsQuery db now date =
      groupStats db.workers Worker.ID Worker.Name (fun o => o.WorkerID) (fun o => o.FieldID)
        db.operations now date := rfl

theorem fieldStatsQuery_eq_groupStats (db : DB) (now date : Timestamp) :
    fieldStatsQuery db now date =
      groupStats db.fields Field.ID Field.Name (fun o => o.FieldID) (fun o => o.WorkerID)
        db.operations now date := rfl

/-- In a table with a primary key an operation joins with the one row it refers to. -/
theorem joinRow_eq_singleton {τ : Type} (tbl : List τ) (tid : τ → Int)
    (hnd : (tbl.map tid).Nodup) (w : τ) (hw : w ∈ tbl) (ref : Operation → Option Int)
    (o : Operation) (ho : ref o = some (tid w)) :
    (tbl.filterMap fun x => if ref o = some (tid x) then some (o, x) else Option.none)
      = [(o, w)] := by
  induction tbl with
  | nil => cases hw
  | cons x rest ih =>
    rw [List.map_cons, List.nodup_cons] at hnd
    rcases List.mem_cons.mp hw with rfl | hmem
    · have hrest : (rest.filterMap fun x =>
          if ref o = some (tid x) then some (o, x) else Option.none) = [] := by
        rw [List.filterMap_eq_nil_iff]
        intro y hy
        have hne : ¬ ref o = some (tid y) := by
          intro e
          rw [ho] at e
          exact hnd.1 (by rw [Option.some.inj e]; exact List.mem_map_of_mem tid hy)
        simp [hne]
      simp only [List.filterMap_cons, if_pos ho, hrest]
    · have hne : ¬ ref o = some (tid x) := by
        intro e
        rw [ho] at e
        exact hnd.1 (by rw [← Option.some.inj e]; exact List.mem_map_of_mem tid hmem)
      simp [List.filterMap_cons, hne, ih hnd.2 hmem]

/-- The operations of the group of row `w`: the operations of the day that refer to `w`. -/
theorem group_operations {τ : Type} (tbl : List τ) (tid : τ → Int) (tname : τ → String)
    (hnd : (tbl.map tid).Nodup) (w : τ) (hw : w ∈ tbl) (ref : Operation → Option Int)
    (date : Timestamp) (ops : List Operation) :
    (((ops.flatMap fun o =>
        tbl.filterMap fun x => if ref o = some (tid x) then some (o, x) else Option.none).filter
          fun p => onDate date p.1).filter
            fun p => decide ((ref p.1, tname p.2) = (some (tid w), tname w))).map Prod.fst
      = ops.filter fun o => onDate date o && decide (ref o = some (tid w)) := by
  induction ops with
  | nil => rfl
  | cons o rest ih =>
    rw [List.flatMap_cons, List.filter_append, List.filter_append, List.map_append, ih]
    by_cases ho : ref o = some (tid w)
    · rw [joinRow_eq_singleton tbl tid hnd w hw ref o ho]
      by_cases hd : onDate date o = true
      · simp [List.filter_cons, hd, ho]
      · simp [List.filter_cons, hd]
    · have hnil : ((tbl.filterMap fun x =>
          if ref o = some (tid x) then some (o, x) else Option.none).filter
            fun p => onDate date p.1).filter
              (fun p => decide ((ref p.1, tname p.2) = (some (tid w), tname w))) = [] := by
        rw [List.filter_eq_nil_iff]
        intro p hp
        have hp1 := (List.mem_filter.mp hp).1
        rw [List.mem_filterMap] at hp1
        obtain ⟨x, _, hx⟩ := hp1
        split at hx
        · cases hx
          simp [ho]
        · cases hx
      rw [hnil]
      simp [List.filter_cons, ho]

theorem filter_filterMap_singleton {κ β : Type} [DecidableEq κ] (F : κ → Option β)
    (P : β → Bool) (k0 : κ) (e0 : β) (hF0 : F k0 = some e0) (hP0 : P e0 = true) :
    ∀ K : List κ, K.Nodup → k0 ∈ K →
      (∀ k ∈ K, k ≠ k0 → ∀ e, F k = some e → P e = false) →
      (K.filterMap F).filter P = [e0] := by
  have hnone : ∀ K : List κ, k0 ∉ K →
      (∀ k ∈ K, k ≠ k0 → ∀ e, F k = some e → P e = false) →
      (K.filterMap F).filter P = [] := by
    intro K
    induction K with
    | nil => intro _ _; rfl
    | cons k rest ih =>
      intro hk hother
      have hne : k ≠ k0 := fun e => hk (e ▸ List.mem_cons_self k rest)
      have hrest := ih (fun h => hk (List.mem_cons_of_mem k h))
        (fun k1 hk1 => hother k1 (List.mem_cons_of_mem k hk1))
      cases hF : F k with
      | none => simp [List.filterMap_cons, hF, hrest]
      | some e =>
        have := hother k (List.mem_cons_self k rest) hne e hF
        simp [List.filterMap_cons, hF, List.filter_cons, this, hrest]
  intro K
  induction K with
  | nil => intro _ h; cases h
  | cons k rest ih =>
    intro hnd hmem hother
    rw [List.nodup_cons] at hnd
    by_cases hk : k = k0
    · subst hk
      have hrest := hnone rest hnd.1
        (fun k1 hk1 => hother k1 (List.mem_cons_of_mem k hk1))
      simp [List.filterMap_cons, hF0, List.filter_cons, hP0, hrest]
    · have hmem2 : k0 ∈ rest := by
        rcases List.mem_cons.mp hmem with e | h
        · exact absurd e.symm hk
        · exact h
      have hrest := ih hnd.2 hmem2 (fun k1 hk1 => hother k1 (List.mem_cons_of_mem k hk1))
      cases hF : F k with
      | none => simp [List.filterMap_cons, hF, hrest]
      | some e =>
        have := hother k (List.mem_cons_self k rest) hk e hF
        simp [List.filterMap_cons, hF, List.filter_cons, this, hrest]

theorem filterMap_some_fun {α β : Type} (f : α → β) (l : List α) :
    (l.filterMap fun a => some (f a)) = l.map f := by
  induction l with
  | nil => rfl
  | cons a rest ih => simp [List.filterMap_cons, ih]

theorem mem_joinRows {τ : Type} (tbl : List τ) (tid : τ → Int) (ref : Operation → Option Int)
    (ops : List Operation) (p : Operation × τ) :
    (p ∈ ops.flatMap fun o =>
        tbl.filterMap fun x => if ref o = some (tid x) then some (o, x) else Option.none) ↔
      p.1 ∈ ops ∧ p.2 ∈ tbl ∧ ref p.1 = some (tid p.2) := by
  obtain ⟨o, w⟩ := p
  simp only [List.mem_flatMap, List.mem_filterMap]
  constructor
  · rintro ⟨o1, ho1, w1, hw1, h⟩
    split at h
    · rename_i hc
      simp only [Option.some.injEq, Prod.mk.injEq] at h
      obtain ⟨rfl, rfl⟩ := h
      exact ⟨ho1, hw1, hc⟩
    · exact absurd h (by simp)
  · rintro ⟨ho, hw, hc⟩
    exact ⟨o, ho, w, hw, by simp [hc]⟩

/-- Every row of a statistics statement belongs to a row of the table to which an
operation of the day refers. -/
theorem groupStats_row_origin {τ : Type} (tbl : List τ) (tid : τ → Int) (tname : τ → String)
    (ref other : Operation → Option Int) (ops : List Operation) (now date : Timestamp)
    (r : Option Int × String × Int × ℚ × Int)
    (hr : r ∈ groupStats tbl tid tname ref other ops now date) :
    ∃ x ∈ tbl, r.1 = some (tid x) ∧ r.2.1 = tname x ∧
      ∃ o ∈ ops, onDate date o = true ∧ ref o = some (tid x) := by
  simp only [groupStats, List.mem_map] at hr
  obtain ⟨g, hg, rfl⟩ := hr
  obtain ⟨⟨p, hp, hk⟩, _⟩ := (mem_sqlGroupBy _ _ g).mp hg
  obtain ⟨hpj, hpd⟩ := List.mem_filter.mp hp
  obtain ⟨ho, hx, href⟩ := (mem_joinRows tbl tid ref ops p).mp hpj
  refine ⟨p.2, hx, ?_, ?_, p.1, ho, hpd, href⟩
  · show g.1.1 = some (tid p.2)
    rw [← hk]
    exact href
  · show g.1.2 = tname p.2
    rw [← hk]

/-- With a primary key on the table, the rows of a statistics statement that carry the id
of table row `w`, to which an operation of the day refers, are one row: the id and name
of `w`, the number of operations of the day that refer to `w`, their summed hours and the
number of distinct values of the other reference among them. -/
theorem groupStats_filter_row {τ : Type} (tbl : List τ) (tid : τ → Int) (tname : τ → String)
    (hnd : (tbl.map tid).Nodup) (w : τ) (hw : w ∈ tbl)
    (ref other : Operation → Option Int) (ops : List Operation) (now date : Timestamp)
    (hex : ∃ o ∈ ops, onDate date o = true ∧ ref o = some (tid w)) :
    (groupStats tbl tid tname ref other ops now date).filter
        (fun r => decide (r.1 = some (tid w)))
      = [(some (tid w), tname w,
          (((ops.filter fun o => onDate date o && decide (ref o = some (tid w))).length : Nat)
            : Int),
          sumOrZero ((ops.filter fun o => onDate date o && decide (ref o = some (tid w))).map
            (hoursOf now)),
          countDistinct ((ops.filter fun o =>
            onDate date o && decide (ref o = some (tid w))).map other))] := by
  have hgrp := group_operations tbl tid tname hnd w hw ref date ops
  generalize hJ : ((ops.flatMap fun o =>
        tbl.filterMap fun x => if ref o = some (tid x) then some (o, x) else Option.none).filter
          fun p => onDate date p.1) = J at hgrp
  have hJmem : ∀ p ∈ J, p.1 ∈ ops ∧ p.2 ∈ tbl ∧ ref p.1 = some (tid p.2) ∧
      onDate date p.1 = true := by
    intro p hp
    rw [← hJ] at hp
    obtain ⟨hpj, hpd⟩ := List.mem_filter.mp hp
    obtain ⟨h1, h2, h3⟩ := (mem_joinRows tbl tid ref ops p).mp hpj
    exact ⟨h1, h2, h3, hpd⟩
  have hshape : groupStats tbl tid tname ref other ops now date =
      ((J.map fun p : Operation × τ => (ref p.1, tname p.2)).dedup).filterMap fun k =>
        some (k.1, k.2,
          (((J.filter fun p => decide ((ref p.1, tname p.2) = k)).length : Nat) : Int),
          sumOrZero ((J.filter fun p => decide ((ref p.1, tname p.2) = k)).map
            fun p => hoursOf now p.1),
          countDistinct ((J.filter fun p => decide ((ref p.1, tname p.2) = k)).map
            fun p => other p.1)) := by
    unfold groupStats sqlGroupBy
    rw [hJ, List.map_map]
    exact (filterMap_some_fun _ _).symm
  rw [hshape]
  have hk0 : (some (tid w), tname w) ∈
      (J.map fun p : Operation × τ => (ref p.1, tname p.2)).dedup := by
    obtain ⟨o, ho, hd, href⟩ := hex
    rw [List.mem_dedup, List.mem_map]
    refine ⟨(o, w), ?_, by simp [href]⟩
    rw [← hJ]
    exact List.mem_filter.mpr ⟨(mem_joinRows tbl tid ref ops (o, w)).mpr ⟨ho, hw, href⟩, hd⟩
  have hsing := filter_filterMap_singleton
    (fun k : Option Int × String => some (k.1, k.2,
          (((J.filter fun p => decide ((ref p.1, tname p.2) = k)).length : Nat) : Int),
          sumOrZero ((J.filter fun p => decide ((ref p.1, tname p.2) = k)).map
            fun p => hoursOf now p.1),
          countDistinct ((J.filter fun p => decide ((ref p.1, tname p.2) = k)).map
            fun p => other p.1)))
    (fun r : Option Int × String × Int × ℚ × Int => decide (r.1 = some (tid w)))
    (some (tid w), tname w) _ rfl (by simp)
    ((J.map fun p : Operation × τ => (ref p.1, tname p.2)).dedup) (List.nodup_dedup _) hk0
    (by
      intro k hk hne e he
      simp only [Option.some.injEq] at he
      subst he
      simp only [decide_eq_false_iff_not]
      intro hk1
      apply hne
      rw [List.mem_dedup, List.mem_map] at hk
      obtain ⟨p, hp, hpk⟩ := hk
      obtain ⟨_, hp2, hp3, _⟩ := hJmem p hp
      have hid : tid p.2 = tid w := by
        have h1 : ref p.1 = some (tid w) := by rw [← hk1, ← hpk]
        rw [hp3] at h1
        exact Option.some.inj h1
      have hpw : p.2 = w := List.inj_on_of_nodup_map hnd hp2 hw hid
      rw [← hpk, hp3, hpw])
  rw [hsing]
  simp only [← hgrp, List.length_map, List.map_map, Function.comp_def]

theorem sumOrZero_hoursOf (now : Timestamp) (l : List Operation) :
    sumOrZero (l.map (hoursOf now)) = (l.map (elapsedHours now)).sum := by
  induction l with
  | nil => rfl
  | cons o rest ih =>
    unfold sumOrZero at ih ⊢
    rw [List.map_cons, List.map_cons, List.sum_cons, ← ih]
    cases hs : o.StartTime with
    | none => simp [hoursOf, elapsedHours, hs]
    | some st =>
      cases he : o.EndTime with
      | none => simp [hoursOf, elapsedHours, hs, he]
      | some en => simp [hoursOf, elapsedHours, hs, he]

theorem countDistinct_eq_card (l : List Operation) (col : Operation → Option Int) :
    countDistinct (l.map col) = (((l.filterMap col).toFinset.card : Nat) : Int) := by
  unfold countDistinct
  rw [List.filterMap_map, List.card_toFinset]
  rfl

theorem filter_filterMap_of_agree {α β : Type} (scan : α → Option β) (P : β → Bool)
    (Q : α → Bool) (h : ∀ r e, scan r = some e → P e = Q r) (rows : List α) :
    (rows.filterMap scan).filter P = (rows.filter Q).filterMap scan := by
  induction rows with
  | nil => rfl
  | cons r rest ih =>
    cases hs : scan r with
    | none =>
      by_cases hq : Q r = true
      · simp [List.filterMap_cons, List.filter_cons, hs, hq, ih]
      · simp [List.filterMap_cons, List.filter_cons, hs, hq, ih]
    | some e =>
      have hpe := h r e hs
      by_cases hq : Q r = true
      · simp [List.filterMap_cons, List.filter_cons, hs, hq, hpe, ih]
      · simp [List.filterMap_cons, List.filter_cons, hs, hq, hpe, ih]

theorem filter_onDate_ref (db : DB) (date : Timestamp) (ref : Operation → Option Int)
    (w : Int) :
    (db.operations.filter fun o => onDate date o && decide (ref o = some w)) =
      db.operations.filter fun o =>
        decide (StartsOn (date / 86400000000) o ∧ ref o = some w) := by
  apply List.filter_congr
  intro o _
  rw [onDate_eq]
  simp

/-- The entry of worker row `w` in `worker_stats`, when worker ids are a primary key and an
operation of the day refers to `w`. -/
theorem workerStatsOf_filter (db : DB) (now date : Timestamp)
    (hnd : (db.workers.map Worker.ID).Nodup) (w : Worker) (hw : w ∈ db.workers)
    (hex : ∃ o ∈ db.operations, StartsOn (date / 86400000000) o ∧ o.WorkerID = some w.ID) :
    (workerStatsOf db now date).filter (fun e => decide (e.WorkerID = w.ID)) =
      [{ WorkerID := w.ID, WorkerName := w.Name,
         Operations := (((workerOpsOn db (date / 86400000000) w.ID).length : Nat) : Int),
         HoursWorked := ((workerOpsOn db (date / 86400000000) w.ID).map
           (elapsedHours now)).sum,
         FieldsWorked := ((((workerOpsOn db (date / 86400000000) w.ID).filterMap
           fun o => o.FieldID).toFinset.card : Nat) : Int) }] := by
  have hex2 : ∃ o ∈ db.operations, onDate date o = true ∧ o.WorkerID = some w.ID := by
    obtain ⟨o, ho, hd, hr⟩ := hex
    exact ⟨o, ho, (onDate_iff date o).mpr hd, hr⟩
  have hrow := groupStats_filter_row db.workers Worker.ID Worker.Name hnd w hw
    (fun o => o.WorkerID) (fun o => o.FieldID) db.operations now date hex2
  unfold workerStatsOf
  rw [filter_filterMap_of_agree scanWorkerStats (fun e => decide (e.WorkerID = w.ID))
    (fun r => decide (r.1 = some w.ID)) ?_ _, workerStatsQuery_eq_groupStats, hrow]
  · rw [filter_onDate_ref db date (fun o => o.WorkerID) w.ID, sumOrZero_hoursOf,
      countDistinct_eq_card]
    rfl
  · intro r e hs
    obtain ⟨r1, r2⟩ := r
    cases r1 with
    | none => simp [scanWorkerStats] at hs
    | some id =>
      simp only [scanWorkerStats, Option.map_some', Option.some.injEq] at hs
      subst hs
      simp

/-- The entry of field row `f` in `field_stats`, when field ids are a primary key and an
operation of the day refers to `f`. -/
theorem fieldStatsOf_filter (db : DB) (now date : Timestamp)
    (hnd : (db.fields.map Field.ID).Nodup) (f : Field) (hf : f ∈ db.fields)
    (hex : ∃ o ∈ db.operations, StartsOn (date / 86400000000) o ∧ o.FieldID = some f.ID) :
    (fieldStatsOf db now date).filter (fun e => decide (e.FieldID = f.ID)) =
      [{ FieldID := f.ID, FieldName := f.Name,
         Operations := (((fieldOpsOn db (date / 86400000000) f.ID).length : Nat) : Int),
         HoursWorked := ((fieldOpsOn db (date / 86400000000) f.ID).map
           (elapsedHours now)).sum,
         WorkersCount := ((((fieldOpsOn db (date / 86400000000) f.ID).filterMap
           fun o => o.WorkerID).toFinset.card : Nat) : Int) }] := by
  have hex2 : ∃ o ∈ db.operations, onDate date o = true ∧ o.FieldID = some f.ID := by
    obtain ⟨o, ho, hd, hr⟩ := hex
    exact ⟨o, ho, (onDate_iff date o).mpr hd, hr⟩
  have hrow := groupStats_filter_row db.fields Field.ID Field.Name hnd f hf
    (fun o => o.FieldID) (fun o => o.WorkerID) db.operations now date hex2
  unfold fieldStatsOf
  rw [filter_filterMap_of_agree scanFieldStats (fun e => decide (e.FieldID = f.ID))
    (fun r => decide (r.1 = some f.ID)) ?_ _, fieldStatsQuery_eq_groupStats, hrow]
  · rw [filter_onDate_ref db date (fun o => o.FieldID) f.ID, sumOrZero_hoursOf,
      countDistinct_eq_card]
    rfl
  · intro r e hs
    obtain ⟨r1, r2⟩ := r
    cases r1 with
    | none => simp [scanFieldStats] at hs
    | some id =>
      simp only [scanFieldStats, Option.map_some', Option.some.injEq] at hs
      subst hs
      simp

/-- Every entry of `worker_stats` is the entry of a worker row to which an operation of the
day refers. -/
theorem workerStatsOf_origin (db : DB) (now date : Timestamp) (e : WorkerDailyStats)
    (he : e ∈ workerStatsOf db now date) :
    ∃ w ∈ db.workers, e.WorkerID = w.ID ∧ e.WorkerName = w.Name ∧
      ∃ o ∈ db.operations, StartsOn (date / 86400000000) o ∧ o.WorkerID = some w.ID := by
  unfold workerStatsOf at he
  rw [List.mem_filterMap] at he
  obtain ⟨r, hr, hs⟩ := he
  rw [workerStatsQuery_eq_groupStats] at hr
  obtain ⟨w, hw, h1, h2, o, ho, hd, href⟩ := groupStats_row_origin _ _ _ _ _ _ _ _ r hr
  refine ⟨w, hw, ?_, ?_, o, ho, (onDate_iff date o).mp hd, href⟩
  · simp only [scanWorkerStats, h1, Option.map_some', Option.some.injEq] at hs
    rw [← hs]
  · simp only [scanWorkerStats, h1, Option.map_some', Option.some.injEq] at hs
    rw [← hs]
    exact h2

/-- Every entry of `field_stats` is the entry of a field row to which an operation of the
day refers. -/
theorem fieldStatsOf_origin (db : DB) (now date : Timestamp) (e : FieldDailyStats)
    (he : e ∈ fieldStatsOf db now date) :
    ∃ f ∈ db.fields, e.FieldID = f.ID ∧ e.FieldName = f.Name ∧
      ∃ o ∈ db.operations, StartsOn (date / 86400000000) o ∧ o.FieldID = some f.ID := by
  unfold fieldStatsOf at he
  rw [List.mem_filterMap] at he
  obtain ⟨r, hr, hs⟩ := he
  rw [fieldStatsQuery_eq_groupStats] at hr
  obtain ⟨f, hf, h1, h2, o, ho, hd, href⟩ := groupStats_row_origin _ _ _ _ _ _ _ _ r hr
  refine ⟨f, hf, ?_, ?_, o, ho, (onDate_iff date o).mp hd, href⟩
  · simp only [scanFieldStats, h1, Option.map_some', Option.some.injEq] at hs
    rw [← hs]
  · simp only [scanFieldStats, h1, Option.map_some', Option.some.injEq] at hs
    rw [← hs]
    exact h2

theorem elapsedHours_of_closed (now : Timestamp) (l : List Operation)
    (h : ∀ o ∈ l, o.EndTime ≠ Option.none) :
    (l.map (elapsedHours now)).sum = (l.map closedHours).sum := by
  congr 1
  apply List.map_congr_left
  intro o ho
  have h1 := h o ho
  cases hs : o.StartTime with
  | none => simp [elapsedHours, closedHours, hs]
  | some st =>
    cases he : o.EndTime with
    | none => exact absurd he h1
    | some en => simp [elapsedHours, closedHours, hs, he]

/-- Between two instants the summed hours grow by the elapsed time once for each operation
without an end. -/
theorem elapsedHours_growth (n1 n2 : Timestamp) (l : List Operation)
    (h : ∀ o ∈ l, o.StartTime ≠ Option.none) :
    (l.map (elapsedHours n2)).sum - (l.map (elapsedHours n1)).sum =
      ((l.countP fun o => decide (o.EndTime = Option.none) : Nat) : ℚ) *
        (((n2 : ℚ) - (n1 : ℚ)) / 1000000 / 3600) := by
  induction l with
  | nil => simp
  | cons o rest ih =>
    have ih2 := ih (fun x hx => h x (List.mem_cons_of_mem o hx))
    have ho := h o (List.mem_cons_self o rest)
    rw [List.map_cons, List.map_cons, List.sum_cons, List.sum_cons, List.countP_cons]
    cases hs : o.StartTime with
    | none => exact absurd hs ho
    | some st =>
      cases he : o.EndTime with
      | none =>
        simp only [elapsedHours, hs, he, decide_True, if_true]
        push_cast
        linarith
      | some en =>
        simp only [elapsedHours, hs, he]
        simp only [reduceCtorEq, decide_False, Bool.false_eq_true, if_false, Nat.add_zero]
        linarith

theorem workerOpsOn_start (db : DB) (D : Date) (w : Int) :
    ∀ o ∈ workerOpsOn db D w, o.StartTime ≠ Option.none := by
  intro o ho hn
  have := (List.mem_filter.mp ho).2
  simp only [decide_eq_true_eq] at this
  obtain ⟨⟨t, ht, _⟩, _⟩ := this
  rw [hn] at ht
  cases ht

theorem fieldOpsOn_start (db : DB) (D : Date) (f : Int) :
    ∀ o ∈ fieldOpsOn db D f, o.StartTime ≠ Option.none := by
  intro o ho hn
  have := (List.mem_filter.mp ho).2
  simp only [decide_eq_true_eq] at this
  obtain ⟨⟨t, ht, _⟩, _⟩ := this
  rw [hn] at ht
  cases ht

/-! ### The report -/

/-- With no failing statement `GetDailyReport` returns a report, and each of its parts is
the result of the corresponding statement. -/
theorem GetDailyReport_noFaults (db : DB) (clk : Clock) (date : Timestamp) :
    GetDailyReport db clk Faults.none date = Except.ok
      { Date := date
        TotalWorkers := totalWorkersQuery db date
        TotalOperations := (opStatsQuery db date).1
        CompletedOps := (opStatsQuery db date).2.1
        InProgressOps := (opStatsQuery db date).2.2
        OperationsByType := byTypeQuery db date
        WorkerStats := workerStatsOf db clk.workerStats date
        FieldStats := fieldStatsOf db clk.fieldStats date } := by
  have hmap : ∀ (rows : List (String × Int)) (rep : DailyReport),
      rows.foldl (fun (rep : DailyReport) (row : String × Int) =>
        { rep with OperationsByType := rep.OperationsByType.set row.1 row.2 }) rep
      = { rep with OperationsByType :=
            rows.foldl (fun acc row => GoMap.set acc row.1 row.2) rep.OperationsByType } := by
    intro rows
    induction rows with
    | nil => intro rep; rfl
    | cons r rest ih => intro rep; simp [ih]
  have hws : ∀ (rows : List WorkerDailyStats) (rep : DailyReport),
      rows.foldl (fun (rep : DailyReport) ws =>
        { rep with WorkerStats := rep.WorkerStats ++ [ws] }) rep
      = { rep with WorkerStats := rep.WorkerStats ++ rows } := by
    intro rows
    induction rows with
    | nil => intro rep; simp
    | cons r rest ih => intro rep; simp [ih]
  have hfs : ∀ (rows : List FieldDailyStats) (rep : DailyReport),
      rows.foldl (fun (rep : DailyReport) fs =>
        { rep with FieldStats := rep.FieldStats ++ [fs] }) rep
      = { rep with FieldStats := rep.FieldStats ++ rows } := by
    intro rows
    induction rows with
    | nil => intro rep; simp
    | cons r rest ih => intro rep; simp [ih]
  have hnd : (([] ++ byTypeQuery db date).map Prod.fst).Nodup := by
    rw [List.nil_append, byTypeQuery_keys]; exact List.nodup_dedup _
  have hset := GoMap.foldl_set (byTypeQuery db date) [] hnd
  simp only [GetDailyReport, Faults.none, queryRow, queryRows, bind, Except.bind, pure,
    Except.pure, Bool.false_eq_true, if_false]
  rw [scanLoop_of_isSome some _ _ _ (by simp)]
  simp only [List.filterMap_some, hmap, hset, List.nil_append]
  rw [scanLoop_of_isSome _ _ _ _ (workerStatsQuery_scans db clk.workerStats date)]
  simp only [hws, List.nil_append]
  rw [scanLoop_of_isSome _ _ _ _ (fieldStatsQuery_scans db clk.fieldStats date)]
  simp only [hfs, List.nil_append]
  rfl

/-! ### Exchanging the roles of workers and fields -/

theorem sqlGroupBy_map {ρ ρ2 κ : Type} [DecidableEq κ] (key : ρ2 → κ) (φ : ρ → ρ2)
    (rows : List ρ) :
    sqlGroupBy key (rows.map φ) =
      (sqlGroupBy (fun r => key (φ r)) rows).map fun g => (g.1, g.2.map φ) := by
  unfold sqlGroupBy
  rw [List.map_map, List.map_map]
  apply List.map_congr_left
  intro k _
  simp only [Function.comp_apply, Prod.mk.injEq, true_and]
  rw [List.filter_map]
  rfl

theorem joinRows_map {τ τ2 : Type} (tbl : List τ) (g : τ → τ2) (tid : τ2 → Int)
    (ref : Operation → Option Int) (h : Operation → Operation) (ops : List Operation) :
    ((ops.map h).flatMap fun o =>
        (tbl.map g).filterMap fun w =>
          if ref o = some (tid w) then some (o, w) else Option.none) =
      (ops.flatMap fun o =>
        tbl.filterMap fun x =>
          if ref (h o) = some (tid (g x)) then some (o, x) else Option.none).map
        fun p => (h p.1, g p.2) := by
  have hrow : ∀ (o : Operation) (l : List τ),
      ((l.map g).filterMap fun w =>
          if ref (h o) = some (tid w) then some (h o, w) else Option.none) =
        (l.filterMap fun x =>
          if ref (h o) = some (tid (g x)) then some (o, x) else Option.none).map
          fun p => (h p.1, g p.2) := by
    intro o l
    induction l with
    | nil => rfl
    | cons x xs ihx =>
      by_cases hc : ref (h o) = some (tid (g x))
      · simp only [List.map_cons, List.filterMap_cons, if_pos hc, ihx]
      · simp only [List.map_cons, List.filterMap_cons, if_neg hc, ihx]
  induction ops with
  | nil => rfl
  | cons o rest ih =>
    rw [List.map_cons, List.flatMap_cons, List.flatMap_cons, List.map_append, ih, hrow]

/-- The statistics statement over renamed tables is the statement with the renaming moved
into the column functions. -/
theorem groupStats_map {τ τ2 : Type} (tbl : List τ) (g : τ → τ2) (tid : τ2 → Int)
    (tname : τ2 → String) (ref other : Operation → Option Int) (h : Operation → Operation)
    (ops : List Operation) (now date : Timestamp)
    (hdate : ∀ o, onDate date (h o) = onDate date o)
    (hhours : ∀ o, hoursOf now (h o) = hoursOf now o) :
    groupStats (tbl.map g) tid tname ref other (ops.map h) now date =
      groupStats tbl (fun x => tid (g x)) (fun x => tname (g x)) (fun o => ref (h o))
        (fun o => other (h o)) ops now date := by
  unfold groupStats
  rw [joinRows_map, List.filter_map, sqlGroupBy_map, List.map_map]
  have hf : ((fun p : Operation × τ2 => onDate date p.1) ∘
      fun p : Operation × τ => (h p.1, g p.2)) = fun p => onDate date p.1 := by
    funext p
    exact hdate p.1
  rw [hf]
  apply List.map_congr_left
  intro grp _
  simp only [Function.comp_apply, List.length_map, List.map_map, Function.comp_def, hhours]

theorem workerStatsQuery_swapRoles (db : DB) (now date : Timestamp) :
    workerStatsQuery (swapRoles db) now date = fieldStatsQuery db now date := by
  rw [workerStatsQuery_eq_groupStats, fieldStatsQuery_eq_groupStats]
  exact groupStats_map db.fields fieldAsWorker Worker.ID Worker.Name (fun o => o.WorkerID)
    (fun o => o.FieldID) swapRefs db.operations now date (fun _ => rfl) (fun _ => rfl)

theorem fieldStatsOf_eq_swapRoles (db : DB) (now date : Timestamp) :
    fieldStatsOf db now date =
      (workerStatsOf (swapRoles db) now date).map WorkerDailyStats.asFieldStats := by
  unfold fieldStatsOf workerStatsOf
  rw [workerStatsQuery_swapRoles, List.map_filterMap]
  apply List.filterMap_congr
  intro r _
  obtain ⟨r1, r2⟩ := r
  cases r1 <;> rfl

/-! ### Entries and totals -/

theorem nodup_map_of_filter_le_one {α : Type} (f : α → Int) (l : List α)
    (h : ∀ a, (l.filter fun x => decide (f x = a)).length ≤ 1) : (l.map f).Nodup := by
  rw [List.nodup_iff_count_le_one]
  intro a
  rw [← length_filter_key f l a]
  exact h a

/-- With a primary key on the workers table no two entries of `worker_stats` share a
worker id. -/
theorem workerStatsOf_nodup (db : DB) (now date : Timestamp)
    (hpk : (db.workers.map Worker.ID).Nodup) :
    ((workerStatsOf db now date).map fun e => e.WorkerID).Nodup := by
  apply nodup_map_of_filter_le_one
  intro a
  cases hfil : (workerStatsOf db now date).filter fun x => decide (x.WorkerID = a) with
  | nil => simp
  | cons e rest =>
    have he : e ∈ (workerStatsOf db now date).filter fun x => decide (x.WorkerID = a) := by
      rw [hfil]; exact List.mem_cons_self e rest
    obtain ⟨hmem, hid⟩ := List.mem_filter.mp he
    simp only [decide_eq_true_eq] at hid
    obtain ⟨w, hw, h1, _, o, ho, hd, hr⟩ := workerStatsOf_origin db now date e hmem
    have := workerStatsOf_filter db now date hpk w hw ⟨o, ho, hd, hr⟩
    rw [← h1, hid, hfil] at this
    rw [this]
    simp

/-- With a primary key on the fields table no two entries of `field_stats` share a field
id. -/
theorem fieldStatsOf_nodup (db : DB) (now date : Timestamp)
    (hpk : (db.fields.map Field.ID).Nodup) :
    ((fieldStatsOf db now date).map fun e => e.FieldID).Nodup := by
  apply nodup_map_of_filter_le_one
  intro a
  cases hfil : (fieldStatsOf db now date).filter fun x => decide (x.FieldID = a) with
  | nil => simp
  | cons e rest =>
    have he : e ∈ (fieldStatsOf db now date).filter fun x => decide (x.FieldID = a) := by
      rw [hfil]; exact List.mem_cons_self e rest
    obtain ⟨hmem, hid⟩ := List.mem_filter.mp he
    simp only [decide_eq_true_eq] at hid
    obtain ⟨f, hf, h1, _, o, ho, hd, hr⟩ := fieldStatsOf_origin db now date e hmem
    have := fieldStatsOf_filter db now date hpk f hf ⟨o, ho, hd, hr⟩
    rw [← h1, hid, hfil] at this
    rw [this]
    simp

/-- The worker ids of the entries of `worker_stats` are the worker ids of the operations of
the day, when each of these refers to a row of the workers table. -/
theorem workerStatsOf_ids (db : DB) (now date : Timestamp)
    (hpk : (db.workers.map Worker.ID).Nodup)
    (href : ∀ o ∈ db.operations, StartsOn (date / 86400000000) o →
      ∀ id, o.WorkerID = some id → ∃ w ∈ db.workers, w.ID = id) :
    ((workerStatsOf db now date).map fun e => e.WorkerID).toFinset =
      ((matching db date).filterMap fun o => o.WorkerID).toFinset := by
  ext a
  simp only [List.mem_toFinset, List.mem_map, List.mem_filterMap]
  constructor
  · rintro ⟨e, he, rfl⟩
    obtain ⟨w, _, h1, _, o, ho, hd, hr⟩ := workerStatsOf_origin db now date e he
    refine ⟨o, ?_, by rw [h1]; exact hr⟩
    rw [matching_eq]
    exact List.mem_filter.mpr ⟨ho, by simpa using hd⟩
  · rintro ⟨o, ho, hr⟩
    rw [matching_eq] at ho
    obtain ⟨hmem, hd⟩ := List.mem_filter.mp ho
    simp only [decide_eq_true_eq] at hd
    obtain ⟨w, hw, hid⟩ := href o hmem hd a hr
    have hfil := workerStatsOf_filter db now date hpk w hw ⟨o, hmem, hd, by rw [hid]; exact hr⟩
    have hin : (⟨w.ID, w.Name,
        (((workerOpsOn db (date / 86400000000) w.ID).length : Nat) : Int),
        ((workerOpsOn db (date / 86400000000) w.ID).map (elapsedHours now)).sum,
        ((((workerOpsOn db (date / 86400000000) w.ID).filterMap
          fun o => o.FieldID).toFinset.card : Nat) : Int)⟩ : WorkerDailyStats) ∈
        (workerStatsOf db now date).filter fun e => decide (e.WorkerID = w.ID) := by
      rw [hfil]; exact List.mem_singleton.mpr rfl
    exact ⟨_, (List.mem_filter.mp hin).1, hid⟩

/-! ### Sums of the operation counts of the entries -/

theorem sqlGroupBy_sum_length {ρ κ : Type} [DecidableEq κ] (key : ρ → κ) (rows : List ρ) :
    ((sqlGroupBy key rows).map fun g => ((g.2.length : Nat) : Int)).sum =
      ((rows.length : Nat) : Int) := by
  unfold sqlGroupBy
  rw [List.map_map]
  have h := List.sum_map_count_dedup_eq_length (rows.map key)
  rw [List.length_map] at h
  rw [← h, Nat.cast_list_sum, List.map_map]
  congr 1
  apply List.map_congr_left
  intro k _
  simp only [Function.comp_apply]
  rw [length_filter_key key rows k]

theorem joinRow_filter_onDate {τ : Type} (tbl : List τ) (c : τ → Bool) (date : Timestamp)
    (o : Operation) :
    ((tbl.filterMap fun w => if c w = true then some (o, w) else Option.none).filter
        fun p => onDate date p.1).length =
      if onDate date o = true then tbl.countP c else 0 := by
  induction tbl with
  | nil => simp
  | cons x xs ih =>
    by_cases hc : c x = true
    · by_cases hd : onDate date o = true
      · simp only [List.filterMap_cons, if_pos hc, List.filter_cons, if_pos hd,
          List.length_cons, List.countP_cons, ih]
      · simp only [List.filterMap_cons, if_pos hc, List.filter_cons, if_neg hd,
          List.countP_cons, ih]
    · by_cases hd : onDate date o = true
      · simp only [List.filterMap_cons, if_neg hc, if_pos hd, List.countP_cons, ih]
        simp
      · simp only [List.filterMap_cons, if_neg hc, if_neg hd, ih]

/-- The number of joined rows of the day: each operation of the day counts once for every
table row it refers to. -/
theorem joinRows_length {τ : Type} (tbl : List τ) (tid : τ → Int)
    (ref : Operation → Option Int) (date : Timestamp) (ops : List Operation) :
    ((ops.flatMap fun o =>
        tbl.filterMap fun w => if ref o = some (tid w) then some (o, w) else Option.none).filter
          fun p => onDate date p.1).length =
      ((ops.filter (onDate date)).map fun o =>
        tbl.countP fun w => decide (ref o = some (tid w))).sum := by
  induction ops with
  | nil => rfl
  | cons o rest ih =>
    rw [List.flatMap_cons, List.filter_append, List.length_append, ih]
    have h := joinRow_filter_onDate tbl (fun w => decide (ref o = some (tid w))) date o
    simp only [decide_eq_true_eq] at h
    rw [h]
    by_cases hd : onDate date o = true
    · simp [List.filter_cons, hd]
    · simp [List.filter_cons, hd]

theorem countP_ref_le_one {τ : Type} (tbl : List τ) (tid : τ → Int)
    (hnd : (tbl.map tid).Nodup) (x : Option Int) :
    (tbl.countP fun w => decide (x = some (tid w))) ≤ 1 := by
  cases x with
  | none => simp
  | some a =>
    have h1 := List.nodup_iff_count_le_one.mp hnd a
    rw [← length_filter_key tid tbl a, ← List.countP_eq_length_filter] at h1
    have h2 : (tbl.countP fun w => decide (some a = some (tid w))) =
        tbl.countP fun w => decide (tid w = a) := by
      apply List.countP_congr
      intro w _
      simp only [Option.some.injEq, decide_eq_true_eq]
      exact eq_comm
    rw [h2]
    exact h1

theorem countP_ref_eq_one {τ : Type} (tbl : List τ) (tid : τ → Int)
    (hnd : (tbl.map tid).Nodup) (x : Option Int) (hex : ∃ w ∈ tbl, x = some (tid w)) :
    (tbl.countP fun w => decide (x = some (tid w))) = 1 := by
  have hle := countP_ref_le_one tbl tid hnd x
  have hpos : 0 < tbl.countP fun w => decide (x = some (tid w)) := by
    obtain ⟨w, hw, hx⟩ := hex
    exact List.countP_pos_iff.mpr ⟨w, hw, by simpa using hx⟩
  omega

theorem sum_le_length_of_le_one (l : List Nat) (h : ∀ x ∈ l, x ≤ 1) : l.sum ≤ l.length := by
  induction l with
  | nil => simp
  | cons a rest ih =>
    have h1 := h a (List.mem_cons_self a rest)
    have h2 := ih (fun x hx => h x (List.mem_cons_of_mem a hx))
    simp only [List.sum_cons, List.length_cons]
    omega

theorem sum_eq_length_of_eq_one (l : List Nat) (h : ∀ x ∈ l, x = 1) : l.sum = l.length := by
  induction l with
  | nil => simp
  | cons a rest ih =>
    have h1 := h a (List.mem_cons_self a rest)
    have h2 := ih (fun x hx => h x (List.mem_cons_of_mem a hx))
    simp only [List.sum_cons, List.length_cons]
    omega

theorem sum_lt_length_of_zero_mem (l : List Nat) (h : ∀ x ∈ l, x ≤ 1) (h0 : 0 ∈ l) :
    l.sum < l.length := by
  induction l with
  | nil => cases h0
  | cons a rest ih =>
    have h1 := h a (List.mem_cons_self a rest)
    have hrest : ∀ x ∈ rest, x ≤ 1 := fun x hx => h x (List.mem_cons_of_mem a hx)
    simp only [List.sum_cons, List.length_cons]
    rcases List.mem_cons.mp h0 with e | hmem
    · have := sum_le_length_of_le_one rest hrest
      omega
    · have := ih hrest hmem
      omega

/-- The operation counts of the rows of a statistics statement add up to the number of
joined rows of the day. -/
theorem groupStats_sum_operations {τ : Type} (tbl : List τ) (tid : τ → Int)
    (tname : τ → String) (ref other : Operation → Option Int) (ops : List Operation)
    (now date : Timestamp) :
    ((groupStats tbl tid tname ref other ops now date).map fun r => r.2.2.1).sum =
      ((((ops.filter (onDate date)).map fun o =>
        tbl.countP fun w => decide (ref o = some (tid w))).sum : Nat) : Int) := by
  unfold groupStats
  rw [List.map_map, ← joinRows_length tbl tid ref date ops,
    ← sqlGroupBy_sum_length (fun p : Operation × τ => (ref p.1, tname p.2))]
  rfl

theorem workerStatsOf_sum_operations (db : DB) (now date : Timestamp) :
    ((workerStatsOf db now date).map fun e => e.Operations).sum =
      ((((matching db date).map fun o =>
        db.workers.countP fun w => decide (o.WorkerID = some w.ID)).sum : Nat) : Int) := by
  have h := groupStats_sum_operations db.workers Worker.ID Worker.Name (fun o => o.WorkerID)
    (fun o => o.FieldID) db.operations now date
  rw [← workerStatsQuery_eq_groupStats] at h
  unfold matching
  rw [← h]
  unfold workerStatsOf
  congr 1
  have hs := workerStatsQuery_scans db now date
  generalize workerStatsQuery db now date = rows at hs
  induction rows with
  | nil => rfl
  | cons r rest ih =>
    have hr := hs r (List.mem_cons_self r rest)
    have hrest := ih (fun x hx => hs x (List.mem_cons_of_mem r hx))
    obtain ⟨r1, r2⟩ := r
    cases r1 with
    | none => simp [scanWorkerStats] at hr
    | some id => simp [List.filterMap_cons, scanWorkerStats, hrest]

theorem fieldStatsOf_sum_operations (db : DB) (now date : Timestamp) :
    ((fieldStatsOf db now date).map fun e => e.Operations).sum =
      ((((matching db date).map fun o =>
        db.fields.countP fun f => decide (o.FieldID = some f.ID)).sum : Nat) : Int) := by
  have h := groupStats_sum_operations db.fields Field.ID Field.Name (fun o => o.FieldID)
    (fun o => o.WorkerID) db.operations now date
  rw [← fieldStatsQuery_eq_groupStats] at h
  unfold matching
  rw [← h]
  unfold fieldStatsOf
  congr 1
  have hs := fieldStatsQuery_scans db now date
  generalize fieldStatsQuery db now date = rows at hs
  induction rows with
  | nil => rfl
  | cons r rest ih =>
    have hr := hs r (List.mem_cons_self r rest)
    have hrest := ih (fun x hx => hs x (List.mem_cons_of_mem r hx))
    obtain ⟨r1, r2⟩ := r
    cases r1 with
    | none => simp [scanFieldStats] at hr
    | some id => simp [List.filterMap_cons, scanFieldStats, hrest]

/-! ### Dependence on the clock -/

theorem hoursOf_of_closed (n1 n2 : Timestamp) (o : Operation) (h : o.EndTime ≠ Option.none) :
    hoursOf n1 o = hoursOf n2 o := by
  cases he : o.EndTime with
  | none => exact absurd he h
  | some en => simp [hoursOf, he]

/-- When every operation of the day has an end time, a statistics statement returns the
same rows whatever `NOW()` is. -/
theorem groupStats_of_closed {τ : Type} (tbl : List τ) (tid : τ → Int) (tname : τ → String)
    (ref other : Operation → Option Int) (ops : List Operation) (n1 n2 date : Timestamp)
    (h : ∀ o ∈ ops, onDate date o = true → o.EndTime ≠ Option.none) :
    groupStats tbl tid tname ref other ops n1 date =
      groupStats tbl tid tname ref other ops n2 date := by
  unfold groupStats
  apply List.map_congr_left
  intro g hg
  have hsub : ∀ p ∈ g.2, hoursOf n1 p.1 = hoursOf n2 p.1 := by
    intro p hp
    rw [((mem_sqlGroupBy _ _ g).mp hg).2] at hp
    obtain ⟨hj, hd⟩ := List.mem_filter.mp (List.mem_filter.mp hp).1
    exact hoursOf_of_closed n1 n2 p.1 (h p.1 ((mem_joinRows tbl tid ref ops p).mp hj).1 hd)
  rw [List.map_congr_left hsub]

/-! ### The report when statements fail -/

theorem queryRows_eq_cut {ρ α σ : Type} (fault : RowsFault) (hq : fault ≠ RowsFault.onQuery)
    (rows : List ρ) (scan : ρ → Option α) (body : σ → α → σ) (acc : σ) :
    queryRows fault rows scan body acc = scanLoop scan body (fault.cut rows) acc := by
  cases fault with
  | none => rfl
  | onQuery => exact absurd rfl hq
  | onNext i => rfl

theorem RowsFault.cut_sublist {α : Type} (fault : RowsFault) (rows : List α) :
    (fault.cut rows).Sublist rows := by
  cases fault with
  | none => exact List.Sublist.refl rows
  | onQuery => exact List.Sublist.refl rows
  | onNext i => exact List.take_sublist i rows

/-- When no statement is rejected, `GetDailyReport` returns a report even if fetching rows
is interrupted: the report holds what the rows that arrived give. -/
theorem GetDailyReport_of_delivered (db : DB) (clk : Clock) (date : Timestamp)
    (f3 f4 f5 : RowsFault) (h3 : f3 ≠ RowsFault.onQuery) (h4 : f4 ≠ RowsFault.onQuery)
    (h5 : f5 ≠ RowsFault.onQuery) :
    GetDailyReport db clk ⟨false, false, f3, f4, f5⟩ date = Except.ok
      { Date := date
        TotalWorkers := totalWorkersQuery db date
        TotalOperations := (opStatsQuery db date).1
        CompletedOps := (opStatsQuery db date).2.1
        InProgressOps := (opStatsQuery db date).2.2
        OperationsByType := f3.cut (byTypeQuery db date)
        WorkerStats := (f4.cut (workerStatsQuery db clk.workerStats date)).filterMap
          scanWorkerStats
        FieldStats := (f5.cut (fieldStatsQuery db clk.fieldStats date)).filterMap
          scanFieldStats } := by
  have hmap : ∀ (rows : List (String × Int)) (rep : DailyReport),
      rows.foldl (fun (rep : DailyReport) (row : String × Int) =>
        { rep with OperationsByType := rep.OperationsByType.set row.1 row.2 }) rep
      = { rep with OperationsByType :=
            rows.foldl (fun acc row => GoMap.set acc row.1 row.2) rep.OperationsByType } := by
    intro rows
    induction rows with
    | nil => intro rep; rfl
    | cons r rest ih => intro rep; simp [ih]
  have hws : ∀ (rows : List WorkerDailyStats) (rep : DailyReport),
      rows.foldl (fun (rep : DailyReport) ws =>
        { rep with WorkerStats := rep.WorkerStats ++ [ws] }) rep
      = { rep with WorkerStats := rep.WorkerStats ++ rows } := by
    intro rows
    induction rows with
    | nil => intro rep; simp
    | cons r rest ih => intro rep; simp [ih]
  have hfs : ∀ (rows : List FieldDailyStats) (rep : DailyReport),
      rows.foldl (fun (rep : DailyReport) fs =>
        { rep with FieldStats := rep.FieldStats ++ [fs] }) rep
      = { rep with FieldStats := rep.FieldStats ++ rows } := by
    intro rows
    induction rows with
    | nil => intro rep; simp
    | cons r rest ih => intro rep; simp [ih]
  have hnd : (([] ++ f3.cut (byTypeQuery db date)).map Prod.fst).Nodup := by
    rw [List.nil_append]
    have hsub := (RowsFault.cut_sublist f3 (byTypeQuery db date)).map Prod.fst
    apply List.Nodup.sublist hsub
    rw [byTypeQuery_keys]
    exact List.nodup_dedup _
  have hset := GoMap.foldl_set (f3.cut (byTypeQuery db date)) [] hnd
  have hsw : ∀ r ∈ f4.cut (workerStatsQuery db clk.workerStats date),
      (scanWorkerStats r).isSome = true := fun r hr =>
    workerStatsQuery_scans db clk.workerStats date r
      ((RowsFault.cut_sublist f4 _).subset hr)
  have hsf : ∀ r ∈ f5.cut (fieldStatsQuery db clk.fieldStats date),
      (scanFieldStats r).isSome = true := fun r hr =>
    fieldStatsQuery_scans db clk.fieldStats date r
      ((RowsFault.cut_sublist f5 _).subset hr)
  simp only [GetDailyReport, queryRow, bind, Except.bind, pure,
    Except.pure, Bool.false_eq_true, if_false]
  simp only [queryRows_eq_cut f3 h3, queryRows_eq_cut f4 h4, queryRows_eq_cut f5 h5]
  rw [scanLoop_of_isSome some _ _ _ (by simp)]
  simp only [List.filterMap_some, hmap, hset, List.nil_append]
  rw [scanLoop_of_isSome _ _ _ _ hsw]
  simp only [hws, List.nil_append]
  rw [scanLoop_of_isSome _ _ _ _ hsf]
  simp only [hfs, List.nil_append]

/-- A statement that is rejected, by `QueryRow(..).Scan` or by `Query`, makes
`GetDailyReport` return an error. -/
theorem GetDailyReport_error_of_rejected (db : DB) (clk : Clock) (flt : Faults)
    (date : Timestamp)
    (h : flt.totalWorkers = true ∨ flt.opStats = true ∨ flt.byType = RowsFault.onQuery ∨
      flt.workerStats = RowsFault.onQuery ∨ flt.fieldStats = RowsFault.onQuery) :
    ∃ e, GetDailyReport db clk flt date = Except.error e := by
  obtain ⟨f1, f2, f3, f4, f5⟩ := flt
  simp only at h
  simp only [GetDailyReport, bind, Except.bind, pure, Except.pure]
  cases f1 with
  | true => exact ⟨_, rfl⟩
  | false =>
    cases f2 with
    | true => exact ⟨_, rfl⟩
    | false =>
      simp only [queryRow, Bool.false_eq_true, if_false]
      split
      · exact ⟨_, rfl⟩
      · rename_i rep3 h3
        split
        · exact ⟨_, rfl⟩
        · rename_i rep4 h4
          split
          · exact ⟨_, rfl⟩
          · rename_i rep5 h5
            rcases h with h | h | h | h | h
            · cases h
            · cases h
            · rw [h] at h3
              cases h3
            · rw [h] at h4
              cases h4
            · rw [h] at h5
              cases h5

/-! ### The date parameter of the report handlers -/

theorem timestampOf_midnight_day (y m d : Int) :
    timestampOf y m d 0 0 / 86400000000 = daysFromCivil y m d := by
  unfold timestampOf
  simp

/-- What `parseDate` accepts: ten characters `YYYY-MM-DD` of digits and dashes, a month
within 1..12 and a day within the month; the result is midnight of the day written. -/
theorem parseDate_eq_some (s : String) (t : Timestamp) (h : parseDate s = some t) :
    ∃ (y1 y2 y3 y4 m1 m2 d1 d2 : Char) (y m d : Nat),
      s.data = [y1, y2, y3, y4, '-', m1, m2, '-', d1, d2] ∧
      digitsValue [y1, y2, y3, y4] = some y ∧ digitsValue [m1, m2] = some m ∧
      digitsValue [d1, d2] = some d ∧
      1 ≤ (m : Int) ∧ (m : Int) ≤ 12 ∧ 1 ≤ (d : Int) ∧ (d : Int) ≤ daysIn m y ∧
      t = timestampOf y m d 0 0 ∧ t / 86400000000 = daysFromCivil y m d := by
  unfold parseDate at h
  split at h
  · rename_i y1 y2 y3 y4 m1 m2 d1 d2 hs
    split at h
    · rename_i y m d hy hm hd
      split at h
      · cases h
      · rename_i hmr
        split at h
        · cases h
        · rename_i hdr
          simp only [Option.some.injEq] at h
          refine ⟨y1, y2, y3, y4, m1, m2, d1, d2, y, m, d, hs, hy, hm, hd, ?_, ?_, ?_, ?_,
            h.symm, ?_⟩
          · omega
          · omega
          · omega
          · omega
          · rw [← h]
            exact timestampOf_midnight_day y m d
    · cases h
  · cases h

/-! ### Store functions and an id that matches no row -/

theorem queryRowByID_of_missing {ρ α : Type} (rows : List ρ) (rid : ρ → Int)
    (scan : ρ → Option α) (id : Int) (h : ∀ r ∈ rows, rid r ≠ id) :
    queryRowByID false rows rid scan id = Except.error SqlError.ErrNoRows := by
  have hfind : (rows.find? fun r => decide (rid r = id)) = Option.none := by
    rw [List.find?_eq_none]
    intro r hr
    simpa using h r hr
  simp [queryRowByID, hfind]

theorem any_id_eq_false {ρ : Type} (rows : List ρ) (rid : ρ → Int) (id : Int)
    (h : ∀ r ∈ rows, rid r ≠ id) : (rows.any fun r => decide (rid r = id)) = false := by
  rw [List.any_eq_false]
  intro r hr
  simpa using h r hr

theorem updateWhereID_of_missing {ρ : Type} (rows : List ρ) (rid : ρ → Int) (id : Int)
    (set : ρ → ρ) (h : ∀ r ∈ rows, rid r ≠ id) : updateWhereID rows rid id set = rows := by
  unfold updateWhereID
  conv_rhs => rw [← List.map_id rows]
  apply List.map_congr_left
  intro r hr
  simp [h r hr]

theorem filter_id_ne_of_missing {ρ : Type} (rows : List ρ) (rid : ρ → Int) (id : Int)
    (h : ∀ r ∈ rows, rid r ≠ id) : (rows.filter fun r => decide (rid r ≠ id)) = rows := by
  rw [List.filter_eq_self]
  intro r hr
  simpa using h r hr

/-! ### Status changes -/

theorem updateWhereID_map {ρ β : Type} (rows : List ρ) (rid : ρ → Int) (id : Int)
    (set : ρ → ρ) (col : ρ → β) (new : ρ → β) (hset : ∀ r, col (set r) = new r) :
    (updateWhereID rows rid id set).map col =
      rows.map fun r => if rid r = id then new r else col r := by
  unfold updateWhereID
  rw [List.map_map]
  apply List.map_congr_left
  intro r _
  by_cases h : rid r = id
  · simp [h, hset]
  · simp [h]

/-! ### Operations that do not pass the date filter -/

theorem onDate_of_no_start (date : Timestamp) (x : Operation)
    (h : x.StartTime = Option.none) : onDate date x = false := by
  simp [onDate, sqlDATE, h]

theorem filter_onDate_insert (date : Timestamp) (pre post : List Operation) (x : Operation)
    (h : onDate date x = false) :
    (pre ++ x :: post).filter (onDate date) = (pre ++ post).filter (onDate date) := by
  simp [List.filter_append, List.filter_cons, h]

theorem joinRows_filter_insert {τ : Type} (tbl : List τ) (tid : τ → Int)
    (ref : Operation → Option Int) (date : Timestamp) (pre post : List Operation)
    (x : Operation) (h : onDate date x = false) :
    (((pre ++ x :: post).flatMap fun o =>
        tbl.filterMap fun w => if ref o = some (tid w) then some (o, w) else Option.none).filter
          fun p => onDate date p.1) =
      (((pre ++ post).flatMap fun o =>
        tbl.filterMap fun w => if ref o = some (tid w) then some (o, w) else Option.none).filter
          fun p => onDate date p.1) := by
  have hx : ((tbl.filterMap fun w =>
      if ref x = some (tid w) then some (x, w) else Option.none).filter
        fun p => onDate date p.1) = [] := by
    rw [List.filter_eq_nil_iff]
    intro p hp
    obtain ⟨w, _, hw⟩ := List.mem_filterMap.mp hp
    split at hw
    · cases hw
      simp [h]
    · cases hw
  rw [List.flatMap_append, List.flatMap_append, List.flatMap_cons, List.filter_append,
    List.filter_append, List.filter_append, hx, List.nil_append]

/-- A statistics statement does not see an operation that fails the date filter. -/
theorem groupStats_insert {τ : Type} (tbl : List τ) (tid : τ → Int) (tname : τ → String)
    (ref other : Operation → Option Int) (now date : Timestamp) (pre post : List Operation)
    (x : Operation) (h : onDate date x = false) :
    groupStats tbl tid tname ref other (pre ++ x :: post) now date =
      groupStats tbl tid tname ref other (pre ++ post) now date := by
  unfold groupStats
  rw [joinRows_filter_insert tbl tid ref date pre post x h]

/-- The report does not see an operation that fails the date filter, whatever fails in the
store. -/
theorem GetDailyReport_insert (workers : List Worker) (fields : List Field)
    (pre post : List Operation) (x : Operation) (clk : Clock) (flt : Faults)
    (date : Timestamp) (h : onDate date x = false) :
    GetDailyReport ⟨workers, fields, pre ++ x :: post⟩ clk flt date =
      GetDailyReport ⟨workers, fields, pre ++ post⟩ clk flt date := by
  have h1 : totalWorkersQuery ⟨workers, fields, pre ++ x :: post⟩ date =
      totalWorkersQuery ⟨workers, fields, pre ++ post⟩ date := by
    unfold totalWorkersQuery
    rw [filter_onDate_insert date pre post x h]
  have h2 : opStatsQuery ⟨workers, fields, pre ++ x :: post⟩ date =
      opStatsQuery ⟨workers, fields, pre ++ post⟩ date := by
    unfold opStatsQuery
    simp only [filter_onDate_insert date pre post x h]
  have h3 : byTypeQuery ⟨workers, fields, pre ++ x :: post⟩ date =
      byTypeQuery ⟨workers, fields, pre ++ post⟩ date := by
    unfold byTypeQuery
    rw [filter_onDate_insert date pre post x h]
  have h4 : workerStatsQuery ⟨workers, fields, pre ++ x :: post⟩ clk.workerStats date =
      workerStatsQuery ⟨workers, fields, pre ++ post⟩ clk.workerStats date := by
    rw [workerStatsQuery_eq_groupStats, workerStatsQuery_eq_groupStats]
    exact groupStats_insert workers Worker.ID Worker.Name _ _ _ date pre post x h
  have h5 : fieldStatsQuery ⟨workers, fields, pre ++ x :: post⟩ clk.fieldStats date =
      fieldStatsQuery ⟨workers, fields, pre ++ post⟩ clk.fieldStats date := by
    rw [fieldStatsQuery_eq_groupStats, fieldStatsQuery_eq_groupStats]
    exact groupStats_insert fields Field.ID Field.Name _ _ _ date pre post x h
  unfold GetDailyReport
  rw [h1, h2, h3, h4, h5]

/-! ### Completing an operation -/

/-- The hours of the `worker_stats` entry of worker row `w` grow between two instants when
an operation of the day that refers to `w` has no end time. -/
theorem workerStatsOf_hours_grow (db : DB) (n1 n2 date : Timestamp) (o : Operation)
    (w : Worker) (hpk : (db.workers.map Worker.ID).Nodup) (hw : w ∈ db.workers)
    (ho : o ∈ db.operations) (hday : StartsOn (date / 86400000000) o)
    (href : o.WorkerID = some w.ID) (hopen : o.EndTime = Option.none) (hlt : n1 < n2) :
    ∃ e1 e2,
      (workerStatsOf db n1 date).filter (fun x => decide (x.WorkerID = w.ID)) = [e1] ∧
      (workerStatsOf db n2 date).filter (fun x => decide (x.WorkerID = w.ID)) = [e2] ∧
      e2.HoursWorked - e1.HoursWorked =
        (((workerOpsOn db (date / 86400000000) w.ID).countP
          fun x => decide (x.EndTime = Option.none) : Nat) : ℚ) *
        (((n2 : ℚ) - (n1 : ℚ)) / 1000000 / 3600) ∧
      e1.HoursWorked < e2.HoursWorked := by
  have hex : ∃ x ∈ db.operations, StartsOn (date / 86400000000) x ∧
      x.WorkerID = some w.ID := ⟨o, ho, hday, href⟩
  have hmem : o ∈ workerOpsOn db (date / 86400000000) w.ID :=
    List.mem_filter.mpr ⟨ho, by simp [hday, href]⟩
  have hgrow := elapsedHours_growth n1 n2 _ (workerOpsOn_start db (date / 86400000000) w.ID)
  have hc : 0 < (workerOpsOn db (date / 86400000000) w.ID).countP
      fun x => decide (x.EndTime = Option.none) :=
    List.countP_pos_iff.mpr ⟨o, hmem, by simp [hopen]⟩
  have hc2 : (0 : ℚ) < (((workerOpsOn db (date / 86400000000) w.ID).countP
      fun x => decide (x.EndTime = Option.none) : Nat) : ℚ) := by exact_mod_cast hc
  have hlt2 : (n1 : ℚ) < (n2 : ℚ) := by exact_mod_cast hlt
  have hd : (0 : ℚ) < ((n2 : ℚ) - (n1 : ℚ)) / 1000000 / 3600 := by
    apply div_pos
    · apply div_pos
      · linarith
      · norm_num
    · norm_num
  have hpos := mul_pos hc2 hd
  refine ⟨_, _, workerStatsOf_filter db n1 date hpk w hw hex,
    workerStatsOf_filter db n2 date hpk w hw hex, hgrow, ?_⟩
  rw [← hgrow] at hpos
  linarith

/-! ## Properties of the daily report, the store and the handlers -/

/-- C1: when no operation of the table has a start time on the calendar day of `date`,
`GetDailyReport` succeeds, and its report has the four counts equal to zero, an empty
`operations_by_type` map and empty `worker_stats` and `field_stats` lists. -/
theorem C1_report_of_day_without_operations (db : DB) (clk : Clock) (date : Timestamp)
    (h : ∀ o ∈ db.operations, ¬ StartsOn (date / 86400000000) o) :
    GetDailyReport db clk Faults.none date = Except.ok
      { Date := date, TotalWorkers := 0, TotalOperations := 0, CompletedOps := 0,
        InProgressOps := 0, OperationsByType := [], WorkerStats := [], FieldStats := [] } := by
  have hm : db.operations.filter (onDate date) = [] := matching_eq_nil db date h
  have hw : (joinWorkers db).filter (fun p => onDate date p.1) = [] := by
    rw [List.filter_eq_nil_iff]
    intro p hp hd
    exact h p.1 ((mem_joinWorkers db p).mp hp).1 ((onDate_iff date p.1).mp hd)
  have hf : (joinFields db).filter (fun p => onDate date p.1) = [] := by
    rw [List.filter_eq_nil_iff]
    intro p hp hd
    exact h p.1 ((mem_joinFields db p).mp hp).1 ((onDate_iff date p.1).mp hd)
  rw [GetDailyReport_noFaults]
  simp [totalWorkersQuery, opStatsQuery, byTypeQuery, workerStatsOf, fieldStatsOf,
    workerStatsQuery, fieldStatsQuery, sqlGroupBy, countDistinct, countStatus, hm, hw, hf]

/-- Witness of C1: the sample tables hold no operation of 2024-05-03. -/
theorem C1_report_of_day_without_operations_witness :
    GetDailyReport sampleDB sampleClock Faults.none (timestampOf 2024 5 3 0 0) = Except.ok
      { Date := timestampOf 2024 5 3 0 0, TotalWorkers := 0, TotalOperations := 0,
        CompletedOps := 0, InProgressOps := 0, OperationsByType := [], WorkerStats := [],
        FieldStats := [] } :=
  C1_report_of_day_without_operations sampleDB sampleClock (timestampOf 2024 5 3 0 0)
    (by decide)

/-- C2: in the report of any table and date, `operations_by_type` holds each type once and
its counts add up to `total_operations`. -/
theorem C2_by_type_counts_sum_to_total (db : DB) (clk : Clock) (date : Timestamp) :
    ∃ r, GetDailyReport db clk Faults.none date = Except.ok r ∧
      (r.OperationsByType.map Prod.fst).Nodup ∧
      (r.OperationsByType.map Prod.snd).sum = r.TotalOperations := by
  refine ⟨_, GetDailyReport_noFaults db clk date, ?_, ?_⟩
  · show ((byTypeQuery db date).map Prod.fst).Nodup
    rw [byTypeQuery_keys]
    exact List.nodup_dedup _
  · show ((byTypeQuery db date).map Prod.snd).sum = (opStatsQuery db date).1
    rw [byTypeQuery_sum]
    rfl

/-- C3: in the report of any table and date, the completed and the in-progress operations
together are at most the total, and what is left is the number of operations starting on
that day whose status is neither `completed` nor `in_progress`. -/
theorem C3_completed_and_in_progress_within_total (db : DB) (clk : Clock) (date : Timestamp) :
    ∃ r, GetDailyReport db clk Faults.none date = Except.ok r ∧
      r.CompletedOps + r.InProgressOps ≤ r.TotalOperations ∧
      r.TotalOperations - (r.CompletedOps + r.InProgressOps) =
        ((db.operations.countP fun o => decide (StartsOn (date / 86400000000) o ∧
          o.Status ≠ some "completed" ∧ o.Status ≠ some "in_progress") : Nat) : Int) := by
  have key : ∀ ops : List Operation,
      (ops.length : Int) = countStatus "completed" ops + countStatus "in_progress" ops +
        ((ops.countP fun o => decide (o.Status ≠ some "completed" ∧
          o.Status ≠ some "in_progress") : Nat) : Int) := by
    intro ops
    have h3 := length_eq_countP_three (fun o : Operation => decide (o.Status = some "completed"))
      (fun o : Operation => decide (o.Status = some "in_progress")) ops
      (by
        intro o ho
        simp only [decide_eq_true_eq] at ho
        have : some "completed" = some "in_progress" := ho.1.symm.trans ho.2
        exact absurd this (by decide))
    have hc : ops.countP (fun o => decide (o.Status ≠ some "completed" ∧
          o.Status ≠ some "in_progress")) =
        ops.countP (fun o => !decide (o.Status = some "completed") &&
          !decide (o.Status = some "in_progress")) := by
      apply List.countP_congr
      intro o _
      simp
    simp only [countStatus]
    rw [hc]
    beta_reduce at h3
    omega
  have hcount : (matching db date).countP (fun o => decide (o.Status ≠ some "completed" ∧
        o.Status ≠ some "in_progress")) =
      db.operations.countP fun o => decide (StartsOn (date / 86400000000) o ∧
        o.Status ≠ some "completed" ∧ o.Status ≠ some "in_progress") := by
    rw [matching_eq, List.countP_filter]
    apply List.countP_congr
    intro o _
    simp only [Bool.and_eq_true, decide_eq_true_eq]
    tauto
  have hk := key (matching db date)
  rw [hcount] at hk
  refine ⟨_, GetDailyReport_noFaults db clk date, ?_, ?_⟩
  · show countStatus "completed" (matching db date) +
      countStatus "in_progress" (matching db date) ≤ ((matching db date).length : Int)
    omega
  · show ((matching db date).length : Int) - (countStatus "completed" (matching db date) +
      countStatus "in_progress" (matching db date)) = _
    omega

/-- C4: with worker ids a primary key, a worker row `w` to which an operation of the day
refers and whose operations of the day all have an end time has one `worker_stats` entry,
whose `hours_worked` is the sum over those operations of end minus start in hours
(seconds / 3600); the value is the same whatever the instants of the clock, and for a
single operation from `T0` to `T1` it is `T1 - T0` in hours. -/
theorem C4_hours_of_closed_operations (db : DB) (clk : Clock) (date : Timestamp) (w : Worker)
    (hpk : (db.workers.map Worker.ID).Nodup) (hw : w ∈ db.workers)
    (hex : ∃ o ∈ db.operations, StartsOn (date / 86400000000) o ∧ o.WorkerID = some w.ID)
    (hclosed : ∀ o ∈ db.operations, StartsOn (date / 86400000000) o →
      o.WorkerID = some w.ID → o.EndTime ≠ Option.none) :
    ∃ r e, GetDailyReport db clk Faults.none date = Except.ok r ∧
      r.WorkerStats.filter (fun x => decide (x.WorkerID = w.ID)) = [e] ∧
      e.HoursWorked = ((workerOpsOn db (date / 86400000000) w.ID).map closedHours).sum ∧
      (∀ o T0 T1, workerOpsOn db (date / 86400000000) w.ID = [o] → o.StartTime = some T0 →
        o.EndTime = some T1 → e.HoursWorked = ((T1 : ℚ) - (T0 : ℚ)) / 1000000 / 3600) ∧
      ∀ clk2 : Clock, ∃ r2 e2, GetDailyReport db clk2 Faults.none date = Except.ok r2 ∧
        r2.WorkerStats.filter (fun x => decide (x.WorkerID = w.ID)) = [e2] ∧
        e2.HoursWorked = e.HoursWorked := by
  have hcl : ∀ o ∈ workerOpsOn db (date / 86400000000) w.ID, o.EndTime ≠ Option.none := by
    intro o ho
    obtain ⟨hmem, hp⟩ := List.mem_filter.mp ho
    simp only [decide_eq_true_eq] at hp
    exact hclosed o hmem hp.1 hp.2
  have hsum : ∀ now : Timestamp,
      ((workerOpsOn db (date / 86400000000) w.ID).map (elapsedHours now)).sum =
        ((workerOpsOn db (date / 86400000000) w.ID).map closedHours).sum :=
    fun now => elapsedHours_of_closed now _ hcl
  refine ⟨_, _, GetDailyReport_noFaults db clk date,
    workerStatsOf_filter db clk.workerStats date hpk w hw hex, hsum clk.workerStats, ?_, ?_⟩
  · intro o T0 T1 hone hs he
    show ((workerOpsOn db (date / 86400000000) w.ID).map (elapsedHours clk.workerStats)).sum = _
    rw [hone]
    simp [elapsedHours, hs, he]
  · intro clk2
    refine ⟨_, _, GetDailyReport_noFaults db clk2 date,
      workerStatsOf_filter db clk2.workerStats date hpk w hw hex, ?_⟩
    show ((workerOpsOn db (date / 86400000000) w.ID).map (elapsedHours clk2.workerStats)).sum
      = ((workerOpsOn db (date / 86400000000) w.ID).map (elapsedHours clk.workerStats)).sum
    rw [hsum, hsum]

/-- Witness of C4: worker 1 of `closedDB` on 2024-05-01. -/
theorem C4_hours_of_closed_operations_witness :
    ∃ r e, GetDailyReport closedDB sampleClock Faults.none sampleDate = Except.ok r ∧
      r.WorkerStats.filter (fun x => decide (x.WorkerID = sampleWorker.ID)) = [e] ∧
      e.HoursWorked =
        ((workerOpsOn closedDB (sampleDate / 86400000000) sampleWorker.ID).map
          closedHours).sum ∧
      (∀ o T0 T1, workerOpsOn closedDB (sampleDate / 86400000000) sampleWorker.ID = [o] →
        o.StartTime = some T0 → o.EndTime = some T1 →
        e.HoursWorked = ((T1 : ℚ) - (T0 : ℚ)) / 1000000 / 3600) ∧
      ∀ clk2 : Clock, ∃ r2 e2, GetDailyReport closedDB clk2 Faults.none sampleDate
          = Except.ok r2 ∧
        r2.WorkerStats.filter (fun x => decide (x.WorkerID = sampleWorker.ID)) = [e2] ∧
        e2.HoursWorked = e.HoursWorked :=
  C4_hours_of_closed_operations closedDB sampleClock sampleDate sampleWorker
    (by decide) (by decide) (by decide) (by decide)

/-- C5: with worker and field ids primary keys, let `o` be an operation of the day without
an end time and let the report be computed at two clocks, the second later than the first.
For the worker row `o` refers to, the one `worker_stats` entry of that worker grows by the
elapsed hours once for each of the worker's operations of the day without an end time, and
so is strictly greater in the second report; likewise the `field_stats` entry of the
field row `o` refers to. -/
theorem C5_hours_of_open_operations_grow (db : DB) (clk1 clk2 : Clock) (date : Timestamp)
    (o : Operation)
    (hpkW : (db.workers.map Worker.ID).Nodup) (hpkF : (db.fields.map Field.ID).Nodup)
    (ho : o ∈ db.operations) (hday : StartsOn (date / 86400000000) o)
    (hopen : o.EndTime = Option.none)
    (hW : clk1.workerStats < clk2.workerStats) (hF : clk1.fieldStats < clk2.fieldStats) :
    ∃ r1 r2, GetDailyReport db clk1 Faults.none date = Except.ok r1 ∧
      GetDailyReport db clk2 Faults.none date = Except.ok r2 ∧
      (∀ w ∈ db.workers, o.WorkerID = some w.ID → ∃ e1 e2,
        r1.WorkerStats.filter (fun x => decide (x.WorkerID = w.ID)) = [e1] ∧
        r2.WorkerStats.filter (fun x => decide (x.WorkerID = w.ID)) = [e2] ∧
        e2.HoursWorked - e1.HoursWorked =
          (((workerOpsOn db (date / 86400000000) w.ID).countP
            fun x => decide (x.EndTime = Option.none) : Nat) : ℚ) *
          (((clk2.workerStats : ℚ) - (clk1.workerStats : ℚ)) / 1000000 / 3600) ∧
        e1.HoursWorked < e2.HoursWorked) ∧
      (∀ f ∈ db.fields, o.FieldID = some f.ID → ∃ e1 e2,
        r1.FieldStats.filter (fun x => decide (x.FieldID = f.ID)) = [e1] ∧
        r2.FieldStats.filter (fun x => decide (x.FieldID = f.ID)) = [e2] ∧
        e2.HoursWorked - e1.HoursWorked =
          (((fieldOpsOn db (date / 86400000000) f.ID).countP
            fun x => decide (x.EndTime = Option.none) : Nat) : ℚ) *
          (((clk2.fieldStats : ℚ) - (clk1.fieldStats : ℚ)) / 1000000 / 3600) ∧
        e1.HoursWorked < e2.HoursWorked) := by
  have hpos : ∀ (l : List Operation) (n1 n2 : Timestamp), o ∈ l → n1 < n2 →
      0 < ((l.countP fun x => decide (x.EndTime = Option.none) : Nat) : ℚ) *
        (((n2 : ℚ) - (n1 : ℚ)) / 1000000 / 3600) := by
    intro l n1 n2 hmem hlt
    have hc : 0 < l.countP fun x => decide (x.EndTime = Option.none) :=
      List.countP_pos_iff.mpr ⟨o, hmem, by simp [hopen]⟩
    have hc2 : (0 : ℚ) < ((l.countP fun x => decide (x.EndTime = Option.none) : Nat) : ℚ) := by
      exact_mod_cast hc
    have hlt2 : (n1 : ℚ) < (n2 : ℚ) := by exact_mod_cast hlt
    have hd : (0 : ℚ) < ((n2 : ℚ) - (n1 : ℚ)) / 1000000 / 3600 := by
      apply div_pos
      · apply div_pos
        · linarith
        · norm_num
      · norm_num
    exact mul_pos hc2 hd
  refine ⟨_, _, GetDailyReport_noFaults db clk1 date, GetDailyReport_noFaults db clk2 date,
    ?_, ?_⟩
  · intro w hw href
    have hex : ∃ x ∈ db.operations, StartsOn (date / 86400000000) x ∧
        x.WorkerID = some w.ID := ⟨o, ho, hday, href⟩
    have hmem : o ∈ workerOpsOn db (date / 86400000000) w.ID :=
      List.mem_filter.mpr ⟨ho, by simp [hday, href]⟩
    have hgrow := elapsedHours_growth clk1.workerStats clk2.workerStats _
      (workerOpsOn_start db (date / 86400000000) w.ID)
    refine ⟨_, _, workerStatsOf_filter db clk1.workerStats date hpkW w hw hex,
      workerStatsOf_filter db clk2.workerStats date hpkW w hw hex, hgrow, ?_⟩
    have := hpos _ clk1.workerStats clk2.workerStats hmem hW
    rw [← hgrow] at this
    linarith
  · intro f hf href
    have hex : ∃ x ∈ db.operations, StartsOn (date / 86400000000) x ∧
        x.FieldID = some f.ID := ⟨o, ho, hday, href⟩
    have hmem : o ∈ fieldOpsOn db (date / 86400000000) f.ID :=
      List.mem_filter.mpr ⟨ho, by simp [hday, href]⟩
    have hgrow := elapsedHours_growth clk1.fieldStats clk2.fieldStats _
      (fieldOpsOn_start db (date / 86400000000) f.ID)
    refine ⟨_, _, fieldStatsOf_filter db clk1.fieldStats date hpkF f hf hex,
      fieldStatsOf_filter db clk2.fieldStats date hpkF f hf hex, hgrow, ?_⟩
    have := hpos _ clk1.fieldStats clk2.fieldStats hmem hF
    rw [← hgrow] at this
    linarith

/-- Witness of C5: the open plowing of the sample tables, reported at 12:00 and at 13:00. -/
theorem C5_hours_of_open_operations_grow_witness :
    ∃ r1 r2, GetDailyReport sampleDB sampleClock Faults.none sampleDate = Except.ok r1 ∧
      GetDailyReport sampleDB laterClock Faults.none sampleDate = Except.ok r2 ∧
      (∀ w ∈ sampleDB.workers, samplePlowing.WorkerID = some w.ID → ∃ e1 e2,
        r1.WorkerStats.filter (fun x => decide (x.WorkerID = w.ID)) = [e1] ∧
        r2.WorkerStats.filter (fun x => decide (x.WorkerID = w.ID)) = [e2] ∧
        e2.HoursWorked - e1.HoursWorked =
          (((workerOpsOn sampleDB (sampleDate / 86400000000) w.ID).countP
            fun x => decide (x.EndTime = Option.none) : Nat) : ℚ) *
          (((laterClock.workerStats : ℚ) - (sampleClock.workerStats : ℚ)) / 1000000 / 3600) ∧
        e1.HoursWorked < e2.HoursWorked) ∧
      (∀ f ∈ sampleDB.fields, samplePlowing.FieldID = some f.ID → ∃ e1 e2,
        r1.FieldStats.filter (fun x => decide (x.FieldID = f.ID)) = [e1] ∧
        r2.FieldStats.filter (fun x => decide (x.FieldID = f.ID)) = [e2] ∧
        e2.HoursWorked - e1.HoursWorked =
          (((fieldOpsOn sampleDB (sampleDate / 86400000000) f.ID).countP
            fun x => decide (x.EndTime = Option.none) : Nat) : ℚ) *
          (((laterClock.fieldStats : ℚ) - (sampleClock.fieldStats : ℚ)) / 1000000 / 3600) ∧
        e1.HoursWorked < e2.HoursWorked) :=
  C5_hours_of_open_operations_grow sampleDB sampleClock laterClock sampleDate samplePlowing
    (by decide) (by decide) (by decide) (by decide) rfl (by decide) (by decide)

/-- C6: when the operations table holds one operation, of worker 1 on field 2, from
2024-05-01 08:00 to 2024-05-01 10:00, worker ids are a primary key and `w` is the row of
worker 1, the report of any instant of 2024-05-01 has
`worker_stats = [{worker_id: 1, worker_name: w.Name, operations: 1, hours_worked: 2,
fields_worked: 1}]`, whatever the clock (and whatever the type and status of the
operation and the rows of the fields table). -/
theorem C6_seeding_example (db : DB) (clk : Clock) (date : Timestamp) (o : Operation)
    (w : Worker) (hops : db.operations = [o])
    (hW : o.WorkerID = some 1) (hFd : o.FieldID = some 2)
    (hS : o.StartTime = some (timestampOf 2024 5 1 8 0))
    (hE : o.EndTime = some (timestampOf 2024 5 1 10 0))
    (hpk : (db.workers.map Worker.ID).Nodup) (hw : w ∈ db.workers) (hid : w.ID = 1)
    (hdate : date / 86400000000 = daysFromCivil 2024 5 1) :
    ∃ r, GetDailyReport db clk Faults.none date = Except.ok r ∧
      r.WorkerStats = [{ WorkerID := 1, WorkerName := w.Name, Operations := 1,
                         HoursWorked := 2, FieldsWorked := 1 }] := by
  have hstart : timestampOf 2024 5 1 8 0 = 1714550400000000 := by decide
  have hend : timestampOf 2024 5 1 10 0 = 1714557600000000 := by decide
  have hday : daysFromCivil 2024 5 1 = 19844 := by decide
  have hon : StartsOn (date / 86400000000) o := by
    refine ⟨_, hS, ?_⟩
    rw [hdate, hstart, hday]
    decide
  have hex : ∃ x ∈ db.operations, StartsOn (date / 86400000000) x ∧
      x.WorkerID = some w.ID := ⟨o, by simp [hops], hon, by rw [hid]; exact hW⟩
  have hfil := workerStatsOf_filter db clk.workerStats date hpk w hw hex
  have hall : (workerStatsOf db clk.workerStats date).filter
      (fun e => decide (e.WorkerID = w.ID)) = workerStatsOf db clk.workerStats date := by
    rw [List.filter_eq_self]
    intro e he
    obtain ⟨w2, _, h1, _, o2, ho2, _, href⟩ := workerStatsOf_origin db _ date e he
    rw [hops, List.mem_singleton] at ho2
    rw [ho2, hW] at href
    simp only [decide_eq_true_eq]
    rw [h1, hid]
    exact (Option.some.inj href).symm
  have hone : workerOpsOn db (date / 86400000000) w.ID = [o] := by
    unfold workerOpsOn
    rw [hops]
    simp [List.filter_cons, hon, hid, hW]
  refine ⟨_, GetDailyReport_noFaults db clk date, ?_⟩
  show workerStatsOf db clk.workerStats date = _
  rw [← hall, hfil, hone]
  have hh : elapsedHours clk.workerStats o = 2 := by
    simp only [elapsedHours, hS, hE, hstart, hend]
    norm_num
  simp [hid, hFd, hh]

/-- Witness of C6: the seeding of the sample worker, reported for 2024-05-01. -/
theorem C6_seeding_example_witness :
    ∃ r, GetDailyReport seedingDB sampleClock Faults.none sampleDate = Except.ok r ∧
      r.WorkerStats = [{ WorkerID := 1, WorkerName := sampleWorker.Name, Operations := 1,
                         HoursWorked := 2, FieldsWorked := 1 }] :=
  C6_seeding_example seedingDB sampleClock sampleDate sampleSeeding sampleWorker
    rfl rfl rfl rfl rfl (by decide) (by decide) rfl (by decide)

/-- C7: `total_workers` is the number of distinct worker ids among the operations that start
on the calendar day of `date` (a worker with several such operations counts once), and it
is the same for every table that differs only by operations that do not start on that
day. -/
theorem C7_total_workers_is_distinct_worker_count (db : DB) (clk : Clock) (date : Timestamp) :
    ∃ r, GetDailyReport db clk Faults.none date = Except.ok r ∧
      r.TotalWorkers =
        (((((db.operations.filter fun o => decide (StartsOn (date / 86400000000) o)).filterMap
          fun o => o.WorkerID).toFinset.card : Nat)) : Int) ∧
      ∀ (extra : List Operation) (db2 : DB),
        (∀ o ∈ extra, ¬ StartsOn (date / 86400000000) o) →
        db2.operations.Perm (db.operations ++ extra) →
        ∃ r2, GetDailyReport db2 clk Faults.none date = Except.ok r2 ∧
          r2.TotalWorkers = r.TotalWorkers := by
  refine ⟨_, GetDailyReport_noFaults db clk date, ?_, ?_⟩
  · show totalWorkersQuery db date = _
    rw [totalWorkersQuery_eq_card, matching_eq]
  · intro extra db2 hextra hperm
    refine ⟨_, GetDailyReport_noFaults db2 clk date, ?_⟩
    show totalWorkersQuery db2 date = totalWorkersQuery db date
    rw [totalWorkersQuery_eq_card, totalWorkersQuery_eq_card]
    have hp := (matching_perm_of_extra db db2 date extra hextra hperm).filterMap
      fun o => o.WorkerID
    rw [List.toFinset_eq_of_perm _ _ hp]

/-- C8: `total_operations` is the number of operations that start on the calendar day of
`date`, `completed_operations` the number of those whose status is `completed`,
`in_progress_operations` the number of those whose status is `in_progress`; the three
counts are the same for every table that differs only by operations that do not start on
that day. -/
theorem C8_operation_counts (db : DB) (clk : Clock) (date : Timestamp) :
    ∃ r, GetDailyReport db clk Faults.none date = Except.ok r ∧
      r.TotalOperations =
        ((db.operations.countP fun o => decide (StartsOn (date / 86400000000) o) : Nat) : Int) ∧
      r.CompletedOps =
        ((db.operations.countP fun o => decide (StartsOn (date / 86400000000) o ∧
          o.Status = some "completed") : Nat) : Int) ∧
      r.InProgressOps =
        ((db.operations.countP fun o => decide (StartsOn (date / 86400000000) o ∧
          o.Status = some "in_progress") : Nat) : Int) ∧
      ∀ (extra : List Operation) (db2 : DB),
        (∀ o ∈ extra, ¬ StartsOn (date / 86400000000) o) →
        db2.operations.Perm (db.operations ++ extra) →
        ∃ r2, GetDailyReport db2 clk Faults.none date = Except.ok r2 ∧
          r2.TotalOperations = r.TotalOperations ∧ r2.CompletedOps = r.CompletedOps ∧
          r2.InProgressOps = r.InProgressOps := by
  refine ⟨_, GetDailyReport_noFaults db clk date, ?_, ?_, ?_, ?_⟩
  · show ((matching db date).length : Int) = _
    rw [length_matching]
  · exact countStatus_matching db date "completed"
  · exact countStatus_matching db date "in_progress"
  · intro extra db2 hextra hperm
    have hp := matching_perm_of_extra db db2 date extra hextra hperm
    refine ⟨_, GetDailyReport_noFaults db2 clk date, ?_, ?_, ?_⟩
    · show ((matching db2 date).length : Int) = ((matching db date).length : Int)
      rw [hp.length_eq]
    · show countStatus "completed" (matching db2 date) =
        countStatus "completed" (matching db date)
      unfold countStatus
      rw [hp.countP_eq]
    · show countStatus "in_progress" (matching db2 date) =
        countStatus "in_progress" (matching db date)
      unfold countStatus
      rw [hp.countP_eq]

/-- C9: for every type `t`, `operations_by_type` maps `t` to the number of operations of
type `t` that start on the calendar day of `date` when there is at least one, and has no
key `t` when there is none. -/
theorem C9_operations_by_type_entries (db : DB) (clk : Clock) (date : Timestamp) (t : String) :
    ∃ r, GetDailyReport db clk Faults.none date = Except.ok r ∧
      (0 < (db.operations.countP fun o =>
          decide (StartsOn (date / 86400000000) o ∧ o.OpType = t)) →
        r.OperationsByType.get t = some (((db.operations.countP fun o =>
          decide (StartsOn (date / 86400000000) o ∧ o.OpType = t) : Nat)) : Int)) ∧
      ((db.operations.countP fun o =>
          decide (StartsOn (date / 86400000000) o ∧ o.OpType = t)) = 0 →
        r.OperationsByType.get t = Option.none ∧ t ∉ r.OperationsByType.map Prod.fst) := by
  have hcount : ((matching db date).map fun o => o.OpType).count t =
      db.operations.countP fun o =>
        decide (StartsOn (date / 86400000000) o ∧ o.OpType = t) := by
    rw [count_map_eq_countP, matching_eq, List.countP_filter]
    apply List.countP_congr
    intro o _
    simp only [Bool.and_eq_true, decide_eq_true_eq]
    tauto
  have hnd : ((byTypeQuery db date).map Prod.fst).Nodup := by
    rw [byTypeQuery_keys]
    exact List.nodup_dedup _
  refine ⟨_, GetDailyReport_noFaults db clk date, ?_, ?_⟩
  · intro hpos
    show GoMap.get (byTypeQuery db date) t = _
    apply GoMap.get_of_mem _ hnd
    rw [byTypeQuery_eq, ← hcount]
    rw [← hcount] at hpos
    exact List.mem_map.mpr ⟨t, List.mem_dedup.mpr (List.count_pos_iff.mp hpos), rfl⟩
  · intro hzero
    rw [← hcount] at hzero
    have hnot : t ∉ (byTypeQuery db date).map Prod.fst := by
      rw [byTypeQuery_keys, List.mem_dedup]
      exact List.count_eq_zero.mp hzero
    exact ⟨GoMap.get_of_not_mem _ t hnot, hnot⟩

/-- C10: when worker ids are a primary key and every operation of the day refers to a row
of the workers table, every entry of `worker_stats` carries the id of a worker to which an
operation of the day refers, and each such worker has one entry: its id and name, the
number of its operations of the day, the summed hours from start to end (to the clock of
the statement for an operation without an end), and the number of distinct field ids
among those operations. -/
theorem C10_worker_stats_entries (db : DB) (clk : Clock) (date : Timestamp)
    (hpk : (db.workers.map Worker.ID).Nodup)
    (href : ∀ o ∈ db.operations, StartsOn (date / 86400000000) o →
      ∃ w ∈ db.workers, o.WorkerID = some w.ID) :
    ∃ r, GetDailyReport db clk Faults.none date = Except.ok r ∧
      (∀ e ∈ r.WorkerStats, ∃ o ∈ db.operations,
        StartsOn (date / 86400000000) o ∧ o.WorkerID = some e.WorkerID) ∧
      (∀ o ∈ db.operations, StartsOn (date / 86400000000) o →
        ∃ w ∈ db.workers, o.WorkerID = some w.ID ∧
          r.WorkerStats.filter (fun e => decide (e.WorkerID = w.ID)) =
            [{ WorkerID := w.ID, WorkerName := w.Name,
               Operations := (((workerOpsOn db (date / 86400000000) w.ID).length : Nat) : Int),
               HoursWorked := ((workerOpsOn db (date / 86400000000) w.ID).map
                 (elapsedHours clk.workerStats)).sum,
               FieldsWorked := ((((workerOpsOn db (date / 86400000000) w.ID).filterMap
                 fun x => x.FieldID).toFinset.card : Nat) : Int) }]) := by
  refine ⟨_, GetDailyReport_noFaults db clk date, ?_, ?_⟩
  · intro e he
    obtain ⟨w, _, h1, _, o, ho, hd, hr⟩ := workerStatsOf_origin db _ date e he
    exact ⟨o, ho, hd, by rw [h1]; exact hr⟩
  · intro o ho hd
    obtain ⟨w, hw, hr⟩ := href o ho hd
    exact ⟨w, hw, hr, workerStatsOf_filter db clk.workerStats date hpk w hw ⟨o, ho, hd, hr⟩⟩

/-- Witness of C10: the sample tables on 2024-05-01. -/
theorem C10_worker_stats_entries_witness :
    ∃ r, GetDailyReport sampleDB sampleClock Faults.none sampleDate = Except.ok r ∧
      (∀ e ∈ r.WorkerStats, ∃ o ∈ sampleDB.operations,
        StartsOn (sampleDate / 86400000000) o ∧ o.WorkerID = some e.WorkerID) ∧
      (∀ o ∈ sampleDB.operations, StartsOn (sampleDate / 86400000000) o →
        ∃ w ∈ sampleDB.workers, o.WorkerID = some w.ID ∧
          r.WorkerStats.filter (fun e => decide (e.WorkerID = w.ID)) =
            [{ WorkerID := w.ID, WorkerName := w.Name,
               Operations :=
                 (((workerOpsOn sampleDB (sampleDate / 86400000000) w.ID).length : Nat) : Int),
               HoursWorked := ((workerOpsOn sampleDB (sampleDate / 86400000000) w.ID).map
                 (elapsedHours sampleClock.workerStats)).sum,
               FieldsWorked := ((((workerOpsOn sampleDB (sampleDate / 86400000000) w.ID).filterMap
                 fun x => x.FieldID).toFinset.card : Nat) : Int) }]) :=
  C10_worker_stats_entries sampleDB sampleClock sampleDate (by decide) (by decide)

/-- C11: `field_stats` mirrors `worker_stats`. When field ids are a primary key and every
operation of the day refers to a row of the fields table, every entry of `field_stats`
carries the id of a field to which an operation of the day refers, and each such field has
one entry: its id and name, the number of its operations of the day, their summed hours,
and the number of distinct worker ids among them. Moreover `field_stats` is `worker_stats`
of the tables with the roles of workers and fields (and of `worker_id` and `field_id`)
exchanged. -/
theorem C11_field_stats_mirror_worker_stats (db : DB) (clk : Clock) (date : Timestamp)
    (hpk : (db.fields.map Field.ID).Nodup)
    (href : ∀ o ∈ db.operations, StartsOn (date / 86400000000) o →
      ∃ f ∈ db.fields, o.FieldID = some f.ID) :
    ∃ r, GetDailyReport db clk Faults.none date = Except.ok r ∧
      (∀ e ∈ r.FieldStats, ∃ o ∈ db.operations,
        StartsOn (date / 86400000000) o ∧ o.FieldID = some e.FieldID) ∧
      (∀ o ∈ db.operations, StartsOn (date / 86400000000) o →
        ∃ f ∈ db.fields, o.FieldID = some f.ID ∧
          r.FieldStats.filter (fun e => decide (e.FieldID = f.ID)) =
            [{ FieldID := f.ID, FieldName := f.Name,
               Operations := (((fieldOpsOn db (date / 86400000000) f.ID).length : Nat) : Int),
               HoursWorked := ((fieldOpsOn db (date / 86400000000) f.ID).map
                 (elapsedHours clk.fieldStats)).sum,
               WorkersCount := ((((fieldOpsOn db (date / 86400000000) f.ID).filterMap
                 fun x => x.WorkerID).toFinset.card : Nat) : Int) }]) ∧
      ∃ r2, GetDailyReport (swapRoles db) clk.swap Faults.none date = Except.ok r2 ∧
        r.FieldStats = r2.WorkerStats.map WorkerDailyStats.asFieldStats := by
  refine ⟨_, GetDailyReport_noFaults db clk date, ?_, ?_, ?_⟩
  · intro e he
    obtain ⟨f, _, h1, _, o, ho, hd, hr⟩ := fieldStatsOf_origin db _ date e he
    exact ⟨o, ho, hd, by rw [h1]; exact hr⟩
  · intro o ho hd
    obtain ⟨f, hf, hr⟩ := href o ho hd
    exact ⟨f, hf, hr, fieldStatsOf_filter db clk.fieldStats date hpk f hf ⟨o, ho, hd, hr⟩⟩
  · exact ⟨_, GetDailyReport_noFaults (swapRoles db) clk.swap date,
      fieldStatsOf_eq_swapRoles db clk.fieldStats date⟩

/-- Witness of C11: the sample tables on 2024-05-01. -/
theorem C11_field_stats_mirror_worker_stats_witness :
    ∃ r, GetDailyReport sampleDB sampleClock Faults.none sampleDate = Except.ok r ∧
      (∀ e ∈ r.FieldStats, ∃ o ∈ sampleDB.operations,
        StartsOn (sampleDate / 86400000000) o ∧ o.FieldID = some e.FieldID) ∧
      (∀ o ∈ sampleDB.operations, StartsOn (sampleDate / 86400000000) o →
        ∃ f ∈ sampleDB.fields, o.FieldID = some f.ID ∧
          r.FieldStats.filter (fun e => decide (e.FieldID = f.ID)) =
            [{ FieldID := f.ID, FieldName := f.Name,
               Operations :=
                 (((fieldOpsOn sampleDB (sampleDate / 86400000000) f.ID).length : Nat) : Int),
               HoursWorked := ((fieldOpsOn sampleDB (sampleDate / 86400000000) f.ID).map
                 (elapsedHours sampleClock.fieldStats)).sum,
               WorkersCount := ((((fieldOpsOn sampleDB (sampleDate / 86400000000) f.ID).filterMap
                 fun x => x.WorkerID).toFinset.card : Nat) : Int) }]) ∧
      ∃ r2, GetDailyReport (swapRoles sampleDB) sampleClock.swap Faults.none sampleDate
          = Except.ok r2 ∧
        r.FieldStats = r2.WorkerStats.map WorkerDailyStats.asFieldStats :=
  C11_field_stats_mirror_worker_stats sampleDB sampleClock sampleDate (by decide) (by decide)

/-- C12, failing input: on the sample tables, when fetching the rows of the `GROUP BY type`
statement is interrupted before the first row (`rows.Next()` returns false and the error
stays in `rows.Err()`, which `GetDailyReport` does not read), `GetDailyReport` returns no
error but a report with `total_operations = 2` and an empty `operations_by_type`, and the
handler answers 200 with that report. -/
theorem C12_interrupted_rows_give_partial_report :
    ∃ r, GetDailyReport sampleDB sampleClock typeRowsLost sampleDate = Except.ok r ∧
      r.TotalOperations = 2 ∧ r.OperationsByType = [] ∧
      Handler.GetDailyReport sampleStore sampleClock typeRowsLost sampleDate "2024-05-01" =
        ⟨200, Body.success "Daily report generated successfully" (some r),
          [Call.GetDailyReport sampleDate], sampleStore⟩ := by
  have h := GetDailyReport_of_delivered sampleDB sampleClock sampleDate (RowsFault.onNext 0)
    RowsFault.none RowsFault.none (by decide) (by decide) (by decide)
  have hp : parseDate "2024-05-01" = some sampleDate := by decide
  have hne : ("2024-05-01" : String) ≠ "" := by decide
  refine ⟨_, h, by decide, rfl, ?_⟩
  have hdb : sampleStore.toDB = sampleDB := rfl
  unfold Handler.GetDailyReport
  simp only [hne, ne_eq, not_false_eq_true, if_true, hp, hdb]
  rw [show typeRowsLost = ⟨false, false, RowsFault.onNext 0, RowsFault.none, RowsFault.none⟩
    from rfl, h]
  rfl

/-- C13: in the handlers `GetDailyReport` and `ExportDailyReport`, an empty `date` parameter
makes the one call of the aggregator carry `time.Now()`; a non-empty parameter that parses
makes it carry the parsed instant, which is midnight of the day written `YYYY-MM-DD`; a
non-empty parameter that does not parse is answered 400 with the validation message and
without any call. When the aggregator returns a report the first handler answers 200 with
it and the second, the spreadsheet written, answers with the file made from it. -/
theorem C13_date_parameter_of_report_handlers (st : Store) (clk : Clock) (flt : Faults)
    (timeNow : Timestamp) (sheetFails writeFails : Bool) (s : String) :
    (s = "" →
      (Handler.GetDailyReport st clk flt timeNow s).calls = [Call.GetDailyReport timeNow] ∧
      (Handler.ExportDailyReport st clk flt timeNow sheetFails writeFails s).calls =
        [Call.GetDailyReport timeNow] ∧
      ∀ r, GetDailyReport st.toDB clk flt timeNow = Except.ok r →
        Handler.GetDailyReport st clk flt timeNow s =
          ⟨200, Body.success "Daily report generated successfully" (some r),
            [Call.GetDailyReport timeNow], st⟩ ∧
        Handler.ExportDailyReport st clk flt timeNow false false s =
          ⟨200, Body.file r, [Call.GetDailyReport timeNow], st⟩) ∧
    (∀ t, s ≠ "" → parseDate s = some t →
      (Handler.GetDailyReport st clk flt timeNow s).calls = [Call.GetDailyReport t] ∧
      (Handler.ExportDailyReport st clk flt timeNow sheetFails writeFails s).calls =
        [Call.GetDailyReport t] ∧
      (∃ (y1 y2 y3 y4 m1 m2 d1 d2 : Char) (y m d : Nat),
        s.data = [y1, y2, y3, y4, '-', m1, m2, '-', d1, d2] ∧
        digitsValue [y1, y2, y3, y4] = some y ∧ digitsValue [m1, m2] = some m ∧
        digitsValue [d1, d2] = some d ∧ t / 86400000000 = daysFromCivil y m d) ∧
      ∀ r, GetDailyReport st.toDB clk flt t = Except.ok r →
        Handler.GetDailyReport st clk flt timeNow s =
          ⟨200, Body.success "Daily report generated successfully" (some r),
            [Call.GetDailyReport t], st⟩ ∧
        Handler.ExportDailyReport st clk flt timeNow false false s =
          ⟨200, Body.file r, [Call.GetDailyReport t], st⟩) ∧
    (s ≠ "" → parseDate s = Option.none →
      Handler.GetDailyReport st clk flt timeNow s =
        ⟨400, Body.error "Invalid date format. Use YYYY-MM-DD", [], st⟩ ∧
      Handler.ExportDailyReport st clk flt timeNow sheetFails writeFails s =
        ⟨400, Body.error "Invalid date format. Use YYYY-MM-DD", [], st⟩) := by
  have hcalls : ∀ t, (if s ≠ "" then parseDate s else some timeNow) = some t →
      (Handler.GetDailyReport st clk flt timeNow s).calls = [Call.GetDailyReport t] ∧
      (Handler.ExportDailyReport st clk flt timeNow sheetFails writeFails s).calls =
        [Call.GetDailyReport t] ∧
      ∀ r, GetDailyReport st.toDB clk flt t = Except.ok r →
        Handler.GetDailyReport st clk flt timeNow s =
          ⟨200, Body.success "Daily report generated successfully" (some r),
            [Call.GetDailyReport t], st⟩ ∧
        Handler.ExportDailyReport st clk flt timeNow false false s =
          ⟨200, Body.file r, [Call.GetDailyReport t], st⟩ := by
    intro t ht
    unfold Handler.GetDailyReport Handler.ExportDailyReport
    simp only [ht]
    refine ⟨?_, ?_, ?_⟩
    · cases GetDailyReport st.toDB clk flt t <;> rfl
    · cases GetDailyReport st.toDB clk flt t with
      | error e => rfl
      | ok r => cases sheetFails <;> cases writeFails <;> rfl
    · intro r hr
      rw [hr]
      exact ⟨rfl, rfl⟩
  refine ⟨?_, ?_, ?_⟩
  · intro hs
    exact hcalls timeNow (by simp [hs])
  · intro t hne hp
    obtain ⟨h1, h2, h3⟩ := hcalls t (by simp [hne, hp])
    obtain ⟨y1, y2, y3, y4, m1, m2, d1, d2, y, m, d, hd, hy, hm, hdd, _, _, _, _, _, hday⟩ :=
      parseDate_eq_some s t hp
    exact ⟨h1, h2, ⟨y1, y2, y3, y4, m1, m2, d1, d2, y, m, d, hd, hy, hm, hdd, hday⟩, h3⟩
  · intro hne hp
    unfold Handler.GetDailyReport Handler.ExportDailyReport
    simp only [hne, ne_eq, not_false_eq_true, if_true, hp]
    exact ⟨rfl, rfl⟩

/-- C14, counterexample: the sample store has no worker 99, yet `DeleteWorker` with id 99
returns no error, leaving the store as it was, and the handler answers 200. -/
theorem C14_counterexample :
    (∀ w ∈ sampleStore.workers, w.ID ≠ 99) ∧
    DeleteWorker sampleStore false 99 = Except.ok sampleStore ∧
    Handler.DeleteWorker sampleStore false "99" =
      ⟨200, Body.success "Worker deleted successfully" Option.none, [Call.DeleteWorker 99],
        sampleStore⟩ := by
  have hd : DeleteWorker sampleStore false 99 = Except.ok sampleStore := by
    simp only [DeleteWorker, Bool.false_eq_true, if_false]
    rfl
  have ha : Atoi "99" = some 99 := by decide
  refine ⟨by decide, hd, ?_⟩
  unfold Handler.DeleteWorker
  simp only [ha, hd]
  rfl

/-- C14, amended: when no row of its table has the id and the statement is not rejected,
each read-by-id function and each update function returns `sql.ErrNoRows` and its handler
answers 404; each delete function, `CompleteOperation` and `StartOperation` return no
error and leave the rows of their table as they were, and the handlers of the deletes and
of `CompleteOperation` answer 200. -/
theorem C14_missing_identifier (st : Store) (now : Timestamp) (id : Int) (idVar : String)
    (hid : Atoi idVar = some id) :
    ((∀ r ∈ st.workers, r.ID ≠ id) →
      GetWorkerByID st false id = Except.error SqlError.ErrNoRows ∧
      (Handler.GetWorker st false idVar).code = 404 ∧
      (∀ w : GoWorker, w.ID = id →
        UpdateWorker st false now w = Except.error SqlError.ErrNoRows) ∧
      (∀ w : GoWorker, (Handler.UpdateWorker st false now idVar (some w)).code = 404) ∧
      (∃ st2, DeleteWorker st false id = Except.ok st2 ∧ st2.workers = st.workers) ∧
      (Handler.DeleteWorker st false idVar).code = 200) ∧
    ((∀ r ∈ st.fields, r.ID ≠ id) →
      GetFieldByID st false id = Except.error SqlError.ErrNoRows ∧
      (Handler.GetField st false idVar).code = 404 ∧
      (∀ f : GoField, f.ID = id →
        UpdateField st false now f = Except.error SqlError.ErrNoRows) ∧
      (∀ f : GoField, (Handler.UpdateField st false now idVar (some f)).code = 404) ∧
      (∃ st2, DeleteField st false id = Except.ok st2 ∧ st2.fields = st.fields) ∧
      (Handler.DeleteField st false idVar).code = 200) ∧
    ((∀ r ∈ st.schedules, r.ID ≠ id) →
      GetScheduleByID st false id = Except.error SqlError.ErrNoRows ∧
      (Handler.GetSchedule st false idVar).code = 404 ∧
      (∀ s : GoSchedule, s.ID = id →
        UpdateSchedule st false now s = Except.error SqlError.ErrNoRows) ∧
      (∀ s : GoSchedule, (Handler.UpdateSchedule st false now idVar (some s)).code = 404) ∧
      (∃ st2, DeleteSchedule st false id = Except.ok st2 ∧ st2.schedules = st.schedules) ∧
      (Handler.DeleteSchedule st false idVar).code = 200) ∧
    ((∀ r ∈ st.operations, r.ID ≠ id) →
      GetOperationByID st false id = Except.error SqlError.ErrNoRows ∧
      (Handler.GetOperation st false idVar).code = 404 ∧
      (∀ o : GoOperation, o.ID = id →
        UpdateOperation st false now o = Except.error SqlError.ErrNoRows) ∧
      (∀ o : GoOperation, (Handler.UpdateOperation st false now idVar (some o)).code = 404) ∧
      (∃ st2, DeleteOperation st false id = Except.ok st2 ∧ st2.operations = st.operations) ∧
      (Handler.DeleteOperation st false idVar).code = 200 ∧
      (∃ st2, CompleteOperation st false now id = Except.ok st2 ∧
        st2.operations = st.operations) ∧
      (Handler.CompleteOperation st false now idVar).code = 200 ∧
      (∃ st2, StartOperation st false now id = Except.ok st2 ∧
        st2.operations = st.operations)) := by
  refine ⟨?_, ?_, ?_, ?_⟩
  · intro h
    have hget : GetWorkerByID st false id = Except.error SqlError.ErrNoRows :=
      queryRowByID_of_missing _ _ _ _ h
    have hupd : ∀ w : GoWorker, w.ID = id →
        UpdateWorker st false now w = Except.error SqlError.ErrNoRows := by
      intro w hw
      simp [UpdateWorker, hw, any_id_eq_false st.workers Worker.ID id h]
    refine ⟨hget, ?_, hupd, ?_, ⟨_, rfl, filter_id_ne_of_missing _ Worker.ID id h⟩, ?_⟩
    · simp [Handler.GetWorker, hid, hget, respondWithError]
    · intro w
      simp [Handler.UpdateWorker, hid, hupd { w with ID := id } rfl, respondWithError]
    · simp [Handler.DeleteWorker, hid, DeleteWorker, respondWithJSON]
  · intro h
    have hget : GetFieldByID st false id = Except.error SqlError.ErrNoRows :=
      queryRowByID_of_missing _ _ _ _ h
    have hupd : ∀ f : GoField, f.ID = id →
        UpdateField st false now f = Except.error SqlError.ErrNoRows := by
      intro f hf
      simp [UpdateField, hf, any_id_eq_false st.fields Field.ID id h]
    refine ⟨hget, ?_, hupd, ?_, ⟨_, rfl, filter_id_ne_of_missing _ Field.ID id h⟩, ?_⟩
    · simp [Handler.GetField, hid, hget, respondWithError]
    · intro f
      simp [Handler.UpdateField, hid, hupd { f with ID := id } rfl, respondWithError]
    · simp [Handler.DeleteField, hid, DeleteField, respondWithJSON]
  · intro h
    have hget : GetScheduleByID st false id = Except.error SqlError.ErrNoRows :=
      queryRowByID_of_missing _ _ _ _ h
    have hupd : ∀ s : GoSchedule, s.ID = id →
        UpdateSchedule st false now s = Except.error SqlError.ErrNoRows := by
      intro s hs
      simp [UpdateSchedule, hs, any_id_eq_false st.schedules Schedule.ID id h]
    refine ⟨hget, ?_, hupd, ?_, ⟨_, rfl, filter_id_ne_of_missing _ Schedule.ID id h⟩, ?_⟩
    · simp [Handler.GetSchedule, hid, hget, respondWithError]
    · intro s
      simp [Handler.UpdateSchedule, hid, hupd { s with ID := id } rfl, respondWithError]
    · simp [Handler.DeleteSchedule, hid, DeleteSchedule, respondWithJSON]
  · intro h
    have hget : GetOperationByID st false id = Except.error SqlError.ErrNoRows :=
      queryRowByID_of_missing _ _ _ _ h
    have hupd : ∀ o : GoOperation, o.ID = id →
        UpdateOperation st false now o = Except.error SqlError.ErrNoRows := by
      intro o ho
      simp [UpdateOperation, ho, any_id_eq_false st.operations Operation.ID id h]
    refine ⟨hget, ?_, hupd, ?_, ⟨_, rfl, filter_id_ne_of_missing _ Operation.ID id h⟩, ?_,
      ⟨_, rfl, updateWhereID_of_missing _ Operation.ID id _ h⟩, ?_,
      ⟨_, rfl, updateWhereID_of_missing _ Operation.ID id _ h⟩⟩
    · simp [Handler.GetOperation, hid, hget, respondWithError]
    · intro o
      simp [Handler.UpdateOperation, hid, hupd { o with ID := id } rfl, respondWithError]
    · simp [Handler.DeleteOperation, hid, DeleteOperation, respondWithJSON]
    · simp [Handler.CompleteOperation, hid, CompleteOperation, respondWithJSON]

/-- Witness of C14, amended: id 99 in the sample store. -/
theorem C14_missing_identifier_witness :
    ((∀ r ∈ sampleStore.workers, r.ID ≠ 99) →
      GetWorkerByID sampleStore false 99 = Except.error SqlError.ErrNoRows ∧
      (Handler.GetWorker sampleStore false "99").code = 404 ∧
      (∀ w : GoWorker, w.ID = 99 →
        UpdateWorker sampleStore false 0 w = Except.error SqlError.ErrNoRows) ∧
      (∀ w : GoWorker, (Handler.UpdateWorker sampleStore false 0 "99" (some w)).code = 404) ∧
      (∃ st2, DeleteWorker sampleStore false 99 = Except.ok st2 ∧
        st2.workers = sampleStore.workers) ∧
      (Handler.DeleteWorker sampleStore false "99").code = 200) ∧
    ((∀ r ∈ sampleStore.fields, r.ID ≠ 99) →
      GetFieldByID sampleStore false 99 = Except.error SqlError.ErrNoRows ∧
      (Handler.GetField sampleStore false "99").code = 404 ∧
      (∀ f : GoField, f.ID = 99 →
        UpdateField sampleStore false 0 f = Except.error SqlError.ErrNoRows) ∧
      (∀ f : GoField, (Handler.UpdateField sampleStore false 0 "99" (some f)).code = 404) ∧
      (∃ st2, DeleteField sampleStore false 99 = Except.ok st2 ∧
        st2.fields = sampleStore.fields) ∧
      (Handler.DeleteField sampleStore false "99").code = 200) ∧
    ((∀ r ∈ sampleStore.schedules, r.ID ≠ 99) →
      GetScheduleByID sampleStore false 99 = Except.error SqlError.ErrNoRows ∧
      (Handler.GetSchedule sampleStore false "99").code = 404 ∧
      (∀ s : GoSchedule, s.ID = 99 →
        UpdateSchedule sampleStore false 0 s = Except.error SqlError.ErrNoRows) ∧
      (∀ s : GoSchedule,
        (Handler.UpdateSchedule sampleStore false 0 "99" (some s)).code = 404) ∧
      (∃ st2, DeleteSchedule sampleStore false 99 = Except.ok st2 ∧
        st2.schedules = sampleStore.schedules) ∧
      (Handler.DeleteSchedule sampleStore false "99").code = 200) ∧
    ((∀ r ∈ sampleStore.operations, r.ID ≠ 99) →
      GetOperationByID sampleStore false 99 = Except.error SqlError.ErrNoRows ∧
      (Handler.GetOperation sampleStore false "99").code = 404 ∧
      (∀ o : GoOperation, o.ID = 99 →
        UpdateOperation sampleStore false 0 o = Except.error SqlError.ErrNoRows) ∧
      (∀ o : GoOperation,
        (Handler.UpdateOperation sampleStore false 0 "99" (some o)).code = 404) ∧
      (∃ st2, DeleteOperation sampleStore false 99 = Except.ok st2 ∧
        st2.operations = sampleStore.operations) ∧
      (Handler.DeleteOperation sampleStore false "99").code = 200 ∧
      (∃ st2, CompleteOperation sampleStore false 0 99 = Except.ok st2 ∧
        st2.operations = sampleStore.operations) ∧
      (Handler.CompleteOperation sampleStore false 0 "99").code = 200 ∧
      (∃ st2, StartOperation sampleStore false 0 99 = Except.ok st2 ∧
        st2.operations = sampleStore.operations)) :=
  C14_missing_identifier sampleStore 0 99 "99" (by decide)

/-- C15: each of the eight read-by-id and update handlers answers 400, without calling the
store, when the path id is not an integer or (for an update) the body does not decode;
otherwise it calls its store function once and answers 404 when that returns
`sql.ErrNoRows`, 500 when it returns another error, 200 when it succeeds; so the status is
always one of 200, 400, 404, 500. -/
theorem C15_status_of_read_and_update_handlers (st : Store) (rejected : Bool)
    (now : Timestamp) (idVar : String) (dw : Option GoWorker) (df : Option GoField)
    (ds : Option GoSchedule) (dop : Option GoOperation) :
    ReadRule idVar Call.GetWorkerByID (GetWorkerByID st rejected)
      (Handler.GetWorker st rejected idVar) ∧
    UpdateRule idVar dw (fun w id => { w with ID := id }) Call.UpdateWorker
      (UpdateWorker st rejected now) (Handler.UpdateWorker st rejected now idVar dw) ∧
    ReadRule idVar Call.GetFieldByID (GetFieldByID st rejected)
      (Handler.GetField st rejected idVar) ∧
    UpdateRule idVar df (fun f id => { f with ID := id }) Call.UpdateField
      (UpdateField st rejected now) (Handler.UpdateField st rejected now idVar df) ∧
    ReadRule idVar Call.GetScheduleByID (GetScheduleByID st rejected)
      (Handler.GetSchedule st rejected idVar) ∧
    UpdateRule idVar ds (fun s id => { s with ID := id }) Call.UpdateSchedule
      (UpdateSchedule st rejected now) (Handler.UpdateSchedule st rejected now idVar ds) ∧
    ReadRule idVar Call.GetOperationByID (GetOperationByID st rejected)
      (Handler.GetOperation st rejected idVar) ∧
    UpdateRule idVar dop (fun o id => { o with ID := id }) Call.UpdateOperation
      (UpdateOperation st rejected now) (Handler.UpdateOperation st rejected now idVar dop) ∧
    (∀ c ∈ [(Handler.GetWorker st rejected idVar).code,
        (Handler.UpdateWorker st rejected now idVar dw).code,
        (Handler.GetField st rejected idVar).code,
        (Handler.UpdateField st rejected now idVar df).code,
        (Handler.GetSchedule st rejected idVar).code,
        (Handler.UpdateSchedule st rejected now idVar ds).code,
        (Handler.GetOperation st rejected idVar).code,
        (Handler.UpdateOperation st rejected now idVar dop).code],
      c = 200 ∨ c = 400 ∨ c = 404 ∨ c = 500) := by
  have hcode : ∀ {β : Type} (res : Except SqlError β),
      statusOfResult res = 200 ∨ statusOfResult res = 400 ∨ statusOfResult res = 404 ∨
        statusOfResult res = 500 := by
    intro β res
    cases res with
    | error e => cases e <;> simp [statusOfResult]
    | ok _ => simp [statusOfResult]
  have hread : ∀ {α : Type} (call : Int → Call) (result : Int → Except SqlError α)
      (reply : Reply α), ReadRule idVar call result reply →
      reply.code = 200 ∨ reply.code = 400 ∨ reply.code = 404 ∨ reply.code = 500 := by
    intro α call result reply h
    unfold ReadRule at h
    split at h
    · exact Or.inr (Or.inl h.1)
    · rw [h.2]; exact hcode _
  have hupdate : ∀ {α : Type} (decoded : Option α) (withID : α → Int → α) (call : α → Call)
      (result : α → Except SqlError (Store × α)) (reply : Reply α),
      UpdateRule idVar decoded withID call result reply →
      reply.code = 200 ∨ reply.code = 400 ∨ reply.code = 404 ∨ reply.code = 500 := by
    intro α decoded withID call result reply h
    unfold UpdateRule at h
    split at h
    · exact Or.inr (Or.inl h.1)
    · exact Or.inr (Or.inl h.1)
    · rw [h.2]; exact hcode _
  have h1 : ReadRule idVar Call.GetWorkerByID (GetWorkerByID st rejected)
      (Handler.GetWorker st rejected idVar) := by
    unfold ReadRule Handler.GetWorker
    cases Atoi idVar with
    | none => exact ⟨rfl, rfl⟩
    | some id =>
      simp only
      cases GetWorkerByID st rejected id with
      | error e => cases e <;> exact ⟨rfl, rfl⟩
      | ok w => exact ⟨rfl, rfl⟩
  have h2 : UpdateRule idVar dw (fun w id => { w with ID := id }) Call.UpdateWorker
      (UpdateWorker st rejected now) (Handler.UpdateWorker st rejected now idVar dw) := by
    unfold UpdateRule Handler.UpdateWorker
    cases Atoi idVar with
    | none => exact ⟨rfl, rfl⟩
    | some id =>
      cases dw with
      | none => exact ⟨rfl, rfl⟩
      | some payload =>
        simp only
        cases UpdateWorker st rejected now { payload with ID := id } with
        | error e => cases e <;> exact ⟨rfl, rfl⟩
        | ok res => exact ⟨rfl, rfl⟩
  have h3 : ReadRule idVar Call.GetFieldByID (GetFieldByID st rejected)
      (Handler.GetField st rejected idVar) := by
    unfold ReadRule Handler.GetField
    cases Atoi idVar with
    | none => exact ⟨rfl, rfl⟩
    | some id =>
      simp only
      cases GetFieldByID st rejected id with
      | error e => cases e <;> exact ⟨rfl, rfl⟩
      | ok w => exact ⟨rfl, rfl⟩
  have h4 : UpdateRule idVar df (fun f id => { f with ID := id }) Call.UpdateField
      (UpdateField st rejected now) (Handler.UpdateField st rejected now idVar df) := by
    unfold UpdateRule Handler.UpdateField
    cases Atoi idVar with
    | none => exact ⟨rfl, rfl⟩
    | some id =>
      cases df with
      | none => exact ⟨rfl, rfl⟩
      | some payload =>
        simp only
        cases UpdateField st rejected now { payload with ID := id } with
        | error e => cases e <;> exact ⟨rfl, rfl⟩
        | ok res => exact ⟨rfl, rfl⟩
  have h5 : ReadRule idVar Call.GetScheduleByID (GetScheduleByID st rejected)
      (Handler.GetSchedule st rejected idVar) := by
    unfold ReadRule Handler.GetSchedule
    cases Atoi idVar with
    | none => exact ⟨rfl, rfl⟩
    | some id =>
      simp only
      cases GetScheduleByID st rejected id with
      | error e => cases e <;> exact ⟨rfl, rfl⟩
      | ok w => exact ⟨rfl, rfl⟩
  have h6 : UpdateRule idVar ds (fun s id => { s with ID := id }) Call.UpdateSchedule
      (UpdateSchedule st rejected now) (Handler.UpdateSchedule st rejected now idVar ds) := by
    unfold UpdateRule Handler.UpdateSchedule
    cases Atoi idVar with
    | none => exact ⟨rfl, rfl⟩
    | some id =>
      cases ds with
      | none => exact ⟨rfl, rfl⟩
      | some payload =>
        simp only
        cases UpdateSchedule st rejected now { payload with ID := id } with
        | error e => cases e <;> exact ⟨rfl, rfl⟩
        | ok res => exact ⟨rfl, rfl⟩
  have h7 : ReadRule idVar Call.GetOperationByID (GetOperationByID st rejected)
      (Handler.GetOperation st rejected idVar) := by
    unfold ReadRule Handler.GetOperation
    cases Atoi idVar with
    | none => exact ⟨rfl, rfl⟩
    | some id =>
      simp only
      cases GetOperationByID st rejected id with
      | error e => cases e <;> exact ⟨rfl, rfl⟩
      | ok w => exact ⟨rfl, rfl⟩
  have h8 : UpdateRule idVar dop (fun o id => { o with ID := id }) Call.UpdateOperation
      (UpdateOperation st rejected now) (Handler.UpdateOperation st rejected now idVar dop) := by
    unfold UpdateRule Handler.UpdateOperation
    cases Atoi idVar with
    | none => exact ⟨rfl, rfl⟩
    | some id =>
      cases dop with
      | none => exact ⟨rfl, rfl⟩
      | some payload =>
        simp only
        cases UpdateOperation st rejected now { payload with ID := id } with
        | error e => cases e <;> exact ⟨rfl, rfl⟩
        | ok res => exact ⟨rfl, rfl⟩
  refine ⟨h1, h2, h3, h4, h5, h6, h7, h8, ?_⟩
  intro c hc
  simp only [List.mem_cons, List.mem_singleton, List.not_mem_nil, or_false] at hc
  rcases hc with rfl | rfl | rfl | rfl | rfl | rfl | rfl | rfl
  · exact hread _ _ _ h1
  · exact hupdate _ _ _ _ _ h2
  · exact hread _ _ _ h3
  · exact hupdate _ _ _ _ _ h4
  · exact hread _ _ _ h5
  · exact hupdate _ _ _ _ _ h6
  · exact hread _ _ _ h7
  · exact hupdate _ _ _ _ _ h8

/-- C16, counterexample: operation 3 of the sample store is `planned`; `CompleteOperation`
makes it `completed` without its having been `in_progress`. -/
theorem C16_counterexample :
    (∃ o ∈ sampleStore.operations, o.ID = 3 ∧ o.Status = some "planned") ∧
    ∃ st2, CompleteOperation sampleStore false 0 3 = Except.ok st2 ∧
      ∃ o ∈ st2.operations, o.ID = 3 ∧ o.Status = some "completed" := by
  refine ⟨by decide, _, rfl, ?_⟩
  simp only [updateWhereID, sampleStore, List.map_cons, List.map_nil]
  decide

/-- C16, amended: the store functions do not look at the old status. When the statement
is not rejected, `StartOperation` leaves every operation with the given id `in_progress`,
`CompleteOperation` leaves it `completed`, and `UpdateOperation`, when a row has the id of
the payload, leaves it with the status of the payload; the status of every other
operation, and every id, stays as it was. -/
theorem C16_status_is_overwritten (st : Store) (now : Timestamp) (id : Int)
    (payload : GoOperation) :
    (∃ st2, StartOperation st false now id = Except.ok st2 ∧
      st2.operations.map Operation.ID = st.operations.map Operation.ID ∧
      st2.operations.map Operation.Status =
        st.operations.map fun o => if o.ID = id then some "in_progress" else o.Status) ∧
    (∃ st2, CompleteOperation st false now id = Except.ok st2 ∧
      st2.operations.map Operation.ID = st.operations.map Operation.ID ∧
      st2.operations.map Operation.Status =
        st.operations.map fun o => if o.ID = id then some "completed" else o.Status) ∧
    ((∃ o ∈ st.operations, o.ID = payload.ID) →
      ∃ st2 p2, UpdateOperation st false now payload = Except.ok (st2, p2) ∧
        st2.operations.map Operation.ID = st.operations.map Operation.ID ∧
        st2.operations.map Operation.Status =
          st.operations.map fun o =>
            if o.ID = payload.ID then some payload.Status else o.Status) := by
  have hid : ∀ (i : Int) (set : Operation → Operation), (∀ r, (set r).ID = r.ID) →
      (updateWhereID st.operations Operation.ID i set).map Operation.ID =
        st.operations.map Operation.ID := by
    intro i set hset
    rw [updateWhereID_map st.operations Operation.ID i set Operation.ID Operation.ID hset]
    apply List.map_congr_left
    intro r _
    simp
  refine ⟨⟨_, rfl, hid _ _ (fun _ => rfl), ?_⟩, ⟨_, rfl, hid _ _ (fun _ => rfl), ?_⟩, ?_⟩
  · exact updateWhereID_map st.operations Operation.ID id _ Operation.Status
      (fun _ => some "in_progress") (fun _ => rfl)
  · exact updateWhereID_map st.operations Operation.ID id _ Operation.Status
      (fun _ => some "completed") (fun _ => rfl)
  · rintro ⟨o, ho, hoid⟩
    have hany : (st.operations.any fun r => decide (r.ID = payload.ID)) = true :=
      List.any_eq_true.mpr ⟨o, ho, by simpa using hoid⟩
    unfold UpdateOperation
    simp only [Bool.false_eq_true, if_false, hany, if_true]
    exact ⟨_, _, rfl, hid _ _ (fun _ => rfl),
      updateWhereID_map st.operations Operation.ID payload.ID _ Operation.Status
        (fun _ => some payload.Status) (fun _ => rfl)⟩

/-- C17, counterexample: the sample tables and the date 2024-05-01, reported at 12:00 and
at 13:00. The operations table and the date are the same, yet the two `worker_stats` do
not hold the same entries: the open plowing makes the worker's hours grow. -/
theorem C17_counterexample :
    ∃ r1 r2, GetDailyReport sampleDB sampleClock Faults.none sampleDate = Except.ok r1 ∧
      GetDailyReport sampleDB laterClock Faults.none sampleDate = Except.ok r2 ∧
      ¬ (∀ e, e ∈ r1.WorkerStats ↔ e ∈ r2.WorkerStats) := by
  have hex : ∃ o ∈ sampleDB.operations,
      StartsOn (sampleDate / 86400000000) o ∧ o.WorkerID = some sampleWorker.ID := by decide
  have hpk : (sampleDB.workers.map Worker.ID).Nodup := by decide
  have hw : sampleWorker ∈ sampleDB.workers := by decide
  have h1 := workerStatsOf_filter sampleDB sampleClock.workerStats sampleDate hpk
    sampleWorker hw hex
  have h2 := workerStatsOf_filter sampleDB laterClock.workerStats sampleDate hpk
    sampleWorker hw hex
  have hgrow := elapsedHours_growth sampleClock.workerStats laterClock.workerStats _
    (workerOpsOn_start sampleDB (sampleDate / 86400000000) sampleWorker.ID)
  have hcount : (workerOpsOn sampleDB (sampleDate / 86400000000) sampleWorker.ID).countP
      (fun o => decide (o.EndTime = Option.none)) = 1 := by decide
  have hc1 : sampleClock.workerStats = 1714564800000000 := by decide
  have hc2 : laterClock.workerStats = 1714568400000000 := by decide
  rw [hcount, hc1, hc2] at hgrow
  have main : ∀ (l1 l2 : List WorkerDailyStats) (e1 e2 : WorkerDailyStats),
      l1.filter (fun e => decide (e.WorkerID = sampleWorker.ID)) = [e1] →
      l2.filter (fun e => decide (e.WorkerID = sampleWorker.ID)) = [e2] →
      e1.HoursWorked ≠ e2.HoursWorked → ¬ (∀ e, e ∈ l1 ↔ e ∈ l2) := by
    intro l1 l2 e1 e2 hf1 hf2 hne hall
    have m1 : e1 ∈ l1.filter (fun e => decide (e.WorkerID = sampleWorker.ID)) := by
      rw [hf1]; exact List.mem_singleton.mpr rfl
    have m2 : e1 ∈ l2.filter (fun e => decide (e.WorkerID = sampleWorker.ID)) :=
      List.mem_filter.mpr ⟨(hall e1).mp (List.mem_filter.mp m1).1, (List.mem_filter.mp m1).2⟩
    rw [hf2, List.mem_singleton] at m2
    exact hne (congrArg WorkerDailyStats.HoursWorked m2)
  refine ⟨_, _, GetDailyReport_noFaults sampleDB sampleClock sampleDate,
    GetDailyReport_noFaults sampleDB laterClock sampleDate, main _ _ _ _ h1 h2 ?_⟩
  intro hh
  simp only [hc1, hc2] at hh
  rw [hh] at hgrow
  norm_num at hgrow

/-- C17, amended: for two evaluations with the same operations table and the same date,
whatever the clocks and the other tables, the four counts and `operations_by_type` are
equal; when moreover every operation of the day has an end time, `worker_stats` are equal
if the workers tables are equal, and `field_stats` are equal if the fields tables are
equal. -/
theorem C17_report_as_function_of_tables (db1 db2 : DB) (clk1 clk2 : Clock) (date : Timestamp)
    (hops : db1.operations = db2.operations) :
    ∃ r1 r2, GetDailyReport db1 clk1 Faults.none date = Except.ok r1 ∧
      GetDailyReport db2 clk2 Faults.none date = Except.ok r2 ∧
      r1.TotalWorkers = r2.TotalWorkers ∧ r1.TotalOperations = r2.TotalOperations ∧
      r1.CompletedOps = r2.CompletedOps ∧ r1.InProgressOps = r2.InProgressOps ∧
      r1.OperationsByType = r2.OperationsByType ∧
      ((∀ o ∈ db1.operations, StartsOn (date / 86400000000) o → o.EndTime ≠ Option.none) →
        (db1.workers = db2.workers → r1.WorkerStats = r2.WorkerStats) ∧
        (db1.fields = db2.fields → r1.FieldStats = r2.FieldStats)) := by
  refine ⟨_, _, GetDailyReport_noFaults db1 clk1 date, GetDailyReport_noFaults db2 clk2 date,
    ?_, ?_, ?_, ?_, ?_, ?_⟩
  · show totalWorkersQuery db1 date = totalWorkersQuery db2 date
    unfold totalWorkersQuery
    rw [hops]
  · show (opStatsQuery db1 date).1 = (opStatsQuery db2 date).1
    unfold opStatsQuery
    rw [hops]
  · show (opStatsQuery db1 date).2.1 = (opStatsQuery db2 date).2.1
    unfold opStatsQuery
    rw [hops]
  · show (opStatsQuery db1 date).2.2 = (opStatsQuery db2 date).2.2
    unfold opStatsQuery
    rw [hops]
  · show byTypeQuery db1 date = byTypeQuery db2 date
    unfold byTypeQuery
    rw [hops]
  · intro hclosed
    have hcl : ∀ o ∈ db1.operations, onDate date o = true → o.EndTime ≠ Option.none :=
      fun o ho hd => hclosed o ho ((onDate_iff date o).mp hd)
    constructor
    · intro hw
      show workerStatsOf db1 clk1.workerStats date = workerStatsOf db2 clk2.workerStats date
      unfold workerStatsOf
      rw [workerStatsQuery_eq_groupStats, workerStatsQuery_eq_groupStats, ← hops, ← hw,
        groupStats_of_closed _ _ _ _ _ _ clk1.workerStats clk2.workerStats date hcl]
    · intro hf
      show fieldStatsOf db1 clk1.fieldStats date = fieldStatsOf db2 clk2.fieldStats date
      unfold fieldStatsOf
      rw [fieldStatsQuery_eq_groupStats, fieldStatsQuery_eq_groupStats, ← hops, ← hf,
        groupStats_of_closed _ _ _ _ _ _ clk1.fieldStats clk2.fieldStats date hcl]

/-- Witness of C17, amended: `closedDB` reported at 12:00 and at 13:00. -/
theorem C17_report_as_function_of_tables_witness :
    ∃ r1 r2, GetDailyReport closedDB sampleClock Faults.none sampleDate = Except.ok r1 ∧
      GetDailyReport closedDB laterClock Faults.none sampleDate = Except.ok r2 ∧
      r1.TotalWorkers = r2.TotalWorkers ∧ r1.TotalOperations = r2.TotalOperations ∧
      r1.CompletedOps = r2.CompletedOps ∧ r1.InProgressOps = r2.InProgressOps ∧
      r1.OperationsByType = r2.OperationsByType ∧
      ((∀ o ∈ closedDB.operations, StartsOn (sampleDate / 86400000000) o →
          o.EndTime ≠ Option.none) →
        (closedDB.workers = closedDB.workers → r1.WorkerStats = r2.WorkerStats) ∧
        (closedDB.fields = closedDB.fields → r1.FieldStats = r2.FieldStats)) :=
  C17_report_as_function_of_tables closedDB closedDB sampleClock laterClock sampleDate rfl

/-- C18: the handler `CreateOperation` answers 400 without calling the store when the
decoded payload has `worker_id` 0, `field_id` 0 or an empty `type`; for every other
decoded payload it calls the store once, with the payload whose status is `planned` when
the payload's status is empty and with the payload itself otherwise, and answers 201 or
500 as the store succeeds or fails. -/
theorem C18_create_operation_handler (st : Store) (rejected : Bool) (now : Timestamp)
    (nextID : Int) (payload : GoOperation) :
    ((payload.WorkerID = 0 ∨ payload.FieldID = 0 ∨ payload.OpType = "") →
      Handler.CreateOperation st rejected now nextID (some payload) =
        ⟨400, Body.error "Worker ID, Field ID, and Type are required", [], st⟩) ∧
    (¬ (payload.WorkerID = 0 ∨ payload.FieldID = 0 ∨ payload.OpType = "") →
      (payload.Status = "" →
        (Handler.CreateOperation st rejected now nextID (some payload)).calls =
          [Call.CreateOperation { payload with Status := "planned" }]) ∧
      (payload.Status ≠ "" →
        (Handler.CreateOperation st rejected now nextID (some payload)).calls =
          [Call.CreateOperation payload]) ∧
      (Handler.CreateOperation st rejected now nextID (some payload)).code =
        (if rejected then 500 else 201)) := by
  constructor
  · intro h
    unfold Handler.CreateOperation
    simp only [h, if_true]
    rfl
  · intro h
    unfold Handler.CreateOperation
    simp only [h, if_false]
    refine ⟨?_, ?_, ?_⟩
    · intro hs
      simp only [hs, if_true]
      cases rejected <;> rfl
    · intro hs
      simp only [hs, if_false]
      cases rejected <;> rfl
    · cases rejected <;> rfl

/-- C19: when worker ids are a primary key and every non-null `worker_id` of an operation of
the day refers to a row of the workers table, `worker_stats` has as many entries as
`total_workers` says and no two of them share a worker id; when field ids are a primary
key, no two entries of `field_stats` share a field id. -/
theorem C19_entries_match_total_workers (db : DB) (clk : Clock) (date : Timestamp)
    (hpkW : (db.workers.map Worker.ID).Nodup) (hpkF : (db.fields.map Field.ID).Nodup)
    (href : ∀ o ∈ db.operations, StartsOn (date / 86400000000) o →
      ∀ id, o.WorkerID = some id → ∃ w ∈ db.workers, w.ID = id) :
    ∃ r, GetDailyReport db clk Faults.none date = Except.ok r ∧
      ((r.WorkerStats.length : Nat) : Int) = r.TotalWorkers ∧
      (r.WorkerStats.map fun e => e.WorkerID).Nodup ∧
      (r.FieldStats.map fun e => e.FieldID).Nodup := by
  have hnd := workerStatsOf_nodup db clk.workerStats date hpkW
  refine ⟨_, GetDailyReport_noFaults db clk date, ?_, hnd,
    fieldStatsOf_nodup db clk.fieldStats date hpkF⟩
  show (((workerStatsOf db clk.workerStats date).length : Nat) : Int) =
    totalWorkersQuery db date
  rw [totalWorkersQuery_eq_card, ← workerStatsOf_ids db clk.workerStats date hpkW href,
    List.toFinset_card_of_nodup hnd, List.length_map]

/-- Witness of C19: the sample tables on 2024-05-01. -/
theorem C19_entries_match_total_workers_witness :
    ∃ r, GetDailyReport sampleDB sampleClock Faults.none sampleDate = Except.ok r ∧
      ((r.WorkerStats.length : Nat) : Int) = r.TotalWorkers ∧
      (r.WorkerStats.map fun e => e.WorkerID).Nodup ∧
      (r.FieldStats.map fun e => e.FieldID).Nodup :=
  C19_entries_match_total_workers sampleDB sampleClock sampleDate (by decide) (by decide)
    (by decide)

/-- C20: when worker and field ids are primary keys, the `operations` of the entries of
`worker_stats` add up to at most `total_operations`, and so do those of `field_stats`; the
worker sum equals `total_operations` when every operation of the day refers to a row of
the workers table, the field sum when every operation of the day refers to a row of the
fields table, and the worker sum is strictly smaller when an operation of the day has a
null `worker_id`. -/
theorem C20_entry_operations_within_total (db : DB) (clk : Clock) (date : Timestamp)
    (hpkW : (db.workers.map Worker.ID).Nodup) (hpkF : (db.fields.map Field.ID).Nodup) :
    ∃ r, GetDailyReport db clk Faults.none date = Except.ok r ∧
      (r.WorkerStats.map fun e => e.Operations).sum ≤ r.TotalOperations ∧
      (r.FieldStats.map fun e => e.Operations).sum ≤ r.TotalOperations ∧
      ((∀ o ∈ db.operations, StartsOn (date / 86400000000) o →
          ∃ w ∈ db.workers, o.WorkerID = some w.ID) →
        (r.WorkerStats.map fun e => e.Operations).sum = r.TotalOperations) ∧
      ((∀ o ∈ db.operations, StartsOn (date / 86400000000) o →
          ∃ f ∈ db.fields, o.FieldID = some f.ID) →
        (r.FieldStats.map fun e => e.Operations).sum = r.TotalOperations) ∧
      ((∃ o ∈ db.operations, StartsOn (date / 86400000000) o ∧ o.WorkerID = Option.none) →
        (r.WorkerStats.map fun e => e.Operations).sum < r.TotalOperations) := by
  have hW := workerStatsOf_sum_operations db clk.workerStats date
  have hF := fieldStatsOf_sum_operations db clk.fieldStats date
  have hleW : ∀ x ∈ (matching db date).map (fun o =>
      db.workers.countP fun w => decide (o.WorkerID = some w.ID)), x ≤ 1 := by
    intro x hx
    obtain ⟨o, _, rfl⟩ := List.mem_map.mp hx
    exact countP_ref_le_one db.workers Worker.ID hpkW o.WorkerID
  have hleF : ∀ x ∈ (matching db date).map (fun o =>
      db.fields.countP fun f => decide (o.FieldID = some f.ID)), x ≤ 1 := by
    intro x hx
    obtain ⟨o, _, rfl⟩ := List.mem_map.mp hx
    exact countP_ref_le_one db.fields Field.ID hpkF o.FieldID
  have hmem : ∀ o, o ∈ matching db date →
      o ∈ db.operations ∧ StartsOn (date / 86400000000) o := by
    intro o ho
    rw [matching_eq] at ho
    obtain ⟨h1, h2⟩ := List.mem_filter.mp ho
    exact ⟨h1, by simpa using h2⟩
  refine ⟨_, GetDailyReport_noFaults db clk date, ?_, ?_, ?_, ?_, ?_⟩
  · show ((workerStatsOf db clk.workerStats date).map fun e => e.Operations).sum ≤
      (((matching db date).length : Nat) : Int)
    rw [hW]
    have := sum_le_length_of_le_one _ hleW
    rw [List.length_map] at this
    exact_mod_cast this
  · show ((fieldStatsOf db clk.fieldStats date).map fun e => e.Operations).sum ≤
      (((matching db date).length : Nat) : Int)
    rw [hF]
    have := sum_le_length_of_le_one _ hleF
    rw [List.length_map] at this
    exact_mod_cast this
  · intro href
    show ((workerStatsOf db clk.workerStats date).map fun e => e.Operations).sum =
      (((matching db date).length : Nat) : Int)
    rw [hW]
    have := sum_eq_length_of_eq_one ((matching db date).map fun o =>
      db.workers.countP fun w => decide (o.WorkerID = some w.ID)) (by
        intro x hx
        obtain ⟨o, ho, rfl⟩ := List.mem_map.mp hx
        obtain ⟨h1, h2⟩ := hmem o ho
        exact countP_ref_eq_one db.workers Worker.ID hpkW o.WorkerID (href o h1 h2))
    rw [List.length_map] at this
    exact_mod_cast this
  · intro href
    show ((fieldStatsOf db clk.fieldStats date).map fun e => e.Operations).sum =
      (((matching db date).length : Nat) : Int)
    rw [hF]
    have := sum_eq_length_of_eq_one ((matching db date).map fun o =>
      db.fields.countP fun f => decide (o.FieldID = some f.ID)) (by
        intro x hx
        obtain ⟨o, ho, rfl⟩ := List.mem_map.mp hx
        obtain ⟨h1, h2⟩ := hmem o ho
        exact countP_ref_eq_one db.fields Field.ID hpkF o.FieldID (href o h1 h2))
    rw [List.length_map] at this
    exact_mod_cast this
  · rintro ⟨o, ho, hd, hnull⟩
    show ((workerStatsOf db clk.workerStats date).map fun e => e.Operations).sum <
      (((matching db date).length : Nat) : Int)
    rw [hW]
    have hin : o ∈ matching db date := by
      rw [matching_eq]
      exact List.mem_filter.mpr ⟨ho, by simpa using hd⟩
    have h0 : 0 ∈ (matching db date).map fun o =>
        db.workers.countP fun w => decide (o.WorkerID = some w.ID) := by
      refine List.mem_map.mpr ⟨o, hin, ?_⟩
      rw [hnull]
      simp
    have := sum_lt_length_of_zero_mem _ hleW h0
    rw [List.length_map] at this
    exact_mod_cast this

/-- Witness of C20: the sample tables on 2024-05-01. -/
theorem C20_entry_operations_within_total_witness :
    ∃ r, GetDailyReport sampleDB sampleClock Faults.none sampleDate = Except.ok r ∧
      (r.WorkerStats.map fun e => e.Operations).sum ≤ r.TotalOperations ∧
      (r.FieldStats.map fun e => e.Operations).sum ≤ r.TotalOperations ∧
      ((∀ o ∈ sampleDB.operations, StartsOn (sampleDate / 86400000000) o →
          ∃ w ∈ sampleDB.workers, o.WorkerID = some w.ID) →
        (r.WorkerStats.map fun e => e.Operations).sum = r.TotalOperations) ∧
      ((∀ o ∈ sampleDB.operations, StartsOn (sampleDate / 86400000000) o →
          ∃ f ∈ sampleDB.fields, o.FieldID = some f.ID) →
        (r.FieldStats.map fun e => e.Operations).sum = r.TotalOperations) ∧
      ((∃ o ∈ sampleDB.operations,
          StartsOn (sampleDate / 86400000000) o ∧ o.WorkerID = Option.none) →
        (r.WorkerStats.map fun e => e.Operations).sum < r.TotalOperations) :=
  C20_entry_operations_within_total sampleDB sampleClock sampleDate (by decide) (by decide)

/-- C21: an operation without a start time is counted in no part of the report of any
date. Two tables of operations that differ by one such operation, wherever it stands in
the table, give the same result of `GetDailyReport`, a report with the same
`total_workers`, operation counts, `operations_by_type`, `worker_stats` and `field_stats`,
for every date. -/
theorem C21_operation_without_start_is_not_counted (workers : List Worker)
    (fields : List Field) (pre post : List Operation) (x : Operation) (clk : Clock)
    (date : Timestamp) (hx : x.StartTime = Option.none) :
    ∃ r, GetDailyReport ⟨workers, fields, pre ++ post⟩ clk Faults.none date = Except.ok r ∧
      GetDailyReport ⟨workers, fields, pre ++ x :: post⟩ clk Faults.none date = Except.ok r ∧
      ¬ StartsOn (date / 86400000000) x := by
  refine ⟨_, GetDailyReport_noFaults _ clk date, ?_, ?_⟩
  · rw [GetDailyReport_insert workers fields pre post x clk Faults.none date
      (onDate_of_no_start date x hx)]
    exact GetDailyReport_noFaults _ clk date
  · rintro ⟨t, ht, _⟩
    rw [hx] at ht
    cases ht

/-- Witness of C21: the sample tables with an operation without start time put between the
seeding and the plowing. -/
theorem C21_operation_without_start_is_not_counted_witness :
    ∃ r, GetDailyReport ⟨[sampleWorker], [sampleField], [sampleSeeding] ++ [samplePlowing]⟩
        sampleClock Faults.none sampleDate = Except.ok r ∧
      GetDailyReport
        ⟨[sampleWorker], [sampleField], [sampleSeeding] ++ sampleUnstarted :: [samplePlowing]⟩
        sampleClock Faults.none sampleDate = Except.ok r ∧
      ¬ StartsOn (sampleDate / 86400000000) sampleUnstarted :=
  C21_operation_without_start_is_not_counted [sampleWorker] [sampleField] [sampleSeeding]
    [samplePlowing] sampleUnstarted sampleClock sampleDate rfl

/-- C22: for every store and every id, `CompleteOperation`, when its statement is not
rejected, leaves the workers, fields and schedules as they are, leaves every operation
with another id as it is, and in the operations with the given id sets `status` to
`completed` and `completed_at` and `updated_at` to the current instant, every other column
(among them `start_time`, `end_time`, `worker_id`, `field_id`, `type`) keeping its value.
Consequently, for every operation `o` with that id that started on the day of `date`, has
no end time and refers to worker row `w` (worker ids being a primary key), the reports
after the completion count it in `completed_operations`, and the hours of the entry of `w`
still grow with the clock. -/
theorem C22_complete_operation_frame (st : Store) (now : Timestamp) (id : Int) :
    ∃ st2, CompleteOperation st false now id = Except.ok st2 ∧
      st2.workers = st.workers ∧ st2.fields = st.fields ∧ st2.schedules = st.schedules ∧
      st2.operations = st.operations.map (fun x =>
        if x.ID = id then
          { ID := x.ID, ScheduleID := x.ScheduleID, WorkerID := x.WorkerID,
            FieldID := x.FieldID, OpType := x.OpType, Description := x.Description,
            Status := some "completed", StartTime := x.StartTime, EndTime := x.EndTime,
            CompletedAt := some now, Notes := x.Notes, CreatedAt := x.CreatedAt,
            UpdatedAt := some now }
        else x) ∧
      ∀ (clk1 clk2 : Clock) (date : Timestamp) (o : Operation) (w : Worker),
        (st.workers.map Worker.ID).Nodup → w ∈ st.workers → o ∈ st.operations →
        o.ID = id → StartsOn (date / 86400000000) o → o.WorkerID = some w.ID →
        o.EndTime = Option.none → clk1.workerStats < clk2.workerStats →
        ∃ r1 r2 e1 e2, GetDailyReport st2.toDB clk1 Faults.none date = Except.ok r1 ∧
          GetDailyReport st2.toDB clk2 Faults.none date = Except.ok r2 ∧
          1 ≤ r1.CompletedOps ∧ 1 ≤ r2.CompletedOps ∧
          r1.WorkerStats.filter (fun x => decide (x.WorkerID = w.ID)) = [e1] ∧
          r2.WorkerStats.filter (fun x => decide (x.WorkerID = w.ID)) = [e2] ∧
          e1.HoursWorked < e2.HoursWorked := by
  refine ⟨_, rfl, rfl, rfl, rfl, rfl, ?_⟩
  intro clk1 clk2 date o w hpk hw ho hid hday href hopen hlt
  have hmem : ({ o with
      Status := some "completed", CompletedAt := some now, UpdatedAt := some now } :
      Operation) ∈ updateWhereID st.operations Operation.ID id (fun r =>
        { r with
          Status := some "completed", CompletedAt := some now, UpdatedAt := some now }) := by
    unfold updateWhereID
    exact List.mem_map.mpr ⟨o, ho, by simp [hid]⟩
  have key : ∃ o2 ∈ updateWhereID st.operations Operation.ID id (fun r =>
        { r with
          Status := some "completed", CompletedAt := some now, UpdatedAt := some now }),
      StartsOn (date / 86400000000) o2 ∧ o2.Status = some "completed" ∧
      o2.WorkerID = some w.ID ∧ o2.EndTime = Option.none :=
    ⟨_, hmem, hday, rfl, href, hopen⟩
  obtain ⟨o2, hmem2, hd2, hs2, hr2, hop2⟩ := key
  obtain ⟨e1, e2, h1, h2, _, hlt2⟩ := workerStatsOf_hours_grow
    ({ st with
        operations := updateWhereID st.operations Operation.ID id fun r =>
          { r with
            Status := some "completed", CompletedAt := some now,
            UpdatedAt := some now } } : Store).toDB
    clk1.workerStats clk2.workerStats date o2 w hpk hw hmem2 hd2 hr2 hop2 hlt
  have hcompleted : ∀ clk : Clock, ∃ r, GetDailyReport
      ({ st with
          operations := updateWhereID st.operations Operation.ID id fun r =>
            { r with
              Status := some "completed", CompletedAt := some now,
              UpdatedAt := some now } } : Store).toDB clk Faults.none date = Except.ok r ∧
      1 ≤ r.CompletedOps ∧ r.WorkerStats = workerStatsOf
        ({ st with
            operations := updateWhereID st.operations Operation.ID id fun r =>
              { r with
                Status := some "completed", CompletedAt := some now,
                UpdatedAt := some now } } : Store).toDB clk.workerStats date := by
    intro clk
    refine ⟨_, GetDailyReport_noFaults _ clk date, ?_, rfl⟩
    show 1 ≤ countStatus "completed" (matching _ date)
    unfold countStatus
    have hin : o2 ∈ matching ({ st with
        operations := updateWhereID st.operations Operation.ID id fun r =>
          { r with
            Status := some "completed", CompletedAt := some now,
            UpdatedAt := some now } } : Store).toDB date := by
      rw [matching_eq]
      exact List.mem_filter.mpr ⟨hmem2, by simpa using hd2⟩
    have hpos : 0 < (matching ({ st with
        operations := updateWhereID st.operations Operation.ID id fun r =>
          { r with
            Status := some "completed", CompletedAt := some now,
            UpdatedAt := some now } } : Store).toDB date).countP
        fun x => decide (x.Status = some "completed") :=
      List.countP_pos_iff.mpr ⟨o2, hin, by simpa using hs2⟩
    exact_mod_cast hpos
  obtain ⟨r1, hr1, hc1, hw1⟩ := hcompleted clk1
  obtain ⟨r2, hr2b, hc2, hw2⟩ := hcompleted clk2
  exact ⟨r1, r2, e1, e2, hr1, hr2b, hc1, hc2, by rw [hw1]; exact h1, by rw [hw2]; exact h2,
    hlt2⟩

/-- Witness of C22: completing the open plowing (operation 2) of the sample store at 12:30
and reporting 2024-05-01 at 12:00 and at 13:00; the hypotheses of the consequence hold
there for the plowing and the sample worker. -/
theorem C22_complete_operation_frame_witness :
    ∃ st2, CompleteOperation sampleStore false (timestampOf 2024 5 1 12 30) 2 =
        Except.ok st2 ∧
      st2.workers = sampleStore.workers ∧ st2.fields = sampleStore.fields ∧
      st2.schedules = sampleStore.schedules ∧
      st2.operations = sampleStore.operations.map (fun x =>
        if x.ID = 2 then
          { ID := x.ID, ScheduleID := x.ScheduleID, WorkerID := x.WorkerID,
            FieldID := x.FieldID, OpType := x.OpType, Description := x.Description,
            Status := some "completed", StartTime := x.StartTime, EndTime := x.EndTime,
            CompletedAt := some (timestampOf 2024 5 1 12 30), Notes := x.Notes,
            CreatedAt := x.CreatedAt, UpdatedAt := some (timestampOf 2024 5 1 12 30) }
        else x) ∧
      ∃ r1 r2 e1 e2, GetDailyReport st2.toDB sampleClock Faults.none sampleDate
          = Except.ok r1 ∧
        GetDailyReport st2.toDB laterClock Faults.none sampleDate = Except.ok r2 ∧
        1 ≤ r1.CompletedOps ∧ 1 ≤ r2.CompletedOps ∧
        r1.WorkerStats.filter (fun x => decide (x.WorkerID = sampleWorker.ID)) = [e1] ∧
        r2.WorkerStats.filter (fun x => decide (x.WorkerID = sampleWorker.ID)) = [e2] ∧
        e1.HoursWorked < e2.HoursWorked := by
  obtain ⟨st2, h1, h2, h3, h4, h5, h6⟩ :=
    C22_complete_operation_frame sampleStore (timestampOf 2024 5 1 12 30) 2
  exact ⟨st2, h1, h2, h3, h4, h5,
    h6 sampleClock laterClock sampleDate samplePlowing sampleWorker (by decide) (by decide)
      (by decide) rfl (by decide) rfl rfl (by decide)⟩

end Agroport
